import Mathlib

/-!
Clause codec of `picker`: fuzzy and multi_match.

A shallow embedding of `fuzzy_query.go`, `multi_match_query.go`,
`range_field.go`, `binary_field.go`, `search/match.go`, `search/prefix_length.go`,
`search/cutoff_frequency.go`, `search/max_boost.go` and `mapping/store.go`.

* JSON texts (`[]byte`, `dynamic.JSON`) are represented by their token trees. A
  token tree stands for its compact text, in which a string is spelled with
  only the quote and the backslash escaped; other spellings of the same
  string are not told apart.
* A Go method with a pointer receiver becomes a function that takes the
  receiver's prior state and returns its state after the call.
* A Go `error` result is an `Option Err` (`none` is `nil`).
* Go maps are association lists with distinct keys; the order in which `range`
  visits a map is not fixed by Go, so the entry a `range` loop sees first is
  selected by an explicit `pick` argument and theorems quantify over it.
* The parameter mixins embedded in the clauses, their setters and the helpers
  `marshalClauseParams` / `unmarshalClauseParams` are declared outside the
  files embedded here. They are taken as parameters (`FuzzyParamOps`,
  `MultiMatchParamOps`), acting on an arbitrary mixin state `P`. A reference
  instance of each, modelled from the spec, serves to evaluate the clauses
  on concrete inputs.
* A method that may call itself without end takes a bound `fuel` on the depth
  of calls and yields `none` when the bound is reached before it returns.
* The types of package `dynamic` (`dynamic.JSON`, `dynamic.Number`,
  `dynamic.StringNumberBoolOrTime`) are modelled from the spec's dynamic value.
  `dynamic.NewNumber` reads a text the way Go's `strconv` does: as an integer
  with an optional base prefix, else as a decimal floating-point literal with
  an optional exponent, whose value must be within the range of `float64`.
  A number is kept as an exact decimal; the rounding of `float64`, digit
  separators, hexadecimal floating-point literals, infinities and
  not-a-number are not modelled.
* Go strings are represented by their text; `len(s) == 0` is emptiness either
  way. Byte strings that are not JSON texts have no token tree and are not
  covered.
-/

namespace Picker

/-! ## JSON values and Go maps -/

/-- JSON token trees. A number keeps its literal text. -/
inductive JSON where
  | null
  | bool (b : Bool)
  | num (lit : String)
  | str (s : String)
  | arr (items : List JSON)
  | obj (members : List (String × JSON))

instance : Inhabited JSON := ⟨JSON.null⟩

/-- The word `encoding/json` uses for a token in an `UnmarshalTypeError`. -/
def JSON.kind : JSON → String
  | .null => "null"
  | .bool _ => "bool"
  | .num _ => "number"
  | .str _ => "string"
  | .arr _ => "array"
  | .obj _ => "object"

/-- Modelled from the spec: the discriminant identifying a clause's kind. The
type and its constants are declared outside the embedded files; the
constants named in them are `KindFuzzy` and `QueryKindMultiMatch` (package
`picker`) and `TypeMatch` and `TypeTerm` (package `search`). -/
inductive Kind where
  | KindFuzzy
  | QueryKindMultiMatch
  | TypeMatch
  | TypeTerm
  deriving DecidableEq, Repr

/-- Modelled from the spec: the error values, declared outside the embedded
files. `ErrValueRequired`, `ErrQueryRequired` and `ErrFieldRequired` are the
package's sentinel errors for a missing required field; `unmarshalType` is `*json.UnmarshalTypeError`;
`param` is the error of one parameter unit (its key and the reason) and
`aggregate` a list of such entries gathered in one decoding pass;
`invalidNumber` is the error of `dynamic.NewNumber` on a text that is not a
number or whose value is out of range; `queryError` is the value built by `NewQueryError` / `newQueryError`. -/
inductive Err where
  | ErrValueRequired
  | ErrQueryRequired
  | ErrFieldRequired
  | unmarshalType (value : String) (goType : String)
  | param (key : String) (reason : String)
  | aggregate (entries : List (String × String))
  | invalidNumber (text : String)
  | queryError (cause : Err) (kind : Kind) (fields : List String)
  deriving DecidableEq, Repr

/-- Modelled from the spec: `NewQueryError` is declared outside the embedded
files. A query error carries the originating clause kind and the field path(s)
involved, and wraps an underlying cause. -/
def NewQueryError (err : Err) (kind : Kind) (fields : List String) : Err :=
  Err.queryError err kind fields

/-- Modelled from the spec: `newQueryError`, the spelling used by
`multi_match_query.go`; same contract as `NewQueryError`. -/
def newQueryError (err : Err) (kind : Kind) (fields : List String) : Err :=
  Err.queryError err kind fields

/-- Go maps keyed by strings (`map[string]dynamic.JSON`, `dynamic.Map`): an
association list whose keys are kept distinct by `GoMap.set`. -/
structure GoMap where
  entries : List (String × JSON)

/-- The empty map. -/
def GoMap.empty : GoMap := ⟨[]⟩

/-- Assignment `m[k] = v` on an association list. -/
def setEntry (k : String) (v : JSON) : List (String × JSON) → List (String × JSON)
  | [] => [(k, v)]
  | e :: rest => if e.1 = k then (k, v) :: rest else e :: setEntry k v rest

/-- Assignment `m[k] = v`. -/
def GoMap.set (m : GoMap) (k : String) (v : JSON) : GoMap :=
  ⟨setEntry k v m.entries⟩

/-- Lookup `v, ok := m[k]`. -/
def GoMap.get (m : GoMap) (k : String) : Option JSON :=
  (m.entries.find? (fun e => e.1 = k)).map (fun e => e.2)

/-- Number of keys, `len(m)`. -/
def GoMap.len (m : GoMap) : Nat := m.entries.length

/-- The entry a `for k, v := range m` loop visits first. Go leaves the
iteration order of a map unspecified; `pick` selects it. An empty map yields
`none` (the loop body does not run). -/
def GoMap.rangeFirst (m : GoMap) (pick : Nat) : Option (String × JSON) :=
  m.entries[pick % m.entries.length]?

/-- Lexicographic order on character sequences by code point (for strings,
the order of their UTF-8 bytes, which `json.Marshal` sorts map keys by). -/
def charsLt : List Char → List Char → Bool
  | [], [] => false
  | [], _ :: _ => true
  | _ :: _, [] => false
  | a :: as, b :: bs =>
    if a.toNat < b.toNat then true
    else if b.toNat < a.toNat then false
    else charsLt as bs

/-- Strict order of map keys. -/
def keyLt (a b : String) : Bool := charsLt a.toList b.toList

/-- Insertion of an entry into a list ordered by key. -/
def insertByKey (e : String × JSON) : List (String × JSON) → List (String × JSON)
  | [] => [e]
  | x :: xs => if keyLt e.1 x.1 then e :: x :: xs else x :: insertByKey e xs

/-- Entries of a map ordered by key, the order `json.Marshal` writes them in. -/
def sortByKey : List (String × JSON) → List (String × JSON)
  | [] => []
  | e :: rest => insertByKey e (sortByKey rest)

/-- The result of `json.Marshal` on a map whose values are already JSON: an object with its
keys in sorted order. -/
def jsonMarshalMap (m : GoMap) : JSON :=
  JSON.obj (sortByKey m.entries)

/-- The result of `json.Unmarshal(data, &d)` for `d` of type `map[string]dynamic.JSON`: `null`
sets the map to nil, an object stores each member (a repeated key keeps its
last value), any other token is a type error and leaves `d` as it was. -/
def jsonUnmarshalMap (data : JSON) (d : GoMap) : GoMap × Option Err :=
  match data with
  | .null => (GoMap.empty, none)
  | .obj members => (members.foldl (fun m e => m.set e.1 e.2) d, none)
  | other => (d, some (Err.unmarshalType other.kind "map[string]dynamic.JSON"))

/-- The result of `json.Unmarshal(v, &s)` for `s` of type `string` holding `init`: `null` leaves
`s` unchanged, a string token is stored, any other token is a type error. -/
def jsonUnmarshalString (v : JSON) (init : String) : Except Err String :=
  match v with
  | .null => .ok init
  | .str s => .ok s
  | other => .error (Err.unmarshalType other.kind "string")

/-- The decoding of one element of a `[]string`. -/
def jsonUnmarshalStringElem (v : JSON) : Except Err String :=
  jsonUnmarshalString v ""

/-- The result of `json.Unmarshal(v, &xs)` for `xs` of type `[]string`: `null` gives the nil
slice, an array is decoded element by element into a fresh slice, any other
token is a type error. -/
def jsonUnmarshalStringSlice (v : JSON) (_init : List String) : Except Err (List String) :=
  match v with
  | .null => .ok []
  | .arr items => items.mapM jsonUnmarshalStringElem
  | other => .error (Err.unmarshalType other.kind "[]string")

/-- The constant `dynamic.Null`, the JSON text `null`. -/
def dynamicNull : JSON := JSON.null

/-- Values of Go type `interface{}` handed to the builders: nil, a boolean, an
integer, a floating-point number (its literal), a string, or a struct value
of one of the range-field params types (the name of its type and its three
attributes). -/
inductive Any where
  | nil
  | bool (b : Bool)
  | int (n : Int)
  | float (lit : String)
  | str (s : String)
  | rangeFieldParams (goType : String) (Coerce Index Store : Any)
  deriving DecidableEq, Repr

/-- Modelled from the spec: the Go type `Rewrite` (declared outside the embedded
files), an enum over rewrite-method names, kept as the name. -/
abbrev Rewrite := String

/-- Modelled from the spec: the Go type `ZeroTerms` (declared outside the
embedded files), an enum over policy names, kept as the name. -/
abbrev ZeroTerms := String

/-- Modelled from the spec: the Go type `Operator` (declared outside the
embedded files), kept as its name. -/
abbrev Operator := String

/-- Modelled from the spec: the Go type `MultiMatchType` (declared outside the
embedded files), kept as its name; its JSON form is that name as a string. -/
abbrev MultiMatchType := String

/-! ## fuzzy_query.go -/

/-- The builder input `FuzzyQuery`. -/
structure FuzzyQuery where
  Value : String
  Field : String
  Fuzziness : String
  PrefixLength : Int
  NoTranspositions : Bool
  Rewrite : Rewrite
  MaxExpansions : Any
  Name : String

/-- The clause `FuzzyClause`: the field name, the search value, and the state
`params` of the embedded parameter mixins (`fuzzinessParam`,
`maxExpansionsParam`, `prefixLengthParam`, `transpositionsParam`,
`rewriteParam`, `nameParam`, `completeClause`). -/
structure FuzzyClause (P : Type) where
  field : String
  value : String
  params : P

/-- The operations on the mixins of a `FuzzyClause` that are declared outside
`fuzzy_query.go`. A setter returns the mixin state after the call and, where
`Fuzzy` reads the Go method's error, that error (`Fuzzy` discards whatever
`SetTranspositions`, `SetName`, `SetFuzziness` and `SetPrefixLength` return). `marshalClauseParams` returns the
`dynamic.Map` of the units' entries; `unmarshalClauseParams` returns the
mixin state after decoding together with its `(fields, err)` result. -/
structure FuzzyParamOps (P : Type) where
  zero : P
  SetMaxExpansions : Any → P → P × Option Err
  SetRewrite : Rewrite → P → P × Option Err
  SetTranspositions : Bool → P → P
  SetName : String → P → P
  SetFuzziness : String → P → P
  SetPrefixLength : Int → P → P
  marshalClauseParams : P → Except Err GoMap
  unmarshalClauseParams : JSON → P → P × Except Err GoMap

/-- The zero value `FuzzyClause{}`. -/
def FuzzyClause.zero {P : Type} (E : FuzzyParamOps P) : FuzzyClause P :=
  { field := "", value := "", params := E.zero }

/-- The method `Vale`, the getter of the search value. -/
def FuzzyClause.Vale {P : Type} (f : FuzzyClause P) : String := f.value

/-- The method `Field`. -/
def FuzzyClause.Field {P : Type} (f : FuzzyClause P) : String := f.field

/-- The method `Kind`. -/
def FuzzyClause.Kind {P : Type} (_f : FuzzyClause P) : Kind := Kind.KindFuzzy

/-- The method `IsEmpty`: `!(len(f.field) != 0 || len(f.value) != 0)`. -/
def FuzzyClause.IsEmpty {P : Type} (f : FuzzyClause P) : Bool :=
  !(f.field.length != 0 || f.value.length != 0)

/-- The method `setValue`: it checks the length of `v` and returns; the
receiver is not assigned. -/
def FuzzyClause.setValue {P : Type} (f : FuzzyClause P) (v : String) :
    FuzzyClause P × Option Err :=
  if v.length = 0 then (f, some Err.ErrValueRequired)
  else (f, none)

/-- The method `Fuzzy` of `FuzzyQuery`: the clause `q` and the error returned. -/
def FuzzyQuery.Fuzzy {P : Type} (E : FuzzyParamOps P) (f : FuzzyQuery) :
    FuzzyClause P × Option Err :=
  let q : FuzzyClause P := { field := f.Field, value := "", params := E.zero }
  match q.setValue f.Value with
  | (q, some err) => (q, some (NewQueryError err Kind.KindFuzzy [f.Field]))
  | (q, none) =>
    match E.SetMaxExpansions f.MaxExpansions q.params with
    | (p, some err) => ({ q with params := p }, some (NewQueryError err Kind.KindFuzzy [f.Field]))
    | (p, none) =>
      match E.SetRewrite f.Rewrite p with
      | (p, some err) =>
        ({ q with params := p }, some (NewQueryError err Kind.KindFuzzy [f.Field]))
      | (p, none) =>
        let p := E.SetTranspositions (!f.NoTranspositions) p
        let p := E.SetName f.Name p
        let p := E.SetFuzziness f.Fuzziness p
        let p := E.SetPrefixLength f.PrefixLength p
        ({ q with params := p }, none)

/-- The method `marshalClauseJSON`: the units' entries, then `params["value"] = f.value`. -/
def FuzzyClause.marshalClauseJSON {P : Type} (E : FuzzyParamOps P) (f : FuzzyClause P) :
    Except Err JSON :=
  match E.marshalClauseParams f.params with
  | .error err => .error err
  | .ok params => .ok (jsonMarshalMap (params.set "value" (JSON.str f.value)))

/-- The method `MarshalJSON` of `FuzzyClause`. -/
def FuzzyClause.MarshalJSON {P : Type} (E : FuzzyParamOps P) (f : FuzzyClause P) :
    Except Err JSON :=
  if f.IsEmpty then .ok dynamicNull
  else
    match f.marshalClauseJSON E with
    | .error err => .error err
    | .ok data => .ok (jsonMarshalMap (GoMap.empty.set f.field data))

/-- The method `unmarshalClauseJSON`: the receiver after the call and the error. -/
def FuzzyClause.unmarshalClauseJSON {P : Type} (E : FuzzyParamOps P) (data : JSON)
    (f : FuzzyClause P) : FuzzyClause P × Option Err :=
  match E.unmarshalClauseParams data f.params with
  | (p, .error err) => ({ f with params := p }, some err)
  | (p, .ok fields) =>
    let f := { f with params := p }
    match fields.get "value" with
    | some v =>
      match jsonUnmarshalString v "" with
      | .error err => (f, some err)
      | .ok value => ({ f with value := value }, none)
    | none => (f, none)

/-- The method `UnmarshalJSON` of `FuzzyClause`: the receiver after the call and the
error. `prior` is the receiver before the call; `pick` fixes which entry of
the decoded map the `range` loop reaches first. -/
def FuzzyClause.UnmarshalJSON {P : Type} (E : FuzzyParamOps P) (pick : Nat) (data : JSON)
    (_prior : FuzzyClause P) : FuzzyClause P × Option Err :=
  let f : FuzzyClause P := FuzzyClause.zero E
  match jsonUnmarshalMap data GoMap.empty with
  | (_, some err) => (f, some err)
  | (d, none) =>
    match d.rangeFirst pick with
    | some (k, v) => FuzzyClause.unmarshalClauseJSON E v { f with field := k }
    | none => (f, none)

/-- The method `Clear`. -/
def FuzzyClause.Clear {P : Type} (E : FuzzyParamOps P) (_f : FuzzyClause P) : FuzzyClause P :=
  FuzzyClause.zero E

/-! ## A reference instance of the fuzzy parameter units -/

/-- Modelled from the spec: the state of the parameter units embedded in a
fuzzy clause (the mixin declarations are outside the embedded files). Each
unit holds an optional value; the string units use the empty string for
"unset". -/
structure FuzzyUnits where
  fuzziness : String
  maxExpansions : Option Int
  prefixLength : Option Int
  transpositions : Option Bool
  rewrite : Rewrite
  name : String
  deriving DecidableEq, Repr

/-- Modelled from the spec: the zero value of the fuzzy units, every unit
unset. -/
def FuzzyUnits.zero : FuzzyUnits :=
  { fuzziness := "", maxExpansions := none, prefixLength := none,
    transpositions := none, rewrite := "", name := "" }

/-- Modelled from the spec: the reading of decimal digits as a natural number,
most significant digit first (numeric strings are parsed as numbers). -/
def digitsToNat : List Char → Nat → Option Nat
  | [], acc => some acc
  | c :: cs, acc =>
    if c.isDigit then digitsToNat cs (acc * 10 + (c.toNat - 48)) else none

/-- Modelled from the spec: the reading of an optionally signed decimal
integer literal. -/
def parseInt (s : String) : Option Int :=
  match s.toList with
  | [] => none
  | '-' :: cs => if cs.isEmpty then none else (digitsToNat cs 0).map (fun n => -(n : Int))
  | cs => (digitsToNat cs 0).map (fun n => (n : Int))

/-- Modelled from the spec: the decimal literal an integer unit is encoded as. -/
def intLit (n : Int) : String := toString n

/-- Modelled from the spec: the closed set of rewrite-method names; the empty
name is "unspecified". -/
def rewriteNames : List String :=
  ["constant_score", "constant_score_boolean", "scoring_boolean",
   "top_terms_blended_freqs_N", "top_terms_boost_N", "top_terms_N"]

/-- Modelled from the spec: a setter of an integer unit accepts an untyped
numeric-or-nil input, sets the unit only when a value is present, accepts a
number or a numeric string and rejects negative values. -/
def setIntUnit (key : String) (v : Any) (old : Option Int) : Option Int × Option Err :=
  match v with
  | .nil => (old, none)
  | .int n =>
    if n < 0 then (old, some (Err.param key "negative")) else (some n, none)
  | .str s =>
    match parseInt s with
    | some n => if n < 0 then (old, some (Err.param key "negative")) else (some n, none)
    | none => (old, some (Err.param key "not a number"))
  | _ => (old, some (Err.param key "not a number"))

/-- Modelled from the spec: a setter of a boolean unit accepts an untyped
boolean-or-nil input, a boolean or its text. -/
def setBoolUnit (key : String) (v : Any) (old : Option Bool) : Option Bool × Option Err :=
  match v with
  | .nil => (old, none)
  | .bool b => (some b, none)
  | .str s =>
    if s = "true" then (some true, none)
    else if s = "false" then (some false, none)
    else (old, some (Err.param key "not a boolean"))
  | _ => (old, some (Err.param key "not a boolean"))

/-- Modelled from the spec: `SetMaxExpansions` on the fuzzy units. -/
def FuzzyUnits.SetMaxExpansions (v : Any) (p : FuzzyUnits) : FuzzyUnits × Option Err :=
  let r := setIntUnit "max_expansions" v p.maxExpansions
  ({ p with maxExpansions := r.1 }, r.2)

/-- Modelled from the spec: `SetRewrite` accepts the names of the closed set
and the unspecified name, and rejects every other name. -/
def FuzzyUnits.SetRewrite (r : Rewrite) (p : FuzzyUnits) : FuzzyUnits × Option Err :=
  if r = "" ∨ r ∈ rewriteNames then ({ p with rewrite := r }, none)
  else (p, some (Err.param "rewrite" "unknown rewrite method"))

/-- Modelled from the spec: the entry of an integer unit with default `dflt`,
written when the unit holds a value other than its default (no
default-valued optional key appears). -/
def encodeIntUnit (key : String) (dflt : Int) (v : Option Int) (m : GoMap) : GoMap :=
  match v with
  | some n => if n = dflt then m else m.set key (JSON.num (intLit n))
  | none => m

/-- Modelled from the spec: the entry of an integer unit that has no default,
written when the unit holds a value. -/
def encodeSetIntUnit (key : String) (v : Option Int) (m : GoMap) : GoMap :=
  match v with
  | some n => m.set key (JSON.num (intLit n))
  | none => m

/-- Modelled from the spec: the entry of a string unit, written when the unit
holds a non-empty value. -/
def encodeStrUnit (key : String) (v : String) (m : GoMap) : GoMap :=
  if v = "" then m else m.set key (JSON.str v)

/-- Modelled from the spec: the entry of a boolean unit with default `dflt`,
written when the unit holds a value other than its default. -/
def encodeBoolUnit (key : String) (dflt : Bool) (v : Option Bool) (m : GoMap) : GoMap :=
  match v with
  | some b => if b = dflt then m else m.set key (JSON.bool b)
  | none => m

/-- Modelled from the spec: `marshalClauseParams` writes, unit by unit, one
key per unit that has a value into a fresh `dynamic.Map`; the defaults are
50 for `max_expansions`, 0 for `prefix_length` and true for
`transpositions`. -/
def FuzzyUnits.marshalClauseParams (p : FuzzyUnits) : Except Err GoMap :=
  .ok (encodeStrUnit "_name" p.name
    (encodeStrUnit "rewrite" p.rewrite
      (encodeBoolUnit "transpositions" true p.transpositions
        (encodeIntUnit "prefix_length" 0 p.prefixLength
          (encodeIntUnit "max_expansions" 50 p.maxExpansions
            (encodeStrUnit "fuzziness" p.fuzziness GoMap.empty))))))

/-- Modelled from the spec: the decoding of an integer unit. An absent key
leaves the unit as it was; a number or a numeric string is accepted; a
negative or unparseable value is an invalid parameter. -/
def decodeIntUnit (key : String) (m : GoMap) (old : Option Int) :
    Option Int × List (String × String) :=
  match m.get key with
  | none => (old, [])
  | some (.num lit) =>
    match parseInt lit with
    | some n => if n < 0 then (old, [(key, "negative")]) else (some n, [])
    | none => (old, [(key, "not an integer")])
  | some (.str lit) =>
    match parseInt lit with
    | some n => if n < 0 then (old, [(key, "negative")]) else (some n, [])
    | none => (old, [(key, "not an integer")])
  | some _ => (old, [(key, "not a number")])

/-- Modelled from the spec: the decoding of a string unit. -/
def decodeStrUnit (key : String) (m : GoMap) (old : String) :
    String × List (String × String) :=
  match m.get key with
  | none => (old, [])
  | some (.str s) => (s, [])
  | some _ => (old, [(key, "not a string")])

/-- Modelled from the spec: the decoding of a boolean unit. -/
def decodeBoolUnit (key : String) (m : GoMap) (old : Option Bool) :
    Option Bool × List (String × String) :=
  match m.get key with
  | none => (old, [])
  | some (.bool b) => (some b, [])
  | some _ => (old, [(key, "not a boolean")])

/-- Modelled from the spec: the decoding of the rewrite unit; only names of the
closed set are accepted. -/
def decodeRewriteUnit (m : GoMap) (old : Rewrite) : Rewrite × List (String × String) :=
  match m.get "rewrite" with
  | none => (old, [])
  | some (.str s) =>
    if s ∈ rewriteNames then (s, []) else (old, [("rewrite", "unknown rewrite method")])
  | some _ => (old, [("rewrite", "not a string")])

/-- Modelled from the spec: `unmarshalClauseParams` reads the object into a
map, passes it through each unit's decoder in the canonical order,
accumulates the invalid parameters into one error, and returns the map of the
object's fields. -/
def FuzzyUnits.unmarshalClauseParams (data : JSON) (p : FuzzyUnits) :
    FuzzyUnits × Except Err GoMap :=
  match jsonUnmarshalMap data GoMap.empty with
  | (_, some err) => (p, .error err)
  | (m, none) =>
    let fz := decodeStrUnit "fuzziness" m p.fuzziness
    let me := decodeIntUnit "max_expansions" m p.maxExpansions
    let pl := decodeIntUnit "prefix_length" m p.prefixLength
    let tr := decodeBoolUnit "transpositions" m p.transpositions
    let rw := decodeRewriteUnit m p.rewrite
    let nm := decodeStrUnit "_name" m p.name
    let q : FuzzyUnits :=
      { fuzziness := fz.1, maxExpansions := me.1, prefixLength := pl.1,
        transpositions := tr.1, rewrite := rw.1, name := nm.1 }
    let errs := fz.2 ++ me.2 ++ pl.2 ++ tr.2 ++ rw.2 ++ nm.2
    if errs.isEmpty then (q, .ok m) else (q, .error (Err.aggregate errs))

/-- Modelled from the spec: a reference instance of the operations on the
parameter units of a fuzzy clause. -/
def refFuzzyOps : FuzzyParamOps FuzzyUnits where
  zero := FuzzyUnits.zero
  SetMaxExpansions := FuzzyUnits.SetMaxExpansions
  SetRewrite := FuzzyUnits.SetRewrite
  SetTranspositions := fun b p => { p with transpositions := some b }
  SetName := fun n p => { p with name := n }
  SetFuzziness := fun z p => { p with fuzziness := z }
  SetPrefixLength := fun n p => { p with prefixLength := some n }
  marshalClauseParams := FuzzyUnits.marshalClauseParams
  unmarshalClauseParams := FuzzyUnits.unmarshalClauseParams

/-- The query of the fuzzy scenario: field `user.name`, value `kimch`. -/
def kimchQuery : FuzzyQuery :=
  { Value := "kimch", Field := "user.name", Fuzziness := "", PrefixLength := 1,
    NoTranspositions := false, Rewrite := "", MaxExpansions := Any.int 25, Name := "" }

/-! ## multi_match_query.go -/

/-- The builder input `MultiMatchQueryParams`. -/
structure MultiMatchQueryParams where
  Name : String
  Fields : List String
  Query : String
  Analyzer : String
  AutoGenerateSynonymsPhraseQuery : Any
  FuzzyTranspositions : Any
  Fuzziness : String
  FuzzyRewrite : Rewrite
  Lenient : Bool
  Operator : Operator
  MaxExpansions : Any
  PrefixLength : Any
  MinimumShouldMatchParam : String
  ZeroTermsQuery : ZeroTerms
  CutoffFrequency : Any

/-- The clause `MultiMatchQuery`: the query string, the list of fields (the nil
slice is the empty list), and the state `params` of the embedded parameter
mixins, `multiMatchTypeParam` with its field `typ` among them. -/
structure MultiMatchQuery (P : Type) where
  query : String
  fields : List String
  params : P

/-- The operations on the mixins of a `MultiMatchQuery` that are declared
outside `multi_match_query.go`, with the accessor of the field `typ` and the
constant `MultiMatchTypeUnspecified`. -/
structure MultiMatchParamOps (P : Type) where
  zero : P
  typ : P → MultiMatchType
  MultiMatchTypeUnspecified : MultiMatchType
  SetAnalyzer : String → P → P
  SetAutoGenerateSynonymsPhraseQuery : Any → P → P × Option Err
  SetFuzziness : String → P → P
  SetFuzzyRewrite : Rewrite → P → P × Option Err
  SetFuzzyTranspositions : Any → P → P × Option Err
  SetLenient : Bool → P → P
  SetMaxExpansions : Any → P → P × Option Err
  SetPrefixLength : Any → P → P × Option Err
  SetZeroTermsQuery : ZeroTerms → P → P × Option Err
  cutoffFrequencySet : Any → P → P × Option Err
  marshalClauseParams : P → Except Err GoMap
  unmarshalClauseParams : JSON → P → P × Except Err GoMap

/-- The zero value `MultiMatchQuery{}`. -/
def MultiMatchQuery.zero {P : Type} (E : MultiMatchParamOps P) : MultiMatchQuery P :=
  { query := "", fields := [], params := E.zero }

/-- The method `Query`. -/
def MultiMatchQuery.Query {P : Type} (mm : MultiMatchQuery P) : String := mm.query

/-- The method `Fields`. -/
def MultiMatchQuery.Fields {P : Type} (mm : MultiMatchQuery P) : List String := mm.fields

/-- The method `SetQuery`. -/
def MultiMatchQuery.SetQuery {P : Type} (mm : MultiMatchQuery P) (q : String) :
    MultiMatchQuery P × Option Err :=
  if q.length = 0 then (mm, some Err.ErrQueryRequired)
  else ({ mm with query := q }, none)

/-- The method `SetFields`. -/
def MultiMatchQuery.SetFields {P : Type} (mm : MultiMatchQuery P) (fields : List String) :
    MultiMatchQuery P × Option Err :=
  if fields.length = 0 then (mm, some Err.ErrFieldRequired)
  else ({ mm with fields := fields }, none)

/-- The method `Clear` on a non-nil receiver. -/
def MultiMatchQuery.Clear {P : Type} (E : MultiMatchParamOps P) (_mm : MultiMatchQuery P) :
    MultiMatchQuery P :=
  MultiMatchQuery.zero E

/-- The method `IsEmpty` on a non-nil receiver. -/
def MultiMatchQuery.IsEmpty {P : Type} (mm : MultiMatchQuery P) : Bool :=
  mm.fields.length == 0 || mm.query.length == 0

/-- The tail of `MultiMatch` after the two required setters: the optional
units, in the order of the source, each failing setter ending the call. -/
def MultiMatchQueryParams.setOptional {P : Type} (E : MultiMatchParamOps P)
    (p : MultiMatchQueryParams) (q : MultiMatchQuery P) : MultiMatchQuery P × Option Err :=
  let s := E.SetAnalyzer p.Analyzer q.params
  match E.SetAutoGenerateSynonymsPhraseQuery p.AutoGenerateSynonymsPhraseQuery s with
  | (s, some err) => ({ q with params := s }, some err)
  | (s, none) =>
  let s := E.SetFuzziness p.Fuzziness s
  match E.SetFuzzyRewrite p.FuzzyRewrite s with
  | (s, some err) =>
    ({ q with params := s }, some (newQueryError err Kind.QueryKindMultiMatch p.Fields))
  | (s, none) =>
  match E.SetFuzzyTranspositions p.FuzzyTranspositions s with
  | (s, some err) => ({ q with params := s }, some err)
  | (s, none) =>
  let s := E.SetLenient p.Lenient s
  match E.SetMaxExpansions p.MaxExpansions s with
  | (s, some err) =>
    ({ q with params := s }, some (newQueryError err Kind.QueryKindMultiMatch p.Fields))
  | (s, none) =>
  match E.SetPrefixLength p.PrefixLength s with
  | (s, some err) =>
    ({ q with params := s }, some (newQueryError err Kind.QueryKindMultiMatch p.Fields))
  | (s, none) =>
  match E.SetZeroTermsQuery p.ZeroTermsQuery s with
  | (s, some err) =>
    ({ q with params := s }, some (newQueryError err Kind.QueryKindMultiMatch p.Fields))
  | (s, none) =>
  match E.cutoffFrequencySet p.CutoffFrequency s with
  | (s, some err) =>
    ({ q with params := s }, some (newQueryError err Kind.QueryKindMultiMatch p.Fields))
  | (s, none) => ({ q with params := s }, none)

/-- The method `MultiMatch` of `MultiMatchQueryParams`: the clause `q` and the error returned. -/
def MultiMatchQueryParams.MultiMatch {P : Type} (E : MultiMatchParamOps P)
    (p : MultiMatchQueryParams) : MultiMatchQuery P × Option Err :=
  let q : MultiMatchQuery P := MultiMatchQuery.zero E
  match q.SetQuery p.Query with
  | (q, some err) => (q, some (newQueryError err Kind.QueryKindMultiMatch p.Fields))
  | (q, none) =>
    match q.SetFields p.Fields with
    | (q, some err) => (q, some (newQueryError err Kind.QueryKindMultiMatch p.Fields))
    | (q, none) => MultiMatchQueryParams.setOptional E p q

/-- The JSON of a `[]string`: `null` for the nil slice, else an array of strings. -/
def jsonMarshalStringSlice (xs : List String) : JSON :=
  match xs with
  | [] => JSON.null
  | _ => JSON.arr (xs.map JSON.str)

/-- The method `MarshalJSON` of `MultiMatchQuery`. -/
def MultiMatchQuery.MarshalJSON {P : Type} (E : MultiMatchParamOps P)
    (mm : MultiMatchQuery P) : Except Err JSON :=
  match E.marshalClauseParams mm.params with
  | .error err => .error err
  | .ok params =>
    let params := params.set "query" (JSON.str mm.query)
    let params :=
      if E.typ mm.params ≠ E.MultiMatchTypeUnspecified then
        params.set "type" (JSON.str (E.typ mm.params))
      else params
    let params := params.set "fields" (jsonMarshalStringSlice mm.fields)
    .ok (jsonMarshalMap params)

/-- The method `UnmarshalJSON` of `MultiMatchQuery`: the receiver after the call and the
error. The decoded `fields` and `typ` are locals of the method. -/
def MultiMatchQuery.UnmarshalJSON {P : Type} (E : MultiMatchParamOps P) (data : JSON)
    (_prior : MultiMatchQuery P) : MultiMatchQuery P × Option Err :=
  let mm : MultiMatchQuery P := MultiMatchQuery.zero E
  match E.unmarshalClauseParams data mm.params with
  | (s, .error err) => ({ mm with params := s }, some err)
  | (s, .ok params) =>
    let mm := { mm with params := s }
    let step1 : MultiMatchQuery P × Option Err :=
      match params.get "query" with
      | some v =>
        match jsonUnmarshalString v "" with
        | .error err => (mm, some err)
        | .ok q => ({ mm with query := q }, none)
      | none => (mm, none)
    match step1 with
    | (mm, some err) => (mm, some err)
    | (mm, none) =>
      let step2 : Option Err :=
        match params.get "fields" with
        | some v =>
          match jsonUnmarshalStringSlice v [] with
          | .error err => some err
          | .ok _fields => none
        | none => none
      match step2 with
      | some err => (mm, some err)
      | none =>
        match params.get "type" with
        | some v =>
          match jsonUnmarshalString v "" with
          | .error err => (mm, some err)
          | .ok _typ => (mm, none)
        | none => (mm, none)

/-! ## A reference instance of the multi_match parameter units -/

/-- Modelled from the spec: the state of the parameter units of a
multi_match clause that its builder or its codec reach (the mixin declarations
are outside the embedded files). -/
structure MultiMatchUnits where
  analyzer : String
  autoGenerateSynonymsPhraseQuery : Option Bool
  fuzziness : String
  fuzzyRewrite : Rewrite
  fuzzyTranspositions : Option Bool
  lenient : Bool
  maxExpansions : Option Int
  prefixLength : Option Int
  zeroTermsQuery : ZeroTerms
  cutoffFrequency : Option Int
  typ : MultiMatchType
  deriving DecidableEq, Repr

/-- Modelled from the spec: the zero value of the multi_match units, every unit
unset. -/
def MultiMatchUnits.zero : MultiMatchUnits :=
  { analyzer := "", autoGenerateSynonymsPhraseQuery := none, fuzziness := "",
    fuzzyRewrite := "", fuzzyTranspositions := none, lenient := false,
    maxExpansions := none, prefixLength := none, zeroTermsQuery := "",
    cutoffFrequency := none, typ := "" }

/-- Modelled from the spec: `marshalClauseParams` on the multi_match units. -/
def MultiMatchUnits.marshalClauseParams (p : MultiMatchUnits) : Except Err GoMap :=
  .ok (encodeSetIntUnit "cutoff_frequency" p.cutoffFrequency
    (encodeStrUnit "zero_terms_query" p.zeroTermsQuery
      (encodeIntUnit "prefix_length" 0 p.prefixLength
        (encodeIntUnit "max_expansions" 50 p.maxExpansions
          (encodeBoolUnit "lenient" false (some p.lenient)
            (encodeBoolUnit "fuzzy_transpositions" true p.fuzzyTranspositions
              (encodeStrUnit "fuzzy_rewrite" p.fuzzyRewrite
                (encodeStrUnit "fuzziness" p.fuzziness
                  (encodeBoolUnit "auto_generate_synonyms_phrase_query" true
                    p.autoGenerateSynonymsPhraseQuery
                    (encodeStrUnit "analyzer" p.analyzer GoMap.empty))))))))))

/-- Modelled from the spec: `unmarshalClauseParams` on the multi_match units;
the reserved keys `query`, `fields` and `type` are left to the clause. -/
def MultiMatchUnits.unmarshalClauseParams (data : JSON) (p : MultiMatchUnits) :
    MultiMatchUnits × Except Err GoMap :=
  match jsonUnmarshalMap data GoMap.empty with
  | (_, some err) => (p, .error err)
  | (m, none) =>
    let an := decodeStrUnit "analyzer" m p.analyzer
    let ag := decodeBoolUnit "auto_generate_synonyms_phrase_query" m
      p.autoGenerateSynonymsPhraseQuery
    let fz := decodeStrUnit "fuzziness" m p.fuzziness
    let fr := decodeStrUnit "fuzzy_rewrite" m p.fuzzyRewrite
    let ft := decodeBoolUnit "fuzzy_transpositions" m p.fuzzyTranspositions
    let le := decodeBoolUnit "lenient" m (some p.lenient)
    let me := decodeIntUnit "max_expansions" m p.maxExpansions
    let pl := decodeIntUnit "prefix_length" m p.prefixLength
    let zt := decodeStrUnit "zero_terms_query" m p.zeroTermsQuery
    let cf := decodeIntUnit "cutoff_frequency" m p.cutoffFrequency
    let q : MultiMatchUnits :=
      { analyzer := an.1, autoGenerateSynonymsPhraseQuery := ag.1, fuzziness := fz.1,
        fuzzyRewrite := fr.1, fuzzyTranspositions := ft.1, lenient := le.1.getD false,
        maxExpansions := me.1, prefixLength := pl.1, zeroTermsQuery := zt.1,
        cutoffFrequency := cf.1, typ := p.typ }
    let errs := an.2 ++ ag.2 ++ fz.2 ++ fr.2 ++ ft.2 ++ le.2 ++ me.2 ++ pl.2 ++ zt.2 ++ cf.2
    if errs.isEmpty then (q, .ok m) else (q, .error (Err.aggregate errs))

/-- Modelled from the spec: a reference instance of the operations on the
parameter units of a multi_match clause. -/
def refMultiMatchOps : MultiMatchParamOps MultiMatchUnits where
  zero := MultiMatchUnits.zero
  typ := fun p => p.typ
  MultiMatchTypeUnspecified := ""
  SetAnalyzer := fun a p => { p with analyzer := a }
  SetAutoGenerateSynonymsPhraseQuery := fun v p =>
    let r := setBoolUnit "auto_generate_synonyms_phrase_query" v
      p.autoGenerateSynonymsPhraseQuery
    ({ p with autoGenerateSynonymsPhraseQuery := r.1 }, r.2)
  SetFuzziness := fun z p => { p with fuzziness := z }
  SetFuzzyRewrite := fun r p =>
    if r = "" ∨ r ∈ rewriteNames then ({ p with fuzzyRewrite := r }, none)
    else (p, some (Err.param "fuzzy_rewrite" "unknown rewrite method"))
  SetFuzzyTranspositions := fun v p =>
    let r := setBoolUnit "fuzzy_transpositions" v p.fuzzyTranspositions
    ({ p with fuzzyTranspositions := r.1 }, r.2)
  SetLenient := fun b p => { p with lenient := b }
  SetMaxExpansions := fun v p =>
    let r := setIntUnit "max_expansions" v p.maxExpansions
    ({ p with maxExpansions := r.1 }, r.2)
  SetPrefixLength := fun v p =>
    let r := setIntUnit "prefix_length" v p.prefixLength
    ({ p with prefixLength := r.1 }, r.2)
  SetZeroTermsQuery := fun z p =>
    if z = "" ∨ z = "none" ∨ z = "all" then ({ p with zeroTermsQuery := z }, none)
    else (p, some (Err.param "zero_terms_query" "unknown policy"))
  cutoffFrequencySet := fun v p =>
    let r := setIntUnit "cutoff_frequency" v p.cutoffFrequency
    ({ p with cutoffFrequency := r.1 }, r.2)
  marshalClauseParams := MultiMatchUnits.marshalClauseParams
  unmarshalClauseParams := MultiMatchUnits.unmarshalClauseParams

/-- A multi_match builder input with every attribute at its Go zero value. -/
def MultiMatchQueryParams.zero : MultiMatchQueryParams :=
  { Name := "", Fields := [], Query := "", Analyzer := "",
    AutoGenerateSynonymsPhraseQuery := Any.nil, FuzzyTranspositions := Any.nil,
    Fuzziness := "", FuzzyRewrite := "", Lenient := false, Operator := "",
    MaxExpansions := Any.nil, PrefixLength := Any.nil, MinimumShouldMatchParam := "",
    ZeroTermsQuery := "", CutoffFrequency := Any.nil }

/-- The clause of the fuzzy scenario: field `user.name`, value `kimch`,
`prefix_length` 1 and `max_expansions` 25. -/
def kimchClause : FuzzyClause FuzzyUnits :=
  { field := "user.name", value := "kimch",
    params := { FuzzyUnits.zero with maxExpansions := some 25, prefixLength := some 1 } }

/-- The entries `marshalClauseParams` yields for `kimchClause`. -/
def kimchParamsMap : GoMap :=
  ⟨[("max_expansions", JSON.num "25"), ("prefix_length", JSON.num "1")]⟩

/-- The fields `unmarshalClauseParams` returns for the encoding of `kimchClause`. -/
def kimchFields : GoMap :=
  ⟨[("max_expansions", JSON.num "25"), ("prefix_length", JSON.num "1"),
    ("value", JSON.str "kimch")]⟩

/-- A fuzzy query with no value and with invalid optional attributes. -/
def noValueQuery : FuzzyQuery :=
  { Value := "", Field := "user.name", Fuzziness := "", PrefixLength := 0,
    NoTranspositions := false, Rewrite := "bogus", MaxExpansions := Any.int (-1), Name := "" }

/-- A fuzzy payload with two top-level keys. -/
def twoKeyPayload : JSON :=
  JSON.obj [("a", JSON.obj [("value", JSON.str "x")]),
            ("b", JSON.obj [("value", JSON.str "y")])]

/-- A multi_match builder input without a query and with invalid optional attributes. -/
def noQueryParams : MultiMatchQueryParams :=
  { MultiMatchQueryParams.zero with
    Fields := ["title"], MaxExpansions := Any.int (-1), FuzzyRewrite := "bogus" }

/-- A multi_match builder input with a query, without fields and with invalid
optional attributes. -/
def noFieldsParams : MultiMatchQueryParams :=
  { MultiMatchQueryParams.zero with
    Query := "quick fox", MaxExpansions := Any.int (-1), FuzzyRewrite := "bogus" }

/-! ## Raw JSON text and dynamic numbers -/

/-- Escaping of the quote and the backslash inside a JSON string. -/
def escapeChars : List Char → List Char
  | [] => []
  | c :: cs =>
    if c = Char.ofNat 34 ∨ c = Char.ofNat 92 then Char.ofNat 92 :: c :: escapeChars cs
    else c :: escapeChars cs

/-- The text of a JSON string token, quotes included. -/
def quoteString (s : String) : String :=
  String.mk (Char.ofNat 34 :: escapeChars s.toList ++ [Char.ofNat 34])

mutual
/-- The method `String` of `dynamic.JSON` (named `rawString` here, next to the type `String`):
the raw text of the value, here the compact text of its token tree. -/
def JSON.rawString : JSON → String
  | .null => "null"
  | .bool true => "true"
  | .bool false => "false"
  | .num lit => lit
  | .str s => quoteString s
  | .arr items => "[" ++ renderItems items ++ "]"
  | .obj members => "\x7b" ++ renderMembers members ++ "\x7d"
/-- The texts of the elements of an array, separated by commas. -/
def renderItems : List JSON → String
  | [] => ""
  | [x] => x.rawString
  | x :: y :: rest => x.rawString ++ "," ++ renderItems (y :: rest)
/-- The texts of the members of an object, separated by commas. -/
def renderMembers : List (String × JSON) → String
  | [] => ""
  | [(k, v)] => quoteString k ++ ":" ++ v.rawString
  | (k, v) :: m :: rest => quoteString k ++ ":" ++ v.rawString ++ "," ++ renderMembers (m :: rest)
end

/-- The method `UnquotedString` of `dynamic.JSON`: the raw text of a string token without
its two quotes, escapes left as they are written, and the raw text of any
other value. -/
def JSON.UnquotedString : JSON → String
  | .str s => String.mk (escapeChars s.toList)
  | other => other.rawString

/-- The method `IsNull` of `dynamic.JSON`. -/
def JSON.IsNull : JSON → Bool
  | .null => true
  | _ => false

/-- The method `IsString` of `dynamic.JSON`. -/
def JSON.IsString : JSON → Bool
  | .str _ => true
  | _ => false

/-- The method `IsNumber` of `dynamic.JSON`. -/
def JSON.IsNumber : JSON → Bool
  | .num _ => true
  | _ => false

/-- The least value of Go type `int64`. -/
def minInt64 : Int := -(2 ^ 63)

/-- The greatest value of Go type `int64`. -/
def maxInt64 : Int := 2 ^ 63 - 1

/-- Modelled from the spec: `dynamic.Number`, the dynamic value of a number that
may arrive as a JSON number or as a numeric string. It is unset, an integer
(`int64`), or a decimal `mant / 10 ^ scale` that was not read as an
integer. -/
inductive Number where
  | unset
  | int (n : Int)
  | float (mant : Int) (scale : Nat)
  deriving DecidableEq, Repr

/-- Modelled from the spec: the value of a character as a digit in the way of
Go's `strconv`: `0` to `9` are 0 to 9 and the letters, in either case, are
10 to 35. -/
def digitVal (c : Char) : Option Nat :=
  if c.isDigit then some (c.toNat - 48)
  else if c.isLower then some (c.toNat - 97 + 10)
  else if c.isUpper then some (c.toNat - 65 + 10)
  else none

/-- Modelled from the spec: the reading of digits in a base, most significant
digit first; a character that is not a digit of the base fails. -/
def digitsInBase (base : Nat) : List Char → Nat → Option Nat
  | [], acc => some acc
  | c :: cs, acc =>
    match digitVal c with
    | some d => if d < base then digitsInBase base cs (acc * base + d) else none
    | none => none

/-- Modelled from the spec: the reading of an unsigned integer text with the
base taken from its prefix, as `strconv.ParseUint(s, 0, _)` does before its
range check: `0b`, `0o` and `0x` announce base 2, 8 and 16, any other leading
`0` announces base 8, and a text without a leading `0` is decimal. The digit
separator `_` is not modelled. -/
def parseUnsignedText : List Char → Option Nat
  | [] => none
  | c :: cs =>
    if c = '0' then
      match cs with
      | [] => some 0
      | x :: ds =>
        if (x = 'b' ∨ x = 'B') ∧ ds ≠ [] then digitsInBase 2 ds 0
        else if (x = 'o' ∨ x = 'O') ∧ ds ≠ [] then digitsInBase 8 ds 0
        else if (x = 'x' ∨ x = 'X') ∧ ds ≠ [] then digitsInBase 16 ds 0
        else digitsInBase 8 (x :: ds) 0
    else digitsToNat (c :: cs) 0

/-- Modelled from the spec: `strconv.ParseInt(s, 0, 64)`, the reading of an
optionally signed integer text as an `int64`; nothing when the text is not an
integer or its value is out of range. -/
def parseGoInt (s : String) : Option Int :=
  match s.toList with
  | [] => none
  | c :: cs =>
    if c = '-' then
      (parseUnsignedText cs).bind (fun u => if u ≤ 2 ^ 63 then some (-(u : Int)) else none)
    else if c = '+' then
      (parseUnsignedText cs).bind (fun u => if u < 2 ^ 63 then some (u : Int) else none)
    else
      (parseUnsignedText (c :: cs)).bind (fun u => if u < 2 ^ 63 then some (u : Int) else none)

/-- Modelled from the spec: `strconv.ParseUint(s, 0, 64)`, the reading of an
unsigned integer text as a `uint64`. -/
def parseGoUint (s : String) : Option Nat :=
  (parseUnsignedText s.toList).bind (fun u => if u < 2 ^ 64 then some u else none)

/-- Modelled from the spec: an optional sign at the head of a text: whether it
is a minus, and the text after it. -/
def readSign : List Char → Bool × List Char
  | [] => (false, [])
  | c :: cs =>
    if c = '-' then (true, cs)
    else if c = '+' then (false, cs)
    else (false, c :: cs)

/-- Modelled from the spec: the longest run of decimal digits at the head of a
text, and the text after it. -/
def takeDigits : List Char → List Char × List Char
  | [] => ([], [])
  | c :: cs =>
    if c.isDigit then ((c :: (takeDigits cs).1), (takeDigits cs).2)
    else ([], c :: cs)

/-- Modelled from the spec: the digits after a decimal point at the head of a
text, none when the text does not start with a point, and the text after
them. -/
def readFraction : List Char → List Char × List Char
  | [] => ([], [])
  | c :: cs => if c = '.' then takeDigits cs else ([], c :: cs)

/-- Modelled from the spec: the exponent at the end of a floating-point
literal: zero for the empty text, the signed decimal after `e` or `E`,
nothing for any other text. -/
def readExponent : List Char → Option Int
  | [] => some 0
  | c :: r =>
    if c = 'e' ∨ c = 'E' then
      if (readSign r).2.isEmpty then none
      else (digitsToNat (readSign r).2 0).map
        (fun (n : Nat) => if (readSign r).1 then -(n : Int) else (n : Int))
    else none

/-- Modelled from the spec: the parts of a decimal floating-point literal:
its sign, the digits of its mantissa read as one natural number, the number
of those digits that stand after the point, and its decimal exponent. The
value is `mant * 10 ^ (exp - scale)`, negated when `negative`. -/
structure FloatParts where
  negative : Bool
  mant : Nat
  scale : Nat
  exp : Int
  deriving DecidableEq, Repr

/-- Modelled from the spec: the syntax of `strconv.ParseFloat(s, 64)` on a
decimal literal: an optional sign, digits with at most one point and at
least one digit, and an optional exponent. Hexadecimal floating-point
literals, the digit separator `_` and the words for infinity and
not-a-number are not modelled. -/
def parseGoFloat (s : String) : Option FloatParts :=
  let signed := readSign s.toList
  let w := takeDigits signed.2
  let f := readFraction w.2
  if (w.1 ++ f.1).isEmpty then none
  else
    match readExponent f.2, digitsToNat (w.1 ++ f.1) 0 with
    | some e, some m => some { negative := signed.1, mant := m, scale := f.1.length, exp := e }
    | _, _ => none

/-- Modelled from the spec: the least magnitude that `strconv.ParseFloat(s, 64)`
reports as out of range: halfway between the greatest `float64` and
`2 ^ 1024`, that is `2 ^ 1024 - 2 ^ 970`. -/
def float64Limit : Nat :=
  179769313486231580793728971405303415079934132710037826936173778980444968292764750946649017977587207096330286416692887910946555547851940402630657488671505820681908902000708383676273854845817711531764475730270069855571366959622842914819860834936475292719074168444365510704342711559699508093042880177904174497792

/-- Modelled from the spec: whether the magnitude `mant * 10 ^ (e - scale)` is
out of the range of `float64`. -/
def float64Overflows (mant scale : Nat) (e : Int) : Bool :=
  if (scale : Int) ≤ e then decide (float64Limit ≤ mant * 10 ^ (e - (scale : Int)).toNat)
  else decide (float64Limit * 10 ^ ((scale : Int) - e).toNat ≤ mant)

/-- Modelled from the spec: the `dynamic.Number` of a floating-point literal,
the decimal of the same value. The rounding of `float64` is not modelled:
the decimal stands for the `float64` nearest to it. -/
def floatNumber (p : FloatParts) : Number :=
  if (p.scale : Int) ≤ p.exp then
    Number.float
      ((if p.negative then -(p.mant : Int) else (p.mant : Int))
        * 10 ^ (p.exp - (p.scale : Int)).toNat) 0
  else
    Number.float (if p.negative then -(p.mant : Int) else (p.mant : Int))
      ((p.scale : Int) - p.exp).toNat

/-- Modelled from the spec: `dynamic.NewNumber` on a text, which reads numbers
the way Go's `strconv` does. The empty text gives the unset number. A text
that `strconv.ParseInt(s, 0, 64)` reads gives that integer; one that only
`strconv.ParseUint(s, 0, 64)` reads gives its value, held here as a decimal
of scale 0; one that only `strconv.ParseFloat(s, 64)` reads gives a decimal.
Any other text, and a literal whose value is out of the range of `float64`,
is an error. -/
def NewNumber (s : String) : Except Err Number :=
  if s = "" then .ok Number.unset
  else
    match parseGoInt s with
    | some n => .ok (Number.int n)
    | none =>
      match parseGoUint s with
      | some u => .ok (Number.float (u : Int) 0)
      | none =>
        match parseGoFloat s with
        | some p =>
          if float64Overflows p.mant p.scale p.exp then .error (Err.invalidNumber s)
          else .ok (floatNumber p)
        | none => .error (Err.invalidNumber s)

/-- Modelled from the spec: the method `Int` of `dynamic.Number` (named `asInt` here, next
to the type `Int`), a lossless narrowing: the integer and true when the
number holds a value that is an integer of `int64`, nothing otherwise. -/
def Number.asInt : Number → Option Int
  | .unset => none
  | .int n => some n
  | .float m sc =>
    if m % (10 ^ sc : Int) = 0 ∧ minInt64 ≤ m / (10 ^ sc : Int) ∧ m / (10 ^ sc : Int) ≤ maxInt64
    then some (m / (10 ^ sc : Int)) else none

/-- Modelled from the spec: the method `HasValue` of `dynamic.Number`. -/
def Number.HasValue : Number → Bool
  | .unset => false
  | _ => true

/-! ## JSON number literals -/

/-- The exponent part of a JSON number literal (RFC 8259): the letter `e` or
`E`, an optional sign (`some true` is a minus, `some false` a plus) and
digits. -/
structure ExponentPart where
  upper : Bool
  sign : Option Bool
  digits : List Char
  deriving DecidableEq, Repr

/-- A JSON number literal (RFC 8259) by its parts: an optional minus, the
digits before the point, the digits after the point (none when the literal
has no point) and an optional exponent part. -/
structure NumberLiteral where
  negative : Bool
  whole : List Char
  frac : List Char
  expo : Option ExponentPart
  deriving DecidableEq, Repr

/-- The characters of an exponent part. -/
def ExponentPart.chars (e : ExponentPart) : List Char :=
  (if e.upper then 'E' else 'e')
    :: ((match e.sign with
        | none => []
        | some true => ['-']
        | some false => ['+']) ++ e.digits)

/-- The characters of a number literal. -/
def NumberLiteral.chars (l : NumberLiteral) : List Char :=
  (if l.negative then ['-'] else [])
    ++ (l.whole
      ++ ((if l.frac.isEmpty then [] else '.' :: l.frac)
        ++ (match l.expo with
            | none => []
            | some e => e.chars)))

/-- The text of a number literal. -/
def NumberLiteral.text (l : NumberLiteral) : String := String.mk l.chars

/-- Whether every character of a text is a decimal digit. -/
def allDigits (cs : List Char) : Bool := cs.all Char.isDigit

/-- The grammar of a JSON number (RFC 8259): at least one digit before the
point and no leading zero unless that digit is the only one, only digits
after the point, and at least one digit in the exponent. -/
def NumberLiteral.wellFormed (l : NumberLiteral) : Bool :=
  !l.whole.isEmpty && allDigits l.whole
    && (l.whole.head? != some '0' || l.whole.length == 1)
    && allDigits l.frac
    && (match l.expo with
        | none => true
        | some e => !e.digits.isEmpty && allDigits e.digits)

/-- The digits of a number literal, before and after the point, read as one
natural number. -/
def NumberLiteral.mantissa (l : NumberLiteral) : Nat :=
  (digitsToNat (l.whole ++ l.frac) 0).getD 0

/-- The value of an exponent part. -/
def ExponentPart.value (e : ExponentPart) : Int :=
  if e.sign = some true then -(((digitsToNat e.digits 0).getD 0 : Nat) : Int)
  else (((digitsToNat e.digits 0).getD 0 : Nat) : Int)

/-- The decimal exponent of a number literal, zero when it has no exponent
part. -/
def NumberLiteral.exponent (l : NumberLiteral) : Int :=
  match l.expo with
  | none => 0
  | some e => e.value

/-- Whether the value of a number literal is within the range of `float64`. -/
def NumberLiteral.inFloat64Range (l : NumberLiteral) : Bool :=
  !float64Overflows l.mantissa l.frac.length l.exponent

/-! ## search/prefix_length.go -/

/-- The constant `DefaultPrefixLength`. -/
def DefaultPrefixLength : Int := 0

/-- Modelled from the spec: the constant `paramPrefixLength` (declared outside
the embedded files), the key `prefix_length`. -/
def paramPrefixLength : String := "prefix_length"

/-- The mixin `prefixLengthParam`; the nil pointer is `none`. -/
structure prefixLengthParam where
  prefixLengthValue : Option Int
  deriving DecidableEq, Repr

/-- The method `PrefixLength`. -/
def prefixLengthParam.PrefixLength (pl : prefixLengthParam) : Int :=
  match pl.prefixLengthValue with
  | none => DefaultPrefixLength
  | some v => v

/-- The method `SetPrefixLength`. -/
def prefixLengthParam.SetPrefixLength (_pl : prefixLengthParam) (v : Int) : prefixLengthParam :=
  { prefixLengthValue := some v }

/-- The function `unmarshalPrefixLengthParam`. The target is `some pl` when it implements
`WithPrefixLength` through the mixin state `pl`, and `none` when it does
not. The result is the target after the call and the error. -/
def unmarshalPrefixLengthParam (data : JSON) (target : Option prefixLengthParam) :
    Option prefixLengthParam × Option Err :=
  match target with
  | some a =>
    match NewNumber data.UnquotedString with
    | .error _ => (some a, some (Err.unmarshalType data.rawString "float64"))
    | .ok n =>
      match n.asInt with
      | some v => (some (a.SetPrefixLength v), none)
      | none => (some a, none)
  | none => (none, none)

/-- The function `marshalPrefixLengthParam`: the map after the call and the error. -/
def marshalPrefixLengthParam (data : GoMap) (source : Option prefixLengthParam) :
    GoMap × Option Err :=
  match source with
  | some b =>
    if b.PrefixLength ≠ DefaultPrefixLength then
      (data.set paramPrefixLength (JSON.num (intLit b.PrefixLength)), none)
    else (data, none)
  | none => (data, none)

/-! ## mapping/store.go -/

/-- The mixin `StoreParam`; the nil pointer is `none`. -/
structure StoreParam where
  StoreValue : Option Bool
  deriving DecidableEq, Repr

/-- The zero value `StoreParam{}`, the unit that was never set. -/
def StoreParam.zero : StoreParam := { StoreValue := none }

/-- The method `Store`. -/
def StoreParam.Store (sa : StoreParam) : Bool :=
  match sa.StoreValue with
  | some v => v
  | none => false

/-- The method `SetStore`. -/
def StoreParam.SetStore (_sa : StoreParam) (v : Bool) : StoreParam :=
  { StoreValue := some v }

/-- The result of `json.Marshal` on a `StoreParam`. Its only field is a `*bool` tagged
`store,omitempty`: the key is left out for the nil pointer and written with
the pointed-to boolean otherwise. -/
def StoreParam.MarshalJSON (sa : StoreParam) : JSON :=
  match sa.StoreValue with
  | none => JSON.obj []
  | some v => JSON.obj [("store", JSON.bool v)]

/-! ## search/cutoff_frequency.go -/

/-- The mixin `cutoffFrequencyParam`. -/
structure cutoffFrequencyParam where
  cutoffFrequency : Number
  deriving DecidableEq, Repr

/-- The method `CutoffFrequency`. -/
def cutoffFrequencyParam.CutoffFrequency (cf : cutoffFrequencyParam) : Number :=
  cf.cutoffFrequency

/-- The method `SetCutoffFreuency`. -/
def cutoffFrequencyParam.SetCutoffFreuency (_cf : cutoffFrequencyParam) (n : Number) :
    cutoffFrequencyParam :=
  { cutoffFrequency := n }

/-- Modelled from the spec: the constant `paramCutoffFrequency` (declared outside
the embedded files), the key `cutoff_frequency`. -/
def paramCutoffFrequency : String := "cutoff_frequency"

/-- Modelled from the spec: the digits of a decimal with `scale` digits after
the point, padded with zeros so that one digit stands before the point. -/
def padDigits (scale : Nat) (ds : List Char) : List Char :=
  List.replicate (scale + 1 - ds.length) '0' ++ ds

/-- Modelled from the spec: the literal of the decimal `mant / 10 ^ scale`. -/
def decimalLit (mant : Int) (scale : Nat) : String :=
  if scale = 0 then intLit mant
  else
    String.mk ((if mant < 0 then ['-'] else [])
      ++ (padDigits scale (Nat.toDigits 10 mant.natAbs)).take
          ((padDigits scale (Nat.toDigits 10 mant.natAbs)).length - scale)
      ++ ['.']
      ++ (padDigits scale (Nat.toDigits 10 mant.natAbs)).drop
          ((padDigits scale (Nat.toDigits 10 mant.natAbs)).length - scale))

/-- Modelled from the spec: the JSON form of a `dynamic.Number` stored in a `dynamic.Map`: the
number's literal, `null` for the unset number. -/
def Number.MarshalJSON : Number → JSON
  | .unset => JSON.null
  | .int n => JSON.num (intLit n)
  | .float m sc => JSON.num (decimalLit m sc)

/-- The function `unmarshalCutoffFrequencyParam`. The target is `some cf` when it implements
`WithCutoffFrequency` through the mixin state `cf`, and `none` when it does
not. The result is the target after the call and the error. -/
def unmarshalCutoffFrequencyParam (data : JSON) (target : Option cutoffFrequencyParam) :
    Option cutoffFrequencyParam × Option Err :=
  match target with
  | some a =>
    let read : Except Err String :=
      if data.IsNull then .ok ""
      else if data.IsString then jsonUnmarshalString data ""
      else if data.IsNumber then .ok data.UnquotedString
      else .error (Err.unmarshalType data.rawString "dynamic.Number")
    match read with
    | .error err => (some a, some err)
    | .ok str =>
      match NewNumber str with
      | .error err => (some a, some err)
      | .ok n => (some (a.SetCutoffFreuency n), none)
  | none => (none, none)

/-- The function `marshalCutoffFrequencyParam`: the map after the call and the error. -/
def marshalCutoffFrequencyParam (data : GoMap) (source : Option cutoffFrequencyParam) :
    GoMap × Option Err :=
  match source with
  | some p =>
    if p.CutoffFrequency.HasValue then
      (data.set paramCutoffFrequency p.CutoffFrequency.MarshalJSON, none)
    else (data, none)
  | none => (data, none)

/-! ## search/max_boost.go -/

/-- The values of Go type `float64` as the max_boost unit uses them: they are
stored and compared, never computed with, so the type `F` of the values, the
constant `math.MaxFloat32` and the comparison `!=` are parameters. -/
structure Float64 (F : Type) where
  MaxFloat32 : F
  ne : F → F → Bool

/-- The mixin `MaxBoostParam`; the nil pointer is `none`. -/
structure MaxBoostParam (F : Type) where
  MaxBoostValue : Option F

/-- The method `MaxBoost`. -/
def MaxBoostParam.MaxBoost {F : Type} (X : Float64 F) (mb : MaxBoostParam F) : F :=
  match mb.MaxBoostValue with
  | none => X.MaxFloat32
  | some v => v

/-- The body of `SetMaxBoost` on its receiver `mb`: the receiver after the body. -/
def MaxBoostParam.SetMaxBoostBody {F : Type} (X : Float64 F) (mb : MaxBoostParam F) (v : F) :
    MaxBoostParam F :=
  if X.ne (mb.MaxBoost X) v then { MaxBoostValue := some v } else mb

/-- The method `SetMaxBoost` as its caller sees it: the caller's value `p` after the call
`p.SetMaxBoost(v)`. The receiver is declared as a value (`mb MaxBoostParam`),
so the body runs on a copy of `p`, the copy is dropped when the method
returns, and the caller's value is what it was. -/
def MaxBoostParam.SetMaxBoost {F : Type} (X : Float64 F) (p : MaxBoostParam F) (v : F) :
    MaxBoostParam F :=
  let _mb := MaxBoostParam.SetMaxBoostBody X p v
  p

/-! ## range_field.go -/

/-- The struct `rangeFieldParams`. -/
structure rangeFieldParams where
  Coerce : Any
  Index : Any
  Store : Any

/-- The type `IntegerRangeFieldParams`. -/
abbrev IntegerRangeFieldParams := rangeFieldParams

/-- The type `FloatRangeFieldParams`. -/
abbrev FloatRangeFieldParams := rangeFieldParams

/-- The type `LongRangeFieldParams`. -/
abbrev LongRangeFieldParams := rangeFieldParams

/-- The type `DoubleRangeFieldParams`. -/
abbrev DoubleRangeFieldParams := rangeFieldParams

/-- The type `DateRangeFieldParams`. -/
abbrev DateRangeFieldParams := rangeFieldParams

/-- The type `IPRangeFieldParams`. -/
abbrev IPRangeFieldParams := rangeFieldParams

/-- The value of a params struct of the Go type named `goType` when it is passed
where an `interface{}` is expected. -/
def rangeFieldParams.boxed (goType : String) (p : rangeFieldParams) : Any :=
  Any.rangeFieldParams goType p.Coerce p.Index p.Store

/-- The operations on the mixins `coerceParam`, `indexParam` and `storeParam` of a
range field, declared outside `range_field.go`: the three setters, each with
the mixin state after the call and its error, and the three readers
`r.coerce.Value()`, `r.index.Value()` and `r.store.Value()`. -/
structure RangeFieldOps (P : Type) where
  zero : P
  SetCoerce : Any → P → P × Option Err
  SetIndex : Any → P → P × Option Err
  SetStore : Any → P → P × Option Err
  coerceValue : P → Any
  indexValue : P → Any
  storeValue : P → Any

/-- The field `IntegerRangeField`: the state of its three mixins. -/
structure IntegerRangeField (P : Type) where
  mixins : P

/-- The field `FloatRangeField`. -/
structure FloatRangeField (P : Type) where
  mixins : P

/-- The field `LongRangeField`. -/
structure LongRangeField (P : Type) where
  mixins : P

/-- The field `DoubleRangeField`. -/
structure DoubleRangeField (P : Type) where
  mixins : P

/-- The field `DateRangeField`. -/
structure DateRangeField (P : Type) where
  mixins : P

/-- The field `IPRangeField`. -/
structure IPRangeField (P : Type) where
  mixins : P

/-- The body the six builders of `range_field.go` share, on the mixin state of a
zero field: `SetCoerce` is called with `coerceArg`, then `SetIndex` with
`p.Index`, then `SetStore` with `p.Store`, and the first error ends the
call. -/
def rangeFieldSetters {P : Type} (E : RangeFieldOps P) (coerceArg : Any)
    (p : rangeFieldParams) : P × Option Err :=
  match E.SetCoerce coerceArg E.zero with
  | (s, some err) => (s, some err)
  | (s, none) =>
    match E.SetIndex p.Index s with
    | (s, some err) => (s, some err)
    | (s, none) =>
      match E.SetStore p.Store s with
      | (s, some err) => (s, some err)
      | (s, none) => (s, none)

/-- The method `IntegerRange`: the field `f` and the error returned. The source calls
`f.SetCoerce(p)` with the params struct itself. -/
def IntegerRangeFieldParams.IntegerRange {P : Type} (E : RangeFieldOps P)
    (p : IntegerRangeFieldParams) : IntegerRangeField P × Option Err :=
  ({ mixins := (rangeFieldSetters E (p.boxed "IntegerRangeFieldParams") p).1 },
    (rangeFieldSetters E (p.boxed "IntegerRangeFieldParams") p).2)

/-- The method `FloatRange`; it calls `f.SetCoerce(p)` as `IntegerRange` does. -/
def FloatRangeFieldParams.FloatRange {P : Type} (E : RangeFieldOps P)
    (p : FloatRangeFieldParams) : FloatRangeField P × Option Err :=
  ({ mixins := (rangeFieldSetters E (p.boxed "FloatRangeFieldParams") p).1 },
    (rangeFieldSetters E (p.boxed "FloatRangeFieldParams") p).2)

/-- The method `LongRange`; it calls `f.SetCoerce(p)` as `IntegerRange` does. -/
def LongRangeFieldParams.LongRange {P : Type} (E : RangeFieldOps P)
    (p : LongRangeFieldParams) : LongRangeField P × Option Err :=
  ({ mixins := (rangeFieldSetters E (p.boxed "LongRangeFieldParams") p).1 },
    (rangeFieldSetters E (p.boxed "LongRangeFieldParams") p).2)

/-- The method `DoubleRange`; it calls `f.SetCoerce(p)` as `IntegerRange` does. -/
def DoubleRangeFieldParams.DoubleRange {P : Type} (E : RangeFieldOps P)
    (p : DoubleRangeFieldParams) : DoubleRangeField P × Option Err :=
  ({ mixins := (rangeFieldSetters E (p.boxed "DoubleRangeFieldParams") p).1 },
    (rangeFieldSetters E (p.boxed "DoubleRangeFieldParams") p).2)

/-- The method `DateRange`; it calls `f.SetCoerce(p)` as `IntegerRange` does. -/
def DateRangeFieldParams.DateRange {P : Type} (E : RangeFieldOps P)
    (p : DateRangeFieldParams) : DateRangeField P × Option Err :=
  ({ mixins := (rangeFieldSetters E (p.boxed "DateRangeFieldParams") p).1 },
    (rangeFieldSetters E (p.boxed "DateRangeFieldParams") p).2)

/-- The method `IPRange`; it calls `f.SetCoerce(p)` as `IntegerRange` does. -/
def IPRangeFieldParams.IPRange {P : Type} (E : RangeFieldOps P)
    (p : IPRangeFieldParams) : IPRangeField P × Option Err :=
  ({ mixins := (rangeFieldSetters E (p.boxed "IPRangeFieldParams") p).1 },
    (rangeFieldSetters E (p.boxed "IPRangeFieldParams") p).2)

/-- Modelled from the spec: the state of the boolean units `coerce`, `index` and
`store` of a range field (the mixin declarations are outside the embedded
files). -/
structure RangeUnits where
  coerce : Option Bool
  index : Option Bool
  store : Option Bool
  deriving DecidableEq, Repr

/-- Modelled from the spec: the value a boolean unit hands out as `interface{}`:
nil when unset, the boolean otherwise. -/
def boolUnitValue (v : Option Bool) : Any :=
  match v with
  | none => Any.nil
  | some b => Any.bool b

/-- Modelled from the spec: a reference instance of the operations on the units
of a range field; each setter accepts nil, a boolean or its text and rejects
every other value. -/
def refRangeOps : RangeFieldOps RangeUnits where
  zero := { coerce := none, index := none, store := none }
  SetCoerce := fun v p =>
    ({ p with coerce := (setBoolUnit "coerce" v p.coerce).1 }, (setBoolUnit "coerce" v p.coerce).2)
  SetIndex := fun v p =>
    ({ p with index := (setBoolUnit "index" v p.index).1 }, (setBoolUnit "index" v p.index).2)
  SetStore := fun v p =>
    ({ p with store := (setBoolUnit "store" v p.store).1 }, (setBoolUnit "store" v p.store).2)
  coerceValue := fun p => boolUnitValue p.coerce
  indexValue := fun p => boolUnitValue p.index
  storeValue := fun p => boolUnitValue p.store

/-! ## search/match.go -/

/-- Modelled from the spec: `dynamic.StringNumberBoolOrTime`, the dynamic value of a
match query: absent (the zero value), null, a boolean, a number or a string
(a timestamp is kept as its text). -/
inductive StringNumberBoolOrTime where
  | unset
  | null
  | bool (b : Bool)
  | num (n : Number)
  | str (s : String)
  deriving DecidableEq, Repr

/-- Modelled from the spec: the result of `json.Unmarshal(v, &q)` for `q` of type
`dynamic.StringNumberBoolOrTime`: a null, string, number or boolean token is accepted, an
object or an array is a type error. -/
def jsonUnmarshalDynamic (v : JSON) : Except Err StringNumberBoolOrTime :=
  match v with
  | .null => .ok StringNumberBoolOrTime.null
  | .bool b => .ok (StringNumberBoolOrTime.bool b)
  | .str s => .ok (StringNumberBoolOrTime.str s)
  | .num lit =>
    match NewNumber lit with
    | .ok n => .ok (StringNumberBoolOrTime.num n)
    | .error err => .error err
  | other => .error (Err.unmarshalType other.kind "dynamic.StringNumberBoolOrTime")

/-- Modelled from the spec: the Go type `ZeroTermsQuery` of package `search`
(declared outside the embedded files), kept as its name. -/
abbrev ZeroTermsQuery := String

/-- The builder input `Match`. -/
structure Match where
  Name : String
  Field : String
  Query : Any
  Analyzer : String
  NoAutoGenerateSynonymsPhraseQuery : Bool
  NoFuzzyTranspositions : Bool
  Fuzziness : String
  FuzzyRewrite : Rewrite
  Lenient : Bool
  Operator : Operator
  MaxExpansions : Number
  PrefixLength : Number
  MinimumShouldMatchParam : String
  ZeroTermsQuery : ZeroTermsQuery
  CutoffFrequency : Number

/-- The mixins embedded in a `MatchQuery`: `prefixLengthParam` and `cutoffFrequencyParam`, which
the embedded files declare, and the state `others` of the mixins declared
outside them (`nameParam`, `lenientParam`, `operatorParam`, `analyzerParam`,
`fuzzinessParam`, `maxExpansionsParam`, `zeroTermsQueryParam`,
`minimumShouldMatchParam`, `fuzzyTranspositionsParam`,
`autoGenerateSynonymsPhraseQueryParam`). -/
structure MatchMixins (P : Type) where
  prefixLength : prefixLengthParam
  cutoffFrequency : cutoffFrequencyParam
  others : P

/-- The clause `MatchQuery`. -/
structure MatchQuery (P : Type) where
  field : String
  query : StringNumberBoolOrTime
  mixins : MatchMixins P

/-- The operations on the mixins of a `MatchQuery` that are declared outside
`match.go`. A setter returns the mixin state after the call and, where
`Match` reads the Go method's error, that error. `marshalParams` and
`unmarshalParams` act on all the mixins of the clause. -/
structure MatchParamOps (P : Type) where
  zero : P
  SetAnalyzer : String → P → P
  SetAutoGenerateSynonymsPhraseQuery : Bool → P → P
  SetFuzziness : String → P → P
  SetFuzzyRewrite : Rewrite → P → P × Option Err
  SetFuzzyTranspositions : Bool → P → P
  SetLenient : Bool → P → P
  SetMaxExpansions : Int → P → P
  SetZeroTermsQuery : ZeroTermsQuery → P → P
  marshalParams : MatchMixins P → Except Err GoMap
  unmarshalParams : JSON → MatchMixins P → MatchMixins P × Except Err GoMap

/-- The zero value `MatchQuery{}`. -/
def MatchQuery.zero {P : Type} (E : MatchParamOps P) : MatchQuery P :=
  { field := "", query := StringNumberBoolOrTime.unset,
    mixins := { prefixLength := { prefixLengthValue := none },
                cutoffFrequency := { cutoffFrequency := Number.unset },
                others := E.zero } }

/-- The method `Field`. -/
def MatchQuery.Field {P : Type} (m : MatchQuery P) : String := m.field

/-- The method `SetField`. Its receiver is a value, so the assignment is made on
a copy and the caller's clause is what it was. -/
def MatchQuery.SetField {P : Type} (m : MatchQuery P) (_field : String) : MatchQuery P := m

/-- The method `SetQuery`: it compares `query` with nil and returns; the
receiver is not assigned. -/
def MatchQuery.SetQuery {P : Type} (m : MatchQuery P) (query : Any) :
    MatchQuery P × Option Err :=
  match query with
  | .nil => (m, some Err.ErrQueryRequired)
  | _ => (m, none)

/-- The method `Query`: the value the returned pointer refers to. -/
def MatchQuery.Query {P : Type} (m : MatchQuery P) : StringNumberBoolOrTime := m.query

/-- The method `Match` of `Match`: the clause returned (`none` is the nil pointer) and the
error. -/
def Match.Match {P : Type} (E : MatchParamOps P) (m : Match) :
    Option (MatchQuery P) × Option Err :=
  let v : MatchQuery P := MatchQuery.zero E
  match v.SetQuery m.Query with
  | (_, some err) => (none, some err)
  | (v, none) =>
    let s := E.SetAnalyzer m.Analyzer v.mixins.others
    let s := E.SetAutoGenerateSynonymsPhraseQuery (!m.NoAutoGenerateSynonymsPhraseQuery) s
    let s := E.SetFuzziness m.Fuzziness s
    match E.SetFuzzyRewrite m.FuzzyRewrite s with
    | (_, some err) => (none, some err)
    | (s, none) =>
      let s := E.SetFuzzyTranspositions (!m.NoFuzzyTranspositions) s
      let s := E.SetLenient m.Lenient s
      let s :=
        match m.MaxExpansions.asInt with
        | some n => E.SetMaxExpansions n s
        | none => s
      let pl :=
        match m.PrefixLength.asInt with
        | some n => v.mixins.prefixLength.SetPrefixLength n
        | none => v.mixins.prefixLength
      let s := if m.ZeroTermsQuery ≠ "" then E.SetZeroTermsQuery m.ZeroTermsQuery s else s
      (some { v with mixins := { prefixLength := pl,
                                 cutoffFrequency := { cutoffFrequency := m.CutoffFrequency },
                                 others := s } }, none)

/-- The method `unmarshalClauseJSON` of `MatchQuery`: the receiver after the call and the
error. -/
def MatchQuery.unmarshalClauseJSON {P : Type} (E : MatchParamOps P) (data : JSON)
    (m : MatchQuery P) : MatchQuery P × Option Err :=
  match E.unmarshalParams data m.mixins with
  | (s, .error err) => ({ m with mixins := s }, some err)
  | (s, .ok fields) =>
    let m := { m with mixins := s }
    match fields.get "query" with
    | some v =>
      match jsonUnmarshalDynamic v with
      | .error err => (m, some err)
      | .ok q => ({ m with query := q }, none)
    | none => (m, none)

/-- The method `UnmarshalJSON` of `MatchQuery`, with a bound `fuel` on the depth of calls: the
receiver after the call and the error, or `none` when the bound is reached
before the call returns. The source hands `&m`, the address of the receiver
pointer, to `json.Unmarshal`, not the address of the map `dm`. For `null` the
decoder sets that pointer to nil; for every other value it finds that `m`
implements `json.Unmarshaler` and calls `m.UnmarshalJSON` with the same
bytes. The map `dm` stays empty. -/
def MatchQuery.UnmarshalJSON {P : Type} (E : MatchParamOps P) (pick : Nat) :
    Nat → JSON → MatchQuery P → Option (MatchQuery P × Option Err)
  | 0, _, _ => none
  | fuel + 1, data, _prior =>
    let m : MatchQuery P := MatchQuery.zero E
    let dm : GoMap := GoMap.empty
    let decoded : Option (MatchQuery P × Option Err) :=
      match data with
      | .null => some (m, none)
      | _ => MatchQuery.UnmarshalJSON E pick fuel data m
    match decoded with
    | none => none
    | some (m, some err) => some (m, some err)
    | some (m, none) =>
      match dm.rangeFirst pick with
      | some (k, v) => some (MatchQuery.unmarshalClauseJSON E v { m with field := k })
      | none => some (m, none)

/-- The method `RemoveMatch`. -/
def MatchQuery.RemoveMatch {P : Type} (E : MatchParamOps P) (_m : MatchQuery P) :
    MatchQuery P :=
  MatchQuery.zero E

/-- The method `SetMatch`: the receiver after the call and the error; `none` is the nil
`*Match`. `Match()` returns a nil clause only together with an error, so the
last case below is never reached (in Go it would dereference nil). -/
def MatchQuery.SetMatch {P : Type} (E : MatchParamOps P) (m : MatchQuery P) (field : String)
    (mt : Option Match) : MatchQuery P × Option Err :=
  match mt with
  | none => (m.RemoveMatch E, none)
  | some mt =>
    if field = "" then (m, some (NewQueryError Err.ErrFieldRequired Kind.TypeTerm []))
    else
      match Match.Match E mt with
      | (_, some err) => (m, some err)
      | (some r, none) => ({ r with field := field }, none)
      | (none, none) => (m, none)

/-- The method `Type` of `MatchQuery`. -/
def MatchQuery.Type {P : Type} (_mq : MatchQuery P) : Kind := Kind.TypeMatch

/-- A fuzzy query with a value, a negative `MaxExpansions` and an unknown `Rewrite`. -/
def badParamsQuery : FuzzyQuery :=
  { kimchQuery with MaxExpansions := Any.int (-1), Rewrite := "bogus" }

/-- A map with one entry that is not `prefix_length`. -/
def boostOnlyMap : GoMap := ⟨[("boost", JSON.num "2")]⟩

/-! ## fuzzy_query.go: the mutator `Set` -/

/-- The value a `Fuzzier` stands for in `Set`: what its method `Fuzzy()` returns, a
clause pointer (`none` is nil) and an error. -/
abbrev Fuzzier (P : Type) := Option (FuzzyClause P) × Option Err

/-- The `Fuzzier` a `FuzzyQuery` is: its method `Fuzzy` always returns a non-nil clause. -/
def FuzzyQuery.asFuzzier {P : Type} (E : FuzzyParamOps P) (f : FuzzyQuery) : Fuzzier P :=
  (some (f.Fuzzy E).1, (f.Fuzzy E).2)

/-- Modelled from the spec: `checkField` (declared outside the embedded files)
enforces the required field name: the empty name is the field-required
error tagged with the kind, any other name passes. -/
def refCheckField (field : String) (kind : Kind) : Option Err :=
  if field = "" then some (NewQueryError Err.ErrFieldRequired kind []) else none

/-- The method `Set` of `FuzzyClause`, with `checkField` as a parameter: the receiver after
the call and the error, or `none` when the call does not return because
`q.field = field` dereferences the nil clause of a `Fuzzier` that returned
neither a clause nor an error. -/
def FuzzyClause.Set {P : Type} (checkField : String → Picker.Kind → Option Err)
    (f : FuzzyClause P)
    (field : String) (fuzzier : Fuzzier P) : Option (FuzzyClause P × Option Err) :=
  match fuzzier with
  | (_, some err) => some (f, some (NewQueryError err Kind.KindFuzzy [field]))
  | (q, none) =>
    match checkField field Kind.KindFuzzy with
    | some err => some (f, some err)
    | none =>
      match q with
      | none => none
      | some q => some ({ q with field := field }, none)

/-! ## search/match.go: the body of `SetField` -/

/-- The body of `SetField` on its receiver `m`, a copy of the caller's clause: the
copy after `m.field = field`. -/
def MatchQuery.SetFieldBody {P : Type} (m : MatchQuery P) (field : String) : MatchQuery P :=
  { m with field := field }

/-! ## range_field.go and binary_field.go: encoding -/

/-- The test of `omitempty` on a field of type `interface{}`: only the nil interface is
empty. -/
def Any.isNil : Any → Bool
  | .nil => true
  | _ => false

/-- The result of `json.Marshal` on a value of type `interface{}`; a params struct is written
as the object of its fields tagged `coerce`, `index` and `store`, each with
`omitempty`. -/
def jsonMarshalAny : Any → JSON
  | .nil => JSON.null
  | .bool b => JSON.bool b
  | .int n => JSON.num (intLit n)
  | .float lit => JSON.num lit
  | .str s => JSON.str s
  | .rangeFieldParams _ c i s =>
    JSON.obj ((if c.isNil then [] else [("coerce", jsonMarshalAny c)])
      ++ (if i.isNil then [] else [("index", jsonMarshalAny i)])
      ++ (if s.isNil then [] else [("store", jsonMarshalAny s)]))

/-- The member a struct field of type `interface{}` tagged `key,omitempty` contributes. -/
def omitemptyMember (key : String) (v : Any) : List (String × JSON) :=
  if v.isNil then [] else [(key, jsonMarshalAny v)]

/-- The result of `json.Marshal` on a `rangeFieldParams` (or on one of the six types defined
from it, which have its fields and tags and no `MarshalJSON` of their own). -/
def jsonMarshalRangeFieldParams (p : rangeFieldParams) : JSON :=
  JSON.obj (omitemptyMember "coerce" p.Coerce ++ omitemptyMember "index" p.Index
    ++ omitemptyMember "store" p.Store)

/-- The method `MarshalJSON` of `IntegerRangeField`. -/
def IntegerRangeField.MarshalJSON {P : Type} (E : RangeFieldOps P) (r : IntegerRangeField P) :
    Except Err JSON :=
  .ok (jsonMarshalRangeFieldParams
    { Coerce := E.coerceValue r.mixins, Index := E.indexValue r.mixins,
      Store := E.storeValue r.mixins })

/-- The method `MarshalJSON` of `FloatRangeField`. -/
def FloatRangeField.MarshalJSON {P : Type} (E : RangeFieldOps P) (r : FloatRangeField P) :
    Except Err JSON :=
  .ok (jsonMarshalRangeFieldParams
    { Coerce := E.coerceValue r.mixins, Index := E.indexValue r.mixins,
      Store := E.storeValue r.mixins })

/-- The method `MarshalJSON` of `LongRangeField`. -/
def LongRangeField.MarshalJSON {P : Type} (E : RangeFieldOps P) (r : LongRangeField P) :
    Except Err JSON :=
  .ok (jsonMarshalRangeFieldParams
    { Coerce := E.coerceValue r.mixins, Index := E.indexValue r.mixins,
      Store := E.storeValue r.mixins })

/-- The method `MarshalJSON` of `DoubleRangeField`. -/
def DoubleRangeField.MarshalJSON {P : Type} (E : RangeFieldOps P) (r : DoubleRangeField P) :
    Except Err JSON :=
  .ok (jsonMarshalRangeFieldParams
    { Coerce := E.coerceValue r.mixins, Index := E.indexValue r.mixins,
      Store := E.storeValue r.mixins })

/-- The method `MarshalJSON` of `DateRangeField`. -/
def DateRangeField.MarshalJSON {P : Type} (E : RangeFieldOps P) (r : DateRangeField P) :
    Except Err JSON :=
  .ok (jsonMarshalRangeFieldParams
    { Coerce := E.coerceValue r.mixins, Index := E.indexValue r.mixins,
      Store := E.storeValue r.mixins })

/-- The method `MarshalJSON` of `IPRangeField`. -/
def IPRangeField.MarshalJSON {P : Type} (E : RangeFieldOps P) (r : IPRangeField P) :
    Except Err JSON :=
  .ok (jsonMarshalRangeFieldParams
    { Coerce := E.coerceValue r.mixins, Index := E.indexValue r.mixins,
      Store := E.storeValue r.mixins })

/-- Modelled from the spec: the Go type `FieldType` (declared outside the embedded
files), the name of a mapping type; its JSON form is that name as a
string. -/
abbrev FieldType := String

/-- Modelled from the spec: the constant `FieldTypeBinary` (declared outside the
embedded files), the mapping type `binary`. -/
def FieldTypeBinary : FieldType := "binary"

/-- The struct `binaryField`, the encoded form of a `BinaryField`; its field `Type` is
named `Typ` here. -/
structure binaryField where
  DocValues : Any
  Store : Any
  Typ : FieldType

/-- The operations on the mixins `docValuesParam` and `storeParam` of a `BinaryField`,
declared outside `binary_field.go`: the two setters and the two readers
`b.docValues.Value()` and `b.store.Value()`. -/
structure BinaryFieldOps (P : Type) where
  zero : P
  SetStore : Any → P → P × Option Err
  SetDocValues : Any → P → P × Option Err
  docValuesValue : P → Any
  storeValue : P → Any

/-- The struct `BinaryFieldParams`. -/
structure BinaryFieldParams where
  DocValues : Any
  Store : Any

/-- The field `BinaryField`: the state of its two mixins. -/
structure BinaryField (P : Type) where
  mixins : P

/-- The method `Type` of `BinaryField`. -/
def BinaryField.Type {P : Type} (_b : BinaryField P) : FieldType := FieldTypeBinary

/-- The method `Binary`: the field `f` and the error returned. -/
def BinaryFieldParams.Binary {P : Type} (E : BinaryFieldOps P) (b : BinaryFieldParams) :
    BinaryField P × Option Err :=
  match E.SetStore b.Store E.zero with
  | (s, some err) => ({ mixins := s }, some err)
  | (s, none) =>
    match E.SetDocValues b.DocValues s with
    | (s, some err) => ({ mixins := s }, some err)
    | (s, none) => ({ mixins := s }, none)

/-- The result of `json.Marshal` on a `binaryField`: `doc_values` and `store` with `omitempty`,
`type` always. -/
def jsonMarshalBinaryField (v : binaryField) : JSON :=
  JSON.obj (omitemptyMember "doc_values" v.DocValues ++ omitemptyMember "store" v.Store
    ++ [("type", JSON.str v.Typ)])

/-- The method `MarshalJSON` of `BinaryField`. -/
def BinaryField.MarshalJSON {P : Type} (E : BinaryFieldOps P) (b : BinaryField P) :
    Except Err JSON :=
  .ok (jsonMarshalBinaryField
    { DocValues := E.docValuesValue b.mixins, Store := E.storeValue b.mixins,
      Typ := b.Type })

/-- A multi_match builder input with a query and two fields. -/
def quickFoxParams : MultiMatchQueryParams :=
  { MultiMatchQueryParams.zero with Query := "quick fox", Fields := ["title", "body"] }

/-! ## Basic facts -/

theorem length_eq_zero_iff (s : String) : s.length = 0 ↔ s = "" := by
  cases s with
  | mk l =>
    cases l with
    | nil => exact ⟨fun _ => rfl, fun _ => rfl⟩
    | cons a t =>
      constructor
      · intro h
        simp [String.length] at h
      · intro h
        have h2 := congrArg String.data h
        simp at h2

theorem setValue_fst {P : Type} (q : FuzzyClause P) (v : String) :
    (q.setValue v).1 = q := by
  unfold FuzzyClause.setValue
  split <;> rfl

theorem setEntry_subset (k : String) (v : JSON) (l : List (String × JSON))
    (e : String × JSON) (h : e ∈ setEntry k v l) : e = (k, v) ∨ e ∈ l := by
  induction l with
  | nil =>
    simp [setEntry] at h
    exact Or.inl h
  | cons x xs ih =>
    unfold setEntry at h
    split at h
    · rcases List.mem_cons.mp h with h1 | h1
      · exact Or.inl h1
      · exact Or.inr (List.mem_cons_of_mem _ h1)
    · rcases List.mem_cons.mp h with h1 | h1
      · exact Or.inr (h1 ▸ List.mem_cons_self _ _)
      · rcases ih h1 with h2 | h2
        · exact Or.inl h2
        · exact Or.inr (List.mem_cons_of_mem _ h2)

theorem foldl_set_subset (members : List (String × JSON)) (d : GoMap)
    (e : String × JSON)
    (h : e ∈ (members.foldl (fun m x => m.set x.1 x.2) d).entries) :
    e ∈ members ∨ e ∈ d.entries := by
  induction members generalizing d with
  | nil => exact Or.inr h
  | cons x xs ih =>
    simp only [List.foldl_cons] at h
    rcases ih _ h with h1 | h1
    · exact Or.inl (List.mem_cons_of_mem _ h1)
    · rcases setEntry_subset _ _ _ _ h1 with h2 | h2
      · exact Or.inl (h2 ▸ List.mem_cons_self _ _)
      · exact Or.inr h2

/-! ## Claims about the fuzzy and multi_match clauses -/

/-- C1: `Fuzzy()` never stores `Value`. For every `FuzzyQuery` and every
behaviour of the parameter units the clause returned by `Fuzzy()` has the empty
search value, because `setValue` only checks its argument. At the scenario
input (field `user.name`, value `kimch`) `Fuzzy()` returns no error and the
clause encodes with `"value": ""`. -/
theorem Fuzzy_value_not_stored {P : Type} (E : FuzzyParamOps P) (f : FuzzyQuery) :
    (FuzzyQuery.Fuzzy E f).1.Vale = ""
    ∧ (FuzzyQuery.Fuzzy refFuzzyOps kimchQuery).2 = none
    ∧ FuzzyClause.MarshalJSON refFuzzyOps (FuzzyQuery.Fuzzy refFuzzyOps kimchQuery).1
        = .ok (JSON.obj [("user.name", JSON.obj [("max_expansions", JSON.num "25"),
            ("prefix_length", JSON.num "1"), ("value", JSON.str "")])]) := by
  refine ⟨?_, by decide, by rfl⟩
  unfold FuzzyQuery.Fuzzy FuzzyClause.Vale
  simp only []
  split
  · next q err h =>
    have h1 := congrArg Prod.fst h
    rw [setValue_fst] at h1
    simp only [] at h1
    rw [← h1]
  · next q h =>
    have h1 := congrArg Prod.fst h
    rw [setValue_fst] at h1
    simp only [] at h1
    subst h1
    split
    · rfl
    · split <;> rfl

/-- C2: `MultiMatchQuery.UnmarshalJSON` never stores the decoded fields. For
every input, every prior receiver and every behaviour of the parameter units,
`Fields()` is the nil slice after the call, whether or not an error is
returned. -/
theorem MultiMatch_UnmarshalJSON_drops_fields {P : Type} (E : MultiMatchParamOps P)
    (data : JSON) (prior : MultiMatchQuery P) :
    (MultiMatchQuery.UnmarshalJSON E data prior).1.Fields = [] := by
  unfold MultiMatchQuery.UnmarshalJSON MultiMatchQuery.Fields MultiMatchQuery.zero
  simp only []
  split
  · rfl
  · split
    · next mm err h =>
      split at h
      · split at h
        · cases h; rfl
        · cases h
      · cases h
    · next mm h =>
      have hf : mm.fields = [] := by
        split at h
        · split at h
          · cases h
          · cases h; rfl
        · cases h; rfl
      split
      · exact hf
      · split
        · split <;> exact hf
        · exact hf

/-- C3: decode undoes encode. For every `FuzzyClause` `c` that is not empty,
whose parameters encode to a map `m`, and on whose encoded parameter object
the parameter codec round-trips (it restores the parameters of `c` and returns
the fields with `"value"` among them), `MarshalJSON` succeeds and
`UnmarshalJSON` applied to its result returns no error and leaves exactly `c`,
whatever the receiver held before and whichever entry `range` visits first. -/
theorem FuzzyClause_roundtrip {P : Type} (E : FuzzyParamOps P) (c : FuzzyClause P)
    (m fields : GoMap)
    (hne : c.IsEmpty = false)
    (hm : E.marshalClauseParams c.params = .ok m)
    (hu : E.unmarshalClauseParams (jsonMarshalMap (m.set "value" (JSON.str c.value))) E.zero
        = (c.params, .ok fields))
    (hv : fields.get "value" = some (JSON.str c.value)) :
    ∃ data, c.MarshalJSON E = .ok data ∧
      ∀ (pick : Nat) (prior : FuzzyClause P),
        FuzzyClause.UnmarshalJSON E pick data prior = (c, none) := by
  have henc : c.MarshalJSON E
      = .ok (JSON.obj [(c.field, jsonMarshalMap (m.set "value" (JSON.str c.value)))]) := by
    simp [FuzzyClause.MarshalJSON, FuzzyClause.marshalClauseJSON, hne, hm, GoMap.empty]
    rfl
  refine ⟨_, henc, ?_⟩
  intro pick prior
  generalize jsonMarshalMap (m.set "value" (JSON.str c.value)) = body at hu
  simp [FuzzyClause.UnmarshalJSON, jsonUnmarshalMap, GoMap.set, GoMap.empty, setEntry,
    GoMap.rangeFirst, Nat.mod_one, FuzzyClause.unmarshalClauseJSON, FuzzyClause.zero, hu, hv,
    jsonUnmarshalString]

/-- Witness for C3: the scenario clause (`user.name`, `kimch`, `prefix_length` 1,
`max_expansions` 25) with the reference parameter units. -/
theorem FuzzyClause_roundtrip_witness :
    ∃ data, kimchClause.MarshalJSON refFuzzyOps = .ok data ∧
      ∀ (pick : Nat) (prior : FuzzyClause FuzzyUnits),
        FuzzyClause.UnmarshalJSON refFuzzyOps pick data prior = (kimchClause, none) :=
  FuzzyClause_roundtrip refFuzzyOps kimchClause kimchParamsMap kimchFields
    (by decide) (by rfl) (by rfl) (by rfl)

/-- C4 fails as stated: the payload with the two keys `a` and `b` decodes
without error, to the clause of `a` or to the clause of `b` according to the
entry visited first. -/
theorem FuzzyClause_two_keys_accepted :
    FuzzyClause.UnmarshalJSON refFuzzyOps 0 twoKeyPayload (FuzzyClause.zero refFuzzyOps)
      = ({ field := "a", value := "x", params := FuzzyUnits.zero }, none)
    ∧ FuzzyClause.UnmarshalJSON refFuzzyOps 1 twoKeyPayload (FuzzyClause.zero refFuzzyOps)
      = ({ field := "b", value := "y", params := FuzzyUnits.zero }, none) :=
  ⟨by rfl, by rfl⟩

/-- C4 as amended: for every JSON object whose decoded map has two or more
keys, `UnmarshalJSON` raises no ambiguity error of its own. It takes one
member `(k, v)` of the object, the entry the map iteration visits first, sets
the field to `k` and returns exactly the outcome of `unmarshalClauseJSON` on
`v`. -/
theorem FuzzyClause_UnmarshalJSON_many_keys {P : Type} (E : FuzzyParamOps P) (pick : Nat)
    (members : List (String × JSON)) (prior : FuzzyClause P)
    (h : 2 ≤ (jsonUnmarshalMap (JSON.obj members) GoMap.empty).1.len) :
    ∃ k v, (k, v) ∈ members ∧
      FuzzyClause.UnmarshalJSON E pick (JSON.obj members) prior
        = FuzzyClause.unmarshalClauseJSON E v { FuzzyClause.zero E with field := k } := by
  simp only [jsonUnmarshalMap, GoMap.len] at h
  have hlt : pick % (members.foldl (fun m e => m.set e.1 e.2) GoMap.empty).entries.length
      < (members.foldl (fun m e => m.set e.1 e.2) GoMap.empty).entries.length :=
    Nat.mod_lt _ (by omega)
  have hget := List.getElem?_eq_getElem hlt
  have hmem := List.getElem_mem hlt
  rcases foldl_set_subset _ _ _ hmem with h1 | h1
  · refine ⟨_, _, h1, ?_⟩
    simp only [FuzzyClause.UnmarshalJSON, jsonUnmarshalMap, GoMap.rangeFirst, hget]
  · simp [GoMap.empty] at h1

/-- Witness for the amended C4: the payload with the two keys `a` and `b`. -/
theorem FuzzyClause_UnmarshalJSON_many_keys_witness :
    ∃ k v, (k, v) ∈ [("a", JSON.obj [("value", JSON.str "x")]),
                      ("b", JSON.obj [("value", JSON.str "y")])] ∧
      FuzzyClause.UnmarshalJSON refFuzzyOps 1 twoKeyPayload (FuzzyClause.zero refFuzzyOps)
        = FuzzyClause.unmarshalClauseJSON refFuzzyOps v
            { FuzzyClause.zero refFuzzyOps with field := k } :=
  FuzzyClause_UnmarshalJSON_many_keys refFuzzyOps 1 _ (FuzzyClause.zero refFuzzyOps)
    (by decide)

/-- C5: for the input `null` and for the empty object, whatever the receiver
held before, `UnmarshalJSON` returns no error and leaves the receiver equal to
the zero `FuzzyClause`, for which `IsEmpty()` is true. -/
theorem FuzzyClause_UnmarshalJSON_null_or_empty {P : Type} (E : FuzzyParamOps P)
    (pick : Nat) (prior : FuzzyClause P) :
    FuzzyClause.UnmarshalJSON E pick JSON.null prior = (FuzzyClause.zero E, none)
    ∧ FuzzyClause.UnmarshalJSON E pick (JSON.obj []) prior = (FuzzyClause.zero E, none)
    ∧ (FuzzyClause.zero E).IsEmpty = true := by
  refine ⟨?_, ?_, ?_⟩
  · simp [FuzzyClause.UnmarshalJSON, jsonUnmarshalMap, GoMap.rangeFirst, GoMap.empty]
  · simp [FuzzyClause.UnmarshalJSON, jsonUnmarshalMap, GoMap.rangeFirst, GoMap.empty]
  · rfl

/-- C6: a `FuzzyClause` with a field name and no search value does not encode to
`null`. For every clause with a non-empty field and the empty value,
`MarshalJSON` either returns the error of the parameter encoding or an object
keyed by the field, because `IsEmpty()` is true only when the field and the
value are both empty. -/
theorem FuzzyClause_no_value_not_null {P : Type} (E : FuzzyParamOps P) (c : FuzzyClause P)
    (hfield : c.field ≠ "") (_hvalue : c.value = "") :
    c.IsEmpty = false ∧
    ((∃ err, c.MarshalJSON E = .error err)
      ∨ (∃ body, c.MarshalJSON E = .ok (JSON.obj [(c.field, body)]))) := by
  have hlen : c.field.length ≠ 0 := fun h => hfield ((length_eq_zero_iff _).mp h)
  have hne : c.IsEmpty = false := by
    simp [FuzzyClause.IsEmpty, hlen]
  refine ⟨hne, ?_⟩
  unfold FuzzyClause.MarshalJSON
  rw [hne]
  cases hm : c.marshalClauseJSON E with
  | error err => exact Or.inl ⟨err, by simp⟩
  | ok body => exact Or.inr ⟨body, by simp [GoMap.empty]; rfl⟩

/-- Witness for C6: the clause with field `user.name` and no value encodes, with
the reference parameter units, to an object under `user.name`. -/
theorem FuzzyClause_no_value_not_null_witness :
    (FuzzyClause.IsEmpty
        ({ field := "user.name", value := "", params := FuzzyUnits.zero } :
          FuzzyClause FuzzyUnits) = false) ∧
    ((∃ err, FuzzyClause.MarshalJSON refFuzzyOps
        { field := "user.name", value := "", params := FuzzyUnits.zero } = .error err)
      ∨ (∃ body, FuzzyClause.MarshalJSON refFuzzyOps
        { field := "user.name", value := "", params := FuzzyUnits.zero }
          = .ok (JSON.obj [("user.name", body)]))) :=
  FuzzyClause_no_value_not_null refFuzzyOps
    { field := "user.name", value := "", params := FuzzyUnits.zero } (by decide) rfl

/-- C7: `MultiMatchQuery.MarshalJSON` never returns `null`. For every clause, the
empty ones included, it returns the error of the parameter encoding or an
object; for the zero value with the reference parameter units that object
has the keys `fields` (null) and `query` (the empty string). -/
theorem MultiMatch_MarshalJSON_never_null {P : Type} (E : MultiMatchParamOps P)
    (mm : MultiMatchQuery P) :
    ((∃ err, mm.MarshalJSON E = .error err)
      ∨ (∃ members, mm.MarshalJSON E = .ok (JSON.obj members)))
    ∧ (MultiMatchQuery.zero refMultiMatchOps).IsEmpty = true
    ∧ MultiMatchQuery.MarshalJSON refMultiMatchOps (MultiMatchQuery.zero refMultiMatchOps)
        = .ok (JSON.obj [("fields", JSON.null), ("query", JSON.str "")]) := by
  refine ⟨?_, by decide, by rfl⟩
  unfold MultiMatchQuery.MarshalJSON
  cases hm : E.marshalClauseParams mm.params with
  | error err => exact Or.inl ⟨err, rfl⟩
  | ok params => exact Or.inr ⟨_, rfl⟩

/-- C8: for every `FuzzyQuery` whose `Value` is empty, `Fuzzy()` returns the
value-required error wrapped as a query error of kind fuzzy naming `Field`,
whatever the optional attributes hold and however the parameter units
behave. -/
theorem Fuzzy_value_required {P : Type} (E : FuzzyParamOps P) (f : FuzzyQuery)
    (h : f.Value = "") :
    (FuzzyQuery.Fuzzy E f).2
      = some (NewQueryError Err.ErrValueRequired Kind.KindFuzzy [f.Field]) := by
  unfold FuzzyQuery.Fuzzy
  rw [h]
  rfl

/-- Witness for C8: no value, a negative `MaxExpansions` and an unknown `Rewrite`. -/
theorem Fuzzy_value_required_witness :
    noValueQuery.Value = "" ∧
    (FuzzyQuery.Fuzzy refFuzzyOps noValueQuery).2
      = some (NewQueryError Err.ErrValueRequired Kind.KindFuzzy ["user.name"]) :=
  ⟨rfl, Fuzzy_value_required refFuzzyOps noValueQuery rfl⟩

/-- C9: `MultiMatch()` validates the required fields before any optional unit,
the query before the fields. When `Query` is empty it returns the
query-required error, and when `Query` is non-empty and `Fields` is empty the
field-required error, each wrapped as a query error of kind multi_match with
the params' fields, whatever the optional attributes hold. -/
theorem MultiMatch_required_first {P : Type} (E : MultiMatchParamOps P)
    (p : MultiMatchQueryParams) :
    (p.Query = "" →
      (p.MultiMatch E).2
        = some (newQueryError Err.ErrQueryRequired Kind.QueryKindMultiMatch p.Fields))
    ∧ (p.Query ≠ "" → p.Fields = [] →
      (p.MultiMatch E).2
        = some (newQueryError Err.ErrFieldRequired Kind.QueryKindMultiMatch p.Fields)) := by
  constructor
  · intro h
    unfold MultiMatchQueryParams.MultiMatch
    rw [h]
    rfl
  · intro hq hf
    have hlen : p.Query.length ≠ 0 := fun h => hq ((length_eq_zero_iff _).mp h)
    unfold MultiMatchQueryParams.MultiMatch
    simp [MultiMatchQuery.SetQuery, MultiMatchQuery.SetFields, hlen, hf]

/-- Witness for C9: one input without a query and one with a query and without
fields, both with a negative `MaxExpansions` and an unknown `FuzzyRewrite`. -/
theorem MultiMatch_required_first_witness :
    (noQueryParams.Query = "" ∧
      (noQueryParams.MultiMatch refMultiMatchOps).2
        = some (newQueryError Err.ErrQueryRequired Kind.QueryKindMultiMatch ["title"]))
    ∧ (noFieldsParams.Query ≠ "" ∧ noFieldsParams.Fields = [] ∧
      (noFieldsParams.MultiMatch refMultiMatchOps).2
        = some (newQueryError Err.ErrFieldRequired Kind.QueryKindMultiMatch [])) :=
  ⟨⟨rfl, (MultiMatch_required_first refMultiMatchOps noQueryParams).1 rfl⟩,
   ⟨by decide, rfl,
    (MultiMatch_required_first refMultiMatchOps noFieldsParams).2 (by decide) rfl⟩⟩

/-- C10 fails as stated: with the reference parameter units, the payload
`user.name` over an object that lacks `value` and holds `max_expansions` -3
fails with the error of that parameter, and the payload `user.name` over the
empty object decodes without error to a clause with the empty value. -/
theorem FuzzyClause_missing_value_accepted :
    (FuzzyClause.UnmarshalJSON refFuzzyOps 0
        (JSON.obj [("user.name", JSON.obj [("max_expansions", JSON.num "-3")])])
        (FuzzyClause.zero refFuzzyOps)).2
      = some (Err.aggregate [("max_expansions", "negative")])
    ∧ FuzzyClause.UnmarshalJSON refFuzzyOps 0 (JSON.obj [("user.name", JSON.obj [])])
        (FuzzyClause.zero refFuzzyOps)
      = ({ field := "user.name", value := "", params := FuzzyUnits.zero }, none) :=
  ⟨by decide, by rfl⟩

/-- C10 as amended: decoding a payload with the single key `k` over `body`
never checks that `value` is present. When the parameter decoding of `body`
fails, `UnmarshalJSON` fails with that error; when it succeeds and the
returned fields hold no `value`, `UnmarshalJSON` returns no error and leaves
a clause with field `k` and the empty value. -/
theorem FuzzyClause_UnmarshalJSON_missing_value {P : Type} (E : FuzzyParamOps P)
    (pick : Nat) (k : String) (body : JSON) (prior : FuzzyClause P) :
    (∀ p err, E.unmarshalClauseParams body E.zero = (p, .error err) →
      FuzzyClause.UnmarshalJSON E pick (JSON.obj [(k, body)]) prior
        = ({ field := k, value := "", params := p }, some err))
    ∧ (∀ p fields, E.unmarshalClauseParams body E.zero = (p, .ok fields) →
      fields.get "value" = none →
      FuzzyClause.UnmarshalJSON E pick (JSON.obj [(k, body)]) prior
        = ({ field := k, value := "", params := p }, none)) := by
  constructor
  · intro p err h
    simp [FuzzyClause.UnmarshalJSON, jsonUnmarshalMap, GoMap.set, GoMap.empty, setEntry,
      GoMap.rangeFirst, Nat.mod_one, FuzzyClause.unmarshalClauseJSON, FuzzyClause.zero, h]
  · intro p fields h hv
    simp [FuzzyClause.UnmarshalJSON, jsonUnmarshalMap, GoMap.set, GoMap.empty, setEntry,
      GoMap.rangeFirst, Nat.mod_one, FuzzyClause.unmarshalClauseJSON, FuzzyClause.zero, h, hv]

/-- Witness for the amended C10: the two payloads of the counterexample. -/
theorem FuzzyClause_UnmarshalJSON_missing_value_witness :
    FuzzyClause.UnmarshalJSON refFuzzyOps 0
        (JSON.obj [("user.name", JSON.obj [("max_expansions", JSON.num "-3")])])
        (FuzzyClause.zero refFuzzyOps)
      = ({ field := "user.name", value := "", params := FuzzyUnits.zero },
          some (Err.aggregate [("max_expansions", "negative")]))
    ∧ FuzzyClause.UnmarshalJSON refFuzzyOps 0 (JSON.obj [("user.name", JSON.obj [])])
        (FuzzyClause.zero refFuzzyOps)
      = ({ field := "user.name", value := "", params := FuzzyUnits.zero }, none) :=
  ⟨(FuzzyClause_UnmarshalJSON_missing_value refFuzzyOps 0 "user.name"
      (JSON.obj [("max_expansions", JSON.num "-3")]) (FuzzyClause.zero refFuzzyOps)).1
      FuzzyUnits.zero _ (by rfl),
   (FuzzyClause_UnmarshalJSON_missing_value refFuzzyOps 0 "user.name"
      (JSON.obj []) (FuzzyClause.zero refFuzzyOps)).2
      FuzzyUnits.zero GoMap.empty (by rfl) (by rfl)⟩

/-! ## Facts about decimal literals -/

theorem digitChar_digit (k : Nat) (hk : k < 10) :
    (Nat.digitChar k).isDigit = true ∧ (Nat.digitChar k).toNat - 48 = k := by
  interval_cases k <;> decide

theorem digitsToNat_toDigitsCore (fuel : Nat) :
    ∀ (n : Nat) (ds : List Char), n < fuel →
      digitsToNat (Nat.toDigitsCore 10 fuel n ds) 0 = digitsToNat ds n := by
  induction fuel with
  | zero => intro n ds h; omega
  | succ fuel ih =>
    intro n ds h
    have hd := digitChar_digit (n % 10) (Nat.mod_lt _ (by decide))
    unfold Nat.toDigitsCore
    simp only []
    split
    · next h0 =>
      have hn : n % 10 = n := by omega
      simp only [digitsToNat, hd.1, hd.2, if_true]
      rw [hn]
      simp
    · next h0 =>
      have hlt : n / 10 < fuel := by omega
      rw [ih (n / 10) _ hlt]
      simp only [digitsToNat, hd.1, hd.2, if_true]
      congr 1
      omega

theorem toDigitsCore_ne_nil (fuel : Nat) :
    ∀ (n : Nat) (ds : List Char), ds ≠ [] ∨ 0 < fuel →
      Nat.toDigitsCore 10 fuel n ds ≠ [] := by
  induction fuel with
  | zero =>
    intro n ds h
    rcases h with h | h
    · simpa [Nat.toDigitsCore] using h
    · omega
  | succ fuel ih =>
    intro n ds _
    unfold Nat.toDigitsCore
    simp only []
    split
    · simp
    · exact ih _ _ (Or.inl (by simp))

theorem digitsToNat_toDigits (n : Nat) :
    digitsToNat (Nat.toDigits 10 n) 0 = some n := by
  unfold Nat.toDigits
  rw [digitsToNat_toDigitsCore (n + 1) n [] (by omega)]
  rfl

theorem toDigits_ne_nil (n : Nat) : Nat.toDigits 10 n ≠ [] :=
  toDigitsCore_ne_nil (n + 1) n [] (Or.inr (by omega))

theorem intLit_negSucc_toList (m : Nat) :
    (intLit (Int.negSucc m)).toList = '-' :: Nat.toDigits 10 (m + 1) := by
  show ("-" ++ Nat.repr (m + 1)).toList = _
  rw [String.toList, String.data_append]
  rfl

theorem parseInt_intLit_neg (n : Int) (hn : n < 0) : parseInt (intLit n) = some n := by
  cases n with
  | ofNat m => exact absurd hn (by simp)
  | negSucc m =>
    unfold parseInt
    rw [intLit_negSucc_toList]
    have hne := toDigits_ne_nil (m + 1)
    have hemp : (Nat.toDigits 10 (m + 1)).isEmpty = false := by
      cases h : Nat.toDigits 10 (m + 1) with
      | nil => exact absurd h hne
      | cons a t => rfl
    simp only [hemp, digitsToNat_toDigits, Option.map]
    simp [Int.negSucc_eq]

theorem intLit_neg_ne_empty (n : Int) (hn : n < 0) : intLit n ≠ "" := by
  cases n with
  | ofNat m => exact absurd hn (by simp)
  | negSucc m =>
    intro h
    have h2 := congrArg String.toList h
    rw [intLit_negSucc_toList] at h2
    simp at h2

/-! ## Facts about the reading of numbers -/

theorem isDigit_ne {c d : Char} (hc : c.isDigit = true) (hd : d.isDigit = false) : c ≠ d := by
  intro h
  rw [h, hd] at hc
  exact Bool.noConfusion hc

theorem toDigitsCore_allDigits (fuel : Nat) :
    ∀ (n : Nat) (ds : List Char), (∀ c ∈ ds, c.isDigit = true) →
      ∀ c ∈ Nat.toDigitsCore 10 fuel n ds, c.isDigit = true := by
  induction fuel with
  | zero => intro n ds h; simpa [Nat.toDigitsCore] using h
  | succ fuel ih =>
    intro n ds h
    have hd := digitChar_digit (n % 10) (Nat.mod_lt _ (by decide))
    have hds : ∀ c ∈ Nat.digitChar (n % 10) :: ds, c.isDigit = true := by
      intro c hc
      rcases List.mem_cons.1 hc with hc | hc
      · rw [hc]; exact hd.1
      · exact h c hc
    unfold Nat.toDigitsCore
    simp only []
    split
    · exact hds
    · exact ih _ _ hds

theorem toDigits_allDigits (n : Nat) : ∀ c ∈ Nat.toDigits 10 n, c.isDigit = true :=
  toDigitsCore_allDigits (n + 1) n [] (by simp)

theorem toDigitsCore_append (fuel : Nat) :
    ∀ (n : Nat) (ds : List Char),
      Nat.toDigitsCore 10 fuel n ds = Nat.toDigitsCore 10 fuel n [] ++ ds := by
  induction fuel with
  | zero => intro n ds; simp [Nat.toDigitsCore]
  | succ fuel ih =>
    intro n ds
    unfold Nat.toDigitsCore
    simp only []
    split
    · simp
    · rw [ih _ (Nat.digitChar (n % 10) :: ds), ih _ [Nat.digitChar (n % 10)]]
      simp

theorem digitsToNat_toDigits_append (n : Nat) (rest : List Char) :
    digitsToNat (Nat.toDigits 10 n ++ rest) 0 = digitsToNat rest n := by
  unfold Nat.toDigits
  rw [← toDigitsCore_append (n + 1) n rest]
  exact digitsToNat_toDigitsCore (n + 1) n rest (by omega)

theorem toDigitsCore_head (fuel : Nat) :
    ∀ (n : Nat) (ds : List Char), 0 < n → n < fuel →
      ∃ c t, Nat.toDigitsCore 10 fuel n ds = c :: t ∧ c ≠ '0' ∧ c.isDigit = true := by
  induction fuel with
  | zero => intro n ds _ h; omega
  | succ fuel ih =>
    intro n ds hpos h
    unfold Nat.toDigitsCore
    simp only []
    split
    · next h0 =>
      have hn : n % 10 = n := by omega
      have hlt : n < 10 := by omega
      refine ⟨Nat.digitChar (n % 10), ds, rfl, ?_, (digitChar_digit _ (Nat.mod_lt _ (by decide))).1⟩
      rw [hn]
      interval_cases n <;> decide
    · next h0 =>
      exact ih (n / 10) _ (by omega) (by omega)

theorem toDigits_head (n : Nat) (hpos : 0 < n) :
    ∃ c t, Nat.toDigits 10 n = c :: t ∧ c ≠ '0' ∧ c.isDigit = true :=
  toDigitsCore_head (n + 1) n [] hpos (by omega)

theorem toDigits_cons (n : Nat) :
    ∃ c t, Nat.toDigits 10 n = c :: t ∧ c.isDigit = true := by
  cases h : Nat.toDigits 10 n with
  | nil => exact absurd h (toDigits_ne_nil n)
  | cons c t =>
    refine ⟨c, t, rfl, ?_⟩
    exact toDigits_allDigits n c (by rw [h]; simp)

theorem escapeChars_plain :
    ∀ (l : List Char), (∀ c ∈ l, c ≠ Char.ofNat 34 ∧ c ≠ Char.ofNat 92) → escapeChars l = l := by
  intro l
  induction l with
  | nil => intro _; rfl
  | cons a t ih =>
    intro h
    have ha := h a (by simp)
    have ht : ∀ c ∈ t, c ≠ Char.ofNat 34 ∧ c ≠ Char.ofNat 92 :=
      fun c hc => h c (List.mem_cons_of_mem _ hc)
    simp [escapeChars, ha.1, ha.2, ih ht]

theorem UnquotedString_str_intLit_neg (n : Int) (hn : n < 0) :
    (JSON.str (intLit n)).UnquotedString = intLit n := by
  cases n with
  | ofNat m => exact absurd hn (by simp)
  | negSucc m =>
    have hl := intLit_negSucc_toList m
    have hplain : ∀ c ∈ (intLit (Int.negSucc m)).toList,
        c ≠ Char.ofNat 34 ∧ c ≠ Char.ofNat 92 := by
      intro c hc
      rw [hl] at hc
      rcases List.mem_cons.1 hc with hc | hc
      · rw [hc]; exact ⟨by decide, by decide⟩
      · have hd := toDigits_allDigits (m + 1) c hc
        exact ⟨isDigit_ne hd (by decide), isDigit_ne hd (by decide)⟩
    show String.mk (escapeChars (intLit (Int.negSucc m)).toList) = _
    rw [escapeChars_plain _ hplain]
    rfl

theorem parseUnsignedText_decimal {c : Char} (t : List Char) (h : c ≠ '0') :
    parseUnsignedText (c :: t) = digitsToNat (c :: t) 0 := by
  simp [parseUnsignedText, h]

theorem parseGoInt_intLit_neg (n : Int) (hn : n < 0) (hmin : minInt64 ≤ n) :
    parseGoInt (intLit n) = some n := by
  cases n with
  | ofNat m => exact absurd hn (by simp)
  | negSucc m =>
    obtain ⟨c, t, hct, hc0, _⟩ := toDigits_head (m + 1) (by omega)
    have hval := digitsToNat_toDigits (m + 1)
    have hle : m ≤ 9223372036854775807 := by
      have h1 : minInt64 = -(9223372036854775808 : Int) := by decide
      rw [h1, Int.negSucc_eq] at hmin
      omega
    unfold parseGoInt
    rw [intLit_negSucc_toList]
    simp only [if_true]
    rw [hct, parseUnsignedText_decimal t hc0, ← hct, hval]
    simp [hle, Int.negSucc_eq]

theorem allDigits_cons (c : Char) (t : List Char) :
    allDigits (c :: t) = true ↔ c.isDigit = true ∧ allDigits t = true := by
  simp [allDigits]

theorem takeDigits_append :
    ∀ (ds rest : List Char), allDigits ds = true → takeDigits rest = ([], rest) →
      takeDigits (ds ++ rest) = (ds, rest) := by
  intro ds
  induction ds with
  | nil => intro rest _ h; simpa using h
  | cons a t ih =>
    intro rest hd hrest
    have h := (allDigits_cons a t).1 hd
    simp [takeDigits, h.1, ih rest h.2 hrest]

theorem takeDigits_nondigit {c : Char} (t : List Char) (h : c.isDigit = false) :
    takeDigits (c :: t) = ([], c :: t) := by
  simp [takeDigits, h]

theorem takeDigits_all (ds : List Char) (h : allDigits ds = true) :
    takeDigits ds = (ds, []) := by
  have := takeDigits_append ds [] h rfl
  simpa using this

theorem digitsToNat_allDigits :
    ∀ (ds : List Char) (acc : Nat), allDigits ds = true →
      ∃ m, digitsToNat ds acc = some m := by
  intro ds
  induction ds with
  | nil => intro acc _; exact ⟨acc, rfl⟩
  | cons a t ih =>
    intro acc hd
    have h := (allDigits_cons a t).1 hd
    obtain ⟨m, hm⟩ := ih (acc * 10 + (a.toNat - 48)) h.2
    exact ⟨m, by simp [digitsToNat, h.1, hm]⟩

theorem digitsToNat_getD (ds : List Char) (h : allDigits ds = true) :
    digitsToNat ds 0 = some ((digitsToNat ds 0).getD 0) := by
  obtain ⟨m, hm⟩ := digitsToNat_allDigits ds 0 h
  rw [hm]
  rfl

theorem allDigits_append (a b : List Char) :
    allDigits (a ++ b) = true ↔ allDigits a = true ∧ allDigits b = true := by
  simp [allDigits]

theorem readSign_digit {c : Char} (t : List Char) (h : c.isDigit = true) :
    readSign (c :: t) = (false, c :: t) := by
  have h1 : c ≠ '-' := isDigit_ne h (by decide)
  have h2 : c ≠ '+' := isDigit_ne h (by decide)
  simp [readSign, h1, h2]

theorem readExponent_chars (e : ExponentPart)
    (hne : e.digits.isEmpty = false) (hd : allDigits e.digits = true) :
    readExponent e.chars = some e.value := by
  obtain ⟨c, t, hct⟩ : ∃ c t, e.digits = c :: t := by
    cases h : e.digits with
    | nil => rw [h] at hne; exact absurd hne (by decide)
    | cons c t => exact ⟨c, t, rfl⟩
  have hc : c.isDigit = true := by
    rw [hct] at hd
    exact ((allDigits_cons c t).1 hd).1
  have hmark : (if e.upper then 'E' else 'e') = 'e' ∨ (if e.upper then 'E' else 'e') = 'E' := by
    cases e.upper <;> simp
  have hsign : readSign ((match e.sign with
        | none => []
        | some true => ['-']
        | some false => ['+']) ++ e.digits) = (decide (e.sign = some true), e.digits) := by
    rcases hs : e.sign with _ | b
    · rw [hct]
      simpa using readSign_digit t hc
    · cases b <;> simp [readSign]
  obtain ⟨m, hm⟩ := digitsToNat_allDigits e.digits 0 hd
  have hv : e.value = if e.sign = some true then -(m : Int) else (m : Int) := by
    simp [ExponentPart.value, hm]
  rw [hv]
  show readExponent ((if e.upper then 'E' else 'e') :: _) = _
  simp only [readExponent, if_pos hmark, hsign, hne, hm, Option.map]
  by_cases hs : e.sign = some true <;> simp [hs]

theorem takeDigits_exponent (e : ExponentPart) : takeDigits e.chars = ([], e.chars) := by
  unfold ExponentPart.chars
  cases e.upper
  · exact takeDigits_nondigit _ (by decide)
  · exact takeDigits_nondigit _ (by decide)

theorem readFraction_exponent (e : ExponentPart) : readFraction e.chars = ([], e.chars) := by
  unfold ExponentPart.chars
  cases e.upper <;> simp [readFraction]

/-- The float syntax reads every well-formed JSON number literal as its
parts. -/
theorem parseGoFloat_literal (l : NumberLiteral) (hwf : l.wellFormed = true) :
    parseGoFloat l.text
      = some { negative := l.negative, mant := l.mantissa, scale := l.frac.length,
               exp := l.exponent } := by
  simp only [NumberLiteral.wellFormed, Bool.and_eq_true, Bool.not_eq_true'] at hwf
  obtain ⟨⟨⟨⟨hwne, hwd⟩, _⟩, hfd⟩, hexp⟩ := hwf
  obtain ⟨c, t, hct⟩ : ∃ c t, l.whole = c :: t := by
    cases h : l.whole with
    | nil => rw [h] at hwne; exact absurd hwne (by decide)
    | cons c t => exact ⟨c, t, rfl⟩
  have hc : c.isDigit = true := by
    rw [hct] at hwd
    exact ((allDigits_cons c t).1 hwd).1
  -- the tail after the fraction
  have htailT : takeDigits (match l.expo with
            | none => []
            | some e => e.chars) = ([], match l.expo with
            | none => []
            | some e => e.chars) := by
    cases l.expo with
    | none => rfl
    | some e => exact takeDigits_exponent e
  have htailF : readFraction (match l.expo with
            | none => []
            | some e => e.chars) = ([], match l.expo with
            | none => []
            | some e => e.chars) := by
    cases l.expo with
    | none => rfl
    | some e => exact readFraction_exponent e
  have htailE : readExponent (match l.expo with
            | none => []
            | some e => e.chars) = some l.exponent := by
    unfold NumberLiteral.exponent
    cases he : l.expo with
    | none => rfl
    | some e =>
      rw [he] at hexp
      simp only [Bool.and_eq_true, Bool.not_eq_true'] at hexp
      exact readExponent_chars e hexp.1 hexp.2
  generalize htl : (match l.expo with
            | none => []
            | some e => e.chars) = tail at htailT htailF htailE
  have hsign : readSign l.chars = (l.negative, l.whole
      ++ ((if l.frac.isEmpty then [] else '.' :: l.frac) ++ tail)) := by
    unfold NumberLiteral.chars
    rw [htl]
    cases l.negative
    · rw [hct]
      simpa using readSign_digit _ hc
    · simp [readSign]
  have hfracT : takeDigits ((if l.frac.isEmpty then [] else '.' :: l.frac) ++ tail)
      = ([], (if l.frac.isEmpty then [] else '.' :: l.frac) ++ tail) := by
    cases hf : l.frac with
    | nil => simpa using htailT
    | cons a r => exact takeDigits_nondigit _ (by decide)
  have hwhole := takeDigits_append l.whole _ hwd hfracT
  have hfrac : readFraction ((if l.frac.isEmpty then [] else '.' :: l.frac) ++ tail)
      = (l.frac, tail) := by
    cases hf : l.frac with
    | nil => simpa using htailF
    | cons a r =>
      rw [hf] at hfd
      simpa [readFraction] using takeDigits_append (a :: r) tail hfd htailT
  obtain ⟨m, hm⟩ := digitsToNat_allDigits (l.whole ++ l.frac) 0
    ((allDigits_append _ _).2 ⟨hwd, hfd⟩)
  have hmant : l.mantissa = m := by simp [NumberLiteral.mantissa, hm]
  have hne : (l.whole ++ l.frac).isEmpty = false := by
    rw [hct]; rfl
  rw [hmant]
  unfold parseGoFloat NumberLiteral.text
  simp only [String.toList]
  rw [hsign]
  simp only [hwhole, hfrac, hne, htailE, hm]
  rfl

/-- The reading of a well-formed JSON number literal within the range of
`float64` succeeds. -/
theorem NewNumber_literal (l : NumberLiteral) (hwf : l.wellFormed = true)
    (hrange : l.inFloat64Range = true) : ∃ n, NewNumber l.text = .ok n := by
  have hfloat := parseGoFloat_literal l hwf
  have hov : float64Overflows l.mantissa l.frac.length l.exponent = false := by
    simpa [NumberLiteral.inFloat64Range] using hrange
  unfold NewNumber
  split
  · exact ⟨_, rfl⟩
  · cases parseGoInt l.text with
    | some n => exact ⟨_, rfl⟩
    | none =>
      cases parseGoUint l.text with
      | some u => exact ⟨_, rfl⟩
      | none =>
        rw [hfloat]
        simp only [hov]
        exact ⟨_, rfl⟩

theorem digitsInBase_point (base : Nat) :
    ∀ (l : List Char) (acc : Nat), '.' ∈ l → digitsInBase base l acc = none := by
  intro l
  induction l with
  | nil => intro acc h; simp at h
  | cons a t ih =>
    intro acc h
    rcases List.mem_cons.1 h with h | h
    · rw [← h]
      rfl
    · unfold digitsInBase
      cases digitVal a with
      | none => rfl
      | some d =>
        simp only []
        split
        · exact ih _ h
        · rfl

theorem digitsToNat_point :
    ∀ (l : List Char) (acc : Nat), '.' ∈ l → digitsToNat l acc = none := by
  intro l
  induction l with
  | nil => intro acc h; simp at h
  | cons a t ih =>
    intro acc h
    rcases List.mem_cons.1 h with h | h
    · rw [← h]
      rfl
    · unfold digitsToNat
      split
      · exact ih _ h
      · rfl

theorem parseUnsignedText_point (cs : List Char) (h : '.' ∈ cs) :
    parseUnsignedText cs = none := by
  cases cs with
  | nil => simp at h
  | cons c t =>
    by_cases hc : c = '0'
    · have ht : '.' ∈ t := by
        rcases List.mem_cons.1 h with h | h
        · rw [hc] at h; exact absurd h (by decide)
        · exact h
      cases t with
      | nil => simp at ht
      | cons x ds =>
        have key : x ≠ '.' → '.' ∈ ds := by
          intro hx
          rcases List.mem_cons.1 ht with h | h
          · exact absurd h.symm hx
          · exact h
        simp only [parseUnsignedText, hc, if_true]
        split_ifs with h1 h2 h3
        · refine digitsInBase_point _ _ _ (key ?_)
          rcases h1.1 with hx | hx <;> (rw [hx]; decide)
        · refine digitsInBase_point _ _ _ (key ?_)
          rcases h2.1 with hx | hx <;> (rw [hx]; decide)
        · refine digitsInBase_point _ _ _ (key ?_)
          rcases h3.1 with hx | hx <;> (rw [hx]; decide)
        · exact digitsInBase_point _ _ _ ht
    · rw [parseUnsignedText_decimal t hc]
      exact digitsToNat_point _ _ h

/-- A text whose first character is neither a digit, a sign nor a point is
not read as a number. -/
theorem NewNumber_error_of_head (s : String) (c : Char) (t : List Char)
    (hs : s.toList = c :: t) (hd : c.isDigit = false) (hm : c ≠ '-') (hp : c ≠ '+')
    (hpt : c ≠ '.') : NewNumber s = .error (Err.invalidNumber s) := by
  have hne : s ≠ "" := by
    intro h
    rw [h] at hs
    exact absurd hs (by simp)
  have h0 : c ≠ '0' := fun h => by rw [h] at hd; exact absurd hd (by decide)
  have hdig : digitsToNat (c :: t) 0 = none := by simp [digitsToNat, hd]
  have hun : parseUnsignedText (c :: t) = none := by
    rw [parseUnsignedText_decimal t h0, hdig]
  have hint : parseGoInt s = none := by
    unfold parseGoInt
    rw [hs]
    simp [hm, hp, hun]
  have huint : parseGoUint s = none := by
    unfold parseGoUint
    rw [hs, hun]
    rfl
  have hfloat : parseGoFloat s = none := by
    unfold parseGoFloat
    rw [hs]
    simp [readSign, hm, hp, takeDigits, hd, readFraction, hpt]
  unfold NewNumber
  rw [if_neg hne, hint, huint, hfloat]

theorem toList_bracketed (a b : Char) (x : String) :
    (String.mk [a] ++ x ++ String.mk [b]).toList = a :: (x.toList ++ [b]) := by
  simp [String.toList, String.data_append]

theorem NewNumber_arr (items : List JSON) :
    NewNumber (JSON.arr items).rawString
      = .error (Err.invalidNumber (JSON.arr items).rawString) := by
  have hs : (JSON.arr items).rawString.toList
      = '[' :: ((renderItems items).toList ++ [']']) := by
    rw [JSON.rawString]
    exact toList_bracketed '[' ']' _
  exact NewNumber_error_of_head _ _ _ hs (by decide) (by decide) (by decide) (by decide)

theorem NewNumber_obj (members : List (String × JSON)) :
    NewNumber (JSON.obj members).rawString
      = .error (Err.invalidNumber (JSON.obj members).rawString) := by
  have hs : (JSON.obj members).rawString.toList
      = Char.ofNat 123 :: ((renderMembers members).toList ++ [Char.ofNat 125]) := by
    rw [JSON.rawString]
    exact toList_bracketed (Char.ofNat 123) (Char.ofNat 125) _
  exact NewNumber_error_of_head _ _ _ hs (by decide) (by decide) (by decide) (by decide)

theorem toList_half (k : Nat) :
    (toString k ++ ".5").toList = Nat.toDigits 10 k ++ ['.', '5'] := by
  show (Nat.repr k ++ ".5").toList = _
  rw [String.toList, String.data_append]
  rfl

/-- The literal of `k` and a half is read as the decimal `(10 k + 5) / 10`. -/
theorem NewNumber_half (k : Nat) (hk : k < 2 ^ 52) :
    NewNumber (toString k ++ ".5") = .ok (Number.float ((k * 10 + 5 : Nat) : Int) 1) := by
  have hl := toList_half k
  obtain ⟨c, t, hct, hc⟩ := toDigits_cons k
  have hpoint : '.' ∈ (toString k ++ ".5").toList := by
    rw [hl]; simp
  have hne : toString k ++ ".5" ≠ "" := by
    intro h
    have h2 := congrArg String.toList h
    rw [hl, hct] at h2
    simp at h2
  have hm : c ≠ '-' := isDigit_ne hc (by decide)
  have hp : c ≠ '+' := isDigit_ne hc (by decide)
  have hint : parseGoInt (toString k ++ ".5") = none := by
    have hun := parseUnsignedText_point _ hpoint
    unfold parseGoInt
    rw [hl, hct] at hun ⊢
    rw [List.cons_append] at hun ⊢
    simp [hm, hp, hun]
  have huint : parseGoUint (toString k ++ ".5") = none := by
    unfold parseGoUint
    rw [parseUnsignedText_point _ hpoint]
    rfl
  have hall : allDigits (Nat.toDigits 10 k) = true := by
    simp only [allDigits, List.all_eq_true]
    exact toDigits_allDigits k
  have hfloat : parseGoFloat (toString k ++ ".5")
      = some { negative := false, mant := k * 10 + 5, scale := 1, exp := 0 } := by
    have hsign : readSign (Nat.toDigits 10 k ++ ['.', '5'])
        = (false, Nat.toDigits 10 k ++ ['.', '5']) := by
      rw [hct]
      exact readSign_digit _ hc
    have hwhole := takeDigits_append (Nat.toDigits 10 k) ['.', '5'] hall (by rfl)
    have hmant : digitsToNat (Nat.toDigits 10 k ++ ['5']) 0 = some (k * 10 + 5) := by
      rw [digitsToNat_toDigits_append]
      rfl
    unfold parseGoFloat
    rw [hl]
    simp only [hsign, hwhole]
    have hf : readFraction ['.', '5'] = (['5'], []) := by rfl
    simp only [hf, hmant]
    simp [readExponent, hct]
  have hk2 : k < 4503599627370496 := by
    have : (2 : Nat) ^ 52 = 4503599627370496 := by norm_num
    omega
  have hov : float64Overflows (k * 10 + 5) 1 0 = false := by
    simp only [float64Overflows, float64Limit]
    norm_num
    omega
  unfold NewNumber
  rw [if_neg hne, hint, huint, hfloat]
  simp only [hov]
  rfl

theorem UnquotedString_str_half (k : Nat) :
    (JSON.str (toString k ++ ".5")).UnquotedString = toString k ++ ".5" := by
  have hl := toList_half k
  have hplain : ∀ c ∈ (toString k ++ ".5").toList,
      c ≠ Char.ofNat 34 ∧ c ≠ Char.ofNat 92 := by
    intro c hc
    rw [hl] at hc
    rcases List.mem_append.1 hc with hc | hc
    · have hd := toDigits_allDigits k c hc
      exact ⟨isDigit_ne hd (by decide), isDigit_ne hd (by decide)⟩
    · simp at hc
      rcases hc with hc | hc <;> (rw [hc]; exact ⟨by decide, by decide⟩)
  show String.mk (escapeChars (toString k ++ ".5").toList) = _
  rw [escapeChars_plain _ hplain]
  rfl

/-- The reading of some texts: an exponent, a leading zero (base 8), the
prefix of base 16, a plus sign, the greatest `int64` and its successor. -/
theorem NewNumber_examples :
    NewNumber "1e3" = .ok (Number.float 1000 0)
    ∧ NewNumber "010" = .ok (Number.int 8)
    ∧ NewNumber "0x10" = .ok (Number.int 16)
    ∧ NewNumber "+5" = .ok (Number.int 5)
    ∧ NewNumber "2.5E-1" = .ok (Number.float 25 2)
    ∧ NewNumber "9223372036854775807" = .ok (Number.int 9223372036854775807)
    ∧ NewNumber "9223372036854775808" = .ok (Number.float 9223372036854775808 0)
    ∧ NewNumber "" = .ok Number.unset
    ∧ NewNumber "abc" = .error (Err.invalidNumber "abc") :=
  ⟨by rfl, by rfl, by rfl, by rfl, by rfl, by rfl, by rfl, by rfl, by rfl⟩

theorem float64Overflows_1e999 : float64Overflows 1 0 999 = true := by
  have h : (999 - ((0 : Nat) : Int)).toNat = 999 := by decide
  simp only [float64Overflows, h]
  norm_num [float64Limit]

/-- The literal `1e999` is out of the range of `float64`. -/
theorem NewNumber_1e999 : NewNumber "1e999" = .error (Err.invalidNumber "1e999") := by
  have hne : ("1e999" : String) ≠ "" := by decide
  have hint : parseGoInt "1e999" = none := by rfl
  have huint : parseGoUint "1e999" = none := by rfl
  have hfloat : parseGoFloat "1e999"
      = some { negative := false, mant := 1, scale := 0, exp := 999 } := by rfl
  unfold NewNumber
  rw [if_neg hne, hint, huint, hfloat]
  simp only [float64Overflows_1e999, if_true]

theorem isAlpha_not_digit (c : Char) (h : c.isAlpha = true) : c.isDigit = false := by
  simp only [Char.isAlpha, Char.isUpper, Char.isLower, Char.isDigit, Bool.or_eq_true,
    Bool.and_eq_true, decide_eq_true_eq, Bool.and_eq_false_imp, decide_eq_false_iff_not] at h ⊢
  intro h1
  simp only [ge_iff_le, UInt32.le_def, BitVec.le_def] at *
  have e1 : (UInt32.toBitVec 48).toNat = 48 := rfl
  have e2 : (UInt32.toBitVec 57).toNat = 57 := rfl
  have e3 : (UInt32.toBitVec 65).toNat = 65 := rfl
  have e4 : (UInt32.toBitVec 90).toNat = 90 := rfl
  have e5 : (UInt32.toBitVec 97).toNat = 97 := rfl
  have e6 : (UInt32.toBitVec 122).toNat = 122 := rfl
  omega

theorem isAlpha_ne {c d : Char} (hc : c.isAlpha = true) (hd : d.isAlpha = false) : c ≠ d := by
  intro h
  rw [h, hd] at hc
  exact Bool.noConfusion hc

/-- A string whose first character is neither a digit, a sign nor a point is
not read as a number, whether or not that character is written escaped. -/
theorem NewNumber_str_error (c : Char) (t : List Char) (hd : c.isDigit = false)
    (hm : c ≠ '-') (hp : c ≠ '+') (hpt : c ≠ '.') :
    NewNumber (JSON.str (String.mk (c :: t))).UnquotedString
      = .error (Err.invalidNumber (JSON.str (String.mk (c :: t))).UnquotedString) := by
  by_cases hq : c = Char.ofNat 34 ∨ c = Char.ofNat 92
  · have hs : (JSON.str (String.mk (c :: t))).UnquotedString.toList
        = Char.ofNat 92 :: c :: escapeChars t := by
      simp [JSON.UnquotedString, escapeChars, hq]
    exact NewNumber_error_of_head _ _ _ hs (by decide) (by decide) (by decide) (by decide)
  · have hs : (JSON.str (String.mk (c :: t))).UnquotedString.toList
        = c :: escapeChars t := by
      simp [JSON.UnquotedString, escapeChars, hq]
    exact NewNumber_error_of_head _ _ _ hs hd hm hp hpt

/-! ## Claims about the builders and the match clause -/

/-- C11: `MultiMatch()` returns the errors of two setters bare. For every input
with a query and fields, when `SetAutoGenerateSynonymsPhraseQuery` fails, or
when it and `SetFuzzyRewrite` succeed and `SetFuzzyTranspositions` fails,
the error returned is exactly the setter's error, not wrapped by
`newQueryError` with the kind multi_match and the params' fields as the
errors of the other setters are. -/
theorem MultiMatch_bare_setter_errors {P : Type} (E : MultiMatchParamOps P)
    (p : MultiMatchQueryParams) (hq : p.Query ≠ "") (hf : p.Fields ≠ []) :
    (∀ s err,
      E.SetAutoGenerateSynonymsPhraseQuery p.AutoGenerateSynonymsPhraseQuery
          (E.SetAnalyzer p.Analyzer E.zero) = (s, some err) →
      (p.MultiMatch E).2 = some err)
    ∧ (∀ s1 s2 s3 err,
      E.SetAutoGenerateSynonymsPhraseQuery p.AutoGenerateSynonymsPhraseQuery
          (E.SetAnalyzer p.Analyzer E.zero) = (s1, none) →
      E.SetFuzzyRewrite p.FuzzyRewrite (E.SetFuzziness p.Fuzziness s1) = (s2, none) →
      E.SetFuzzyTranspositions p.FuzzyTranspositions s2 = (s3, some err) →
      (p.MultiMatch E).2 = some err) := by
  have hlen : p.Query.length ≠ 0 := fun h => hq ((length_eq_zero_iff _).mp h)
  have hfl : p.Fields.length ≠ 0 := fun h => hf (List.length_eq_zero.mp h)
  constructor
  · intro s err h1
    simp [MultiMatchQueryParams.MultiMatch, MultiMatchQuery.SetQuery,
      MultiMatchQuery.SetFields, MultiMatchQuery.zero, hlen, hfl,
      MultiMatchQueryParams.setOptional, h1]
  · intro s1 s2 s3 err h1 h2 h3
    simp [MultiMatchQueryParams.MultiMatch, MultiMatchQuery.SetQuery,
      MultiMatchQuery.SetFields, MultiMatchQuery.zero, hlen, hfl,
      MultiMatchQueryParams.setOptional, h1, h2, h3]

/-- Witness for C11: with the reference parameter units, a non-boolean
`AutoGenerateSynonymsPhraseQuery` and a non-boolean `FuzzyTranspositions`
each come back as the bare error of the unit. -/
theorem MultiMatch_bare_setter_errors_witness :
    (MultiMatchQueryParams.MultiMatch refMultiMatchOps
        { MultiMatchQueryParams.zero with
          Query := "quick fox", Fields := ["title"],
          AutoGenerateSynonymsPhraseQuery := Any.int 7 }).2
      = some (Err.param "auto_generate_synonyms_phrase_query" "not a boolean")
    ∧ (MultiMatchQueryParams.MultiMatch refMultiMatchOps
        { MultiMatchQueryParams.zero with
          Query := "quick fox", Fields := ["title"],
          FuzzyTranspositions := Any.int 7 }).2
      = some (Err.param "fuzzy_transpositions" "not a boolean") :=
  ⟨(MultiMatch_bare_setter_errors refMultiMatchOps
      { MultiMatchQueryParams.zero with
        Query := "quick fox", Fields := ["title"],
        AutoGenerateSynonymsPhraseQuery := Any.int 7 } (by decide) (by decide)).1
      MultiMatchUnits.zero _ (by rfl),
   (MultiMatch_bare_setter_errors refMultiMatchOps
      { MultiMatchQueryParams.zero with
        Query := "quick fox", Fields := ["title"],
        FuzzyTranspositions := Any.int 7 } (by decide) (by decide)).2
      MultiMatchUnits.zero MultiMatchUnits.zero MultiMatchUnits.zero _
      (by rfl) (by rfl) (by rfl)⟩

/-- C12: `MatchQuery.UnmarshalJSON` does not return on a JSON object. The method
hands its own receiver pointer to `json.Unmarshal`, which calls the method
again with the same bytes: for every bound on the depth of calls and every
object the bound is reached before the call returns. Only `null` is
decoded, to the zero clause. -/
theorem MatchQuery_UnmarshalJSON_object_diverges {P : Type} (E : MatchParamOps P)
    (pick fuel : Nat) (members : List (String × JSON)) (prior : MatchQuery P) :
    MatchQuery.UnmarshalJSON E pick fuel (JSON.obj members) prior = none
    ∧ MatchQuery.UnmarshalJSON E pick (fuel + 1) JSON.null prior
        = some (MatchQuery.zero E, none) := by
  constructor
  · induction fuel generalizing prior with
    | zero => rfl
    | succ k ih =>
      simp only [MatchQuery.UnmarshalJSON]
      rw [ih]
  · simp [MatchQuery.UnmarshalJSON, GoMap.rangeFirst, GoMap.empty]

/-- C13: `MatchQuery.SetQuery` never stores the query. For every clause and every
query the receiver after `SetQuery` is the receiver before it, so `Query()`
is unchanged; and whenever `Match()` returns a clause, its `Query()` is the
zero value, whatever `Query` the `Match` carried. -/
theorem MatchQuery_SetQuery_not_stored {P : Type} (E : MatchParamOps P) (m : MatchQuery P)
    (q : Any) (mt : Match) :
    (m.SetQuery q).1 = m
    ∧ (m.SetQuery q).1.Query = m.Query
    ∧ ((Match.Match E mt).1 = none
        ∨ ∃ v, (Match.Match E mt).1 = some v ∧ v.Query = StringNumberBoolOrTime.unset) := by
  have h1 : (m.SetQuery q).1 = m := by
    unfold MatchQuery.SetQuery
    cases q <;> rfl
  refine ⟨h1, by rw [h1], ?_⟩
  have h0 : ∀ (x : Any), ((MatchQuery.zero E).SetQuery x).1 = MatchQuery.zero E := by
    intro x
    unfold MatchQuery.SetQuery
    cases x <;> rfl
  unfold Match.Match
  simp only []
  split
  · exact Or.inl rfl
  · next v hv =>
    have hv1 := congrArg Prod.fst hv
    rw [h0] at hv1
    simp only [] at hv1
    subst hv1
    split
    · exact Or.inl rfl
    · exact Or.inr ⟨_, rfl, rfl⟩

/-- C14: `MatchQuery.SetQuery` accepts the empty string. For `nil` it returns the
query-required error; for the empty string it returns no error and leaves
the receiver as it was. -/
theorem MatchQuery_SetQuery_empty_accepted {P : Type} (m : MatchQuery P) :
    m.SetQuery Any.nil = (m, some Err.ErrQueryRequired)
    ∧ m.SetQuery (Any.str "") = (m, none) :=
  ⟨rfl, rfl⟩

/-! ## Facts about maps -/

theorem mem_setEntry (k : String) (v : JSON) (l : List (String × JSON)) :
    (k, v) ∈ setEntry k v l := by
  induction l with
  | nil => simp [setEntry]
  | cons x xs ih =>
    unfold setEntry
    split
    · exact List.mem_cons_self _ _
    · exact List.mem_cons_of_mem _ ih

theorem setEntry_keys (k : String) (v : JSON) (l : List (String × JSON)) :
    (setEntry k v l).map Prod.fst
      = if k ∈ l.map Prod.fst then l.map Prod.fst else l.map Prod.fst ++ [k] := by
  induction l with
  | nil => simp [setEntry]
  | cons x xs ih =>
    unfold setEntry
    by_cases hx : x.1 = k
    · simp [hx]
    · have hx2 : ¬ k = x.1 := fun h => hx h.symm
      simp only [hx, if_false, List.map_cons, ih, List.mem_cons, hx2, false_or]
      split <;> simp

theorem setEntry_keys_nodup (k : String) (v : JSON) (l : List (String × JSON))
    (h : (l.map Prod.fst).Nodup) : ((setEntry k v l).map Prod.fst).Nodup := by
  rw [setEntry_keys]
  split
  · exact h
  · next hk =>
    rw [List.nodup_append]
    refine ⟨h, List.nodup_singleton _, ?_⟩
    intro a ha hb
    rw [List.mem_singleton] at hb
    exact hk (hb ▸ ha)

theorem setEntry_fresh (k : String) (v : JSON) (l : List (String × JSON))
    (h : k ∉ l.map Prod.fst) : setEntry k v l = l ++ [(k, v)] := by
  induction l with
  | nil => rfl
  | cons x xs ih =>
    have hx : ¬ x.1 = k := fun e => h (by simp [e])
    have hxs : k ∉ xs.map Prod.fst := fun e => h (by simp [e])
    simp [setEntry, hx, ih hxs]

theorem insertByKey_perm (e : String × JSON) (l : List (String × JSON)) :
    (insertByKey e l).Perm (e :: l) := by
  induction l with
  | nil => exact List.Perm.refl _
  | cons x xs ih =>
    unfold insertByKey
    split
    · exact List.Perm.refl _
    · exact (List.Perm.cons x ih).trans (List.Perm.swap e x xs)

theorem sortByKey_perm (l : List (String × JSON)) : (sortByKey l).Perm l := by
  induction l with
  | nil => exact List.Perm.refl _
  | cons x xs ih =>
    unfold sortByKey
    exact (insertByKey_perm x _).trans (List.Perm.cons x ih)

theorem foldl_set_fresh (members : List (String × JSON)) :
    ∀ (d : GoMap), ((d.entries ++ members).map Prod.fst).Nodup →
      (members.foldl (fun m e => m.set e.1 e.2) d).entries = d.entries ++ members := by
  induction members with
  | nil => intro d _; simp
  | cons x xs ih =>
    intro d h
    have hx : x.1 ∉ d.entries.map Prod.fst := by
      intro hmem
      rw [List.map_append, List.nodup_append] at h
      exact h.2.2 hmem (by simp)
    have hset : (d.set x.1 x.2).entries = d.entries ++ [x] := by
      show setEntry x.1 x.2 d.entries = _
      rw [setEntry_fresh _ _ _ hx]
    rw [List.foldl_cons, ih]
    · rw [hset]; simp
    · rw [hset]; simpa using h

theorem unmarshalMap_of_nodup (members : List (String × JSON))
    (h : (members.map Prod.fst).Nodup) :
    jsonUnmarshalMap (JSON.obj members) GoMap.empty = (⟨members⟩, none) := by
  have hf := foldl_set_fresh members GoMap.empty (by simpa [GoMap.empty] using h)
  simp only [GoMap.empty, List.nil_append] at hf
  simp only [jsonUnmarshalMap, GoMap.empty]
  congr 1
  cases hr : List.foldl (fun m e => m.set e.1 e.2) ({ entries := [] } : GoMap) members with
  | mk entries =>
    rw [hr] at hf
    simp only [] at hf
    rw [hf]

/-! ## Claims about the fuzzy clause, the store unit and prefix_length -/

/-- C15: on success `Fuzzy()` sets the transpositions unit to the negation of
`NoTranspositions`, once. For every getter `Transpositions` of the unit that
reads back what `SetTranspositions` stored and that the setters of the name,
the fuzziness and the prefix length leave alone, a `Fuzzy()` that returns no
error yields a clause whose transpositions are `!NoTranspositions`. -/
theorem Fuzzy_transpositions_negated {P : Type} (E : FuzzyParamOps P)
    (Transpositions : P → Bool)
    (hset : ∀ b p, Transpositions (E.SetTranspositions b p) = b)
    (hname : ∀ n p, Transpositions (E.SetName n p) = Transpositions p)
    (hfuzz : ∀ z p, Transpositions (E.SetFuzziness z p) = Transpositions p)
    (hpl : ∀ n p, Transpositions (E.SetPrefixLength n p) = Transpositions p)
    (f : FuzzyQuery) (h : (f.Fuzzy E).2 = none) :
    Transpositions (f.Fuzzy E).1.params = !f.NoTranspositions := by
  unfold FuzzyQuery.Fuzzy at h ⊢
  simp only [] at h ⊢
  split
  · next q err hq =>
    rw [hq] at h
    simp at h
  · next q hq =>
    rw [hq] at h
    simp only [] at h ⊢
    split
    · next p err hp =>
      rw [hp] at h
      simp at h
    · next p hp =>
      rw [hp] at h
      simp only [] at h ⊢
      split
      · next p2 err hp2 =>
        rw [hp2] at h
        simp at h
      · simp only [hpl, hfuzz, hname, hset]

/-- Witness for C15: with the reference parameter units, a query with
`NoTranspositions` true yields transpositions false. -/
theorem Fuzzy_transpositions_negated_witness :
    (FuzzyQuery.Fuzzy refFuzzyOps { kimchQuery with NoTranspositions := true }).2 = none
    ∧ (FuzzyQuery.Fuzzy refFuzzyOps
        { kimchQuery with NoTranspositions := true }).1.params.transpositions.getD true
      = false :=
  ⟨by decide,
   Fuzzy_transpositions_negated refFuzzyOps (fun p => p.transpositions.getD true)
    (fun _ _ => rfl) (fun _ _ => rfl) (fun _ _ => rfl) (fun _ _ => rfl)
    { kimchQuery with NoTranspositions := true } (by decide)⟩

/-- C16: for every `FuzzyClause` that is not empty and whose parameters marshal
to a map `m` (a Go map, so with distinct keys), `MarshalJSON` yields an
object with exactly one top-level key, `Field()`, over an object with
distinct keys in which the entry of `"value"` is the search value of the
clause, whatever the parameter units wrote. -/
theorem FuzzyClause_MarshalJSON_shape {P : Type} (E : FuzzyParamOps P) (c : FuzzyClause P)
    (m : GoMap) (hne : c.IsEmpty = false) (hm : E.marshalClauseParams c.params = .ok m)
    (hkeys : (m.entries.map Prod.fst).Nodup) :
    ∃ members, c.MarshalJSON E = .ok (JSON.obj [(c.Field, JSON.obj members)])
      ∧ (members.map Prod.fst).Nodup
      ∧ ("value", JSON.str c.Vale) ∈ members
      ∧ ∀ v, ("value", v) ∈ members → v = JSON.str c.Vale := by
  have hperm := sortByKey_perm (setEntry "value" (JSON.str c.value) m.entries)
  have hnd : ((sortByKey (setEntry "value" (JSON.str c.value) m.entries)).map
      Prod.fst).Nodup :=
    ((hperm.map Prod.fst).nodup_iff).mpr (setEntry_keys_nodup _ _ _ hkeys)
  have hmem : ("value", JSON.str c.value)
      ∈ sortByKey (setEntry "value" (JSON.str c.value) m.entries) :=
    hperm.mem_iff.mpr (mem_setEntry _ _ _)
  refine ⟨sortByKey (setEntry "value" (JSON.str c.value) m.entries), ?_, hnd, hmem, ?_⟩
  · simp [FuzzyClause.MarshalJSON, FuzzyClause.marshalClauseJSON, hne, hm, GoMap.empty,
      FuzzyClause.Field]
    rfl
  · intro v hv
    have h := List.inj_on_of_nodup_map hnd hv hmem rfl
    exact (Prod.mk.inj h).2

/-- Witness for C16: the scenario clause with the reference parameter units. -/
theorem FuzzyClause_MarshalJSON_shape_witness :
    ∃ members, kimchClause.MarshalJSON refFuzzyOps
        = .ok (JSON.obj [(kimchClause.Field, JSON.obj members)])
      ∧ (members.map Prod.fst).Nodup
      ∧ ("value", JSON.str kimchClause.Vale) ∈ members
      ∧ ∀ v, ("value", v) ∈ members → v = JSON.str kimchClause.Vale :=
  FuzzyClause_MarshalJSON_shape refFuzzyOps kimchClause kimchParamsMap (by decide) (by rfl)
    (by decide)

/-- C17 fails as stated: with a repeated key the member that comes last wins,
so exchanging the two members of the payload changes the decoded value; and
the payload with the two keys `a` and `b` decodes to field `a` or to field
`b` according to the entry the map iteration visits first. -/
theorem FuzzyClause_UnmarshalJSON_order_matters :
    (FuzzyClause.UnmarshalJSON refFuzzyOps 0
        (JSON.obj [("a", JSON.obj [("value", JSON.str "x")]),
                   ("a", JSON.obj [("value", JSON.str "y")])])
        (FuzzyClause.zero refFuzzyOps)).1.value = "y"
    ∧ (FuzzyClause.UnmarshalJSON refFuzzyOps 0
        (JSON.obj [("a", JSON.obj [("value", JSON.str "y")]),
                   ("a", JSON.obj [("value", JSON.str "x")])])
        (FuzzyClause.zero refFuzzyOps)).1.value = "x"
    ∧ (FuzzyClause.UnmarshalJSON refFuzzyOps 0 twoKeyPayload
        (FuzzyClause.zero refFuzzyOps)).1.field = "a"
    ∧ (FuzzyClause.UnmarshalJSON refFuzzyOps 1 twoKeyPayload
        (FuzzyClause.zero refFuzzyOps)).1.field = "b" :=
  ⟨by decide, by decide, by decide, by decide⟩

/-- C17 as amended: for every JSON object whose top-level keys are distinct and
every reordering of its members, decoding has the same possible outcomes:
whatever one order yields for some map iteration order, the other order
yields for some map iteration order too. When the object has at most one
member the outcome does not depend on the iteration order. -/
theorem FuzzyClause_UnmarshalJSON_reorder {P : Type} (E : FuzzyParamOps P)
    (members reordered : List (String × JSON)) (prior : FuzzyClause P)
    (hkeys : (members.map Prod.fst).Nodup) (hperm : members.Perm reordered) :
    (∀ pick, ∃ pick2,
      FuzzyClause.UnmarshalJSON E pick (JSON.obj members) prior
        = FuzzyClause.UnmarshalJSON E pick2 (JSON.obj reordered) prior)
    ∧ (members.length ≤ 1 → ∀ pick pick2,
      FuzzyClause.UnmarshalJSON E pick (JSON.obj members) prior
        = FuzzyClause.UnmarshalJSON E pick2 (JSON.obj members) prior) := by
  have hkeys2 : (reordered.map Prod.fst).Nodup :=
    ((hperm.map Prod.fst).nodup_iff).mp hkeys
  have hmap := unmarshalMap_of_nodup members hkeys
  have hmap2 := unmarshalMap_of_nodup reordered hkeys2
  constructor
  · intro pick
    simp only [FuzzyClause.UnmarshalJSON, hmap, hmap2, GoMap.rangeFirst]
    cases hmem : members with
    | nil =>
      have hr : reordered = [] := by
        rw [hmem] at hperm
        exact List.Perm.eq_nil (hperm.symm)
      exact ⟨0, by simp [hr]⟩
    | cons x xs =>
      rw [← hmem]
      have hpos : 0 < members.length := by rw [hmem]; simp
      have hlt : pick % members.length < members.length := Nat.mod_lt _ hpos
      have hin : members[pick % members.length] ∈ reordered :=
        hperm.mem_iff.mp (List.getElem_mem hlt)
      rcases List.getElem_of_mem hin with ⟨i, hi, hget⟩
      refine ⟨i, ?_⟩
      rw [List.getElem?_eq_getElem hlt, Nat.mod_eq_of_lt hi, List.getElem?_eq_getElem hi,
        hget]
  · intro hlen pick pick2
    simp only [FuzzyClause.UnmarshalJSON, hmap, GoMap.rangeFirst]
    cases hmem : members with
    | nil => simp
    | cons x xs =>
      have hxs : xs = [] := by
        rw [hmem] at hlen
        simp at hlen
        exact hlen
      simp [hxs, Nat.mod_one]

/-- Witness for the amended C17: the payload with the keys `a` and `b` and its
members exchanged. -/
theorem FuzzyClause_UnmarshalJSON_reorder_witness :
    ∃ pick2,
      FuzzyClause.UnmarshalJSON refFuzzyOps 0
          (JSON.obj [("a", JSON.obj [("value", JSON.str "x")]),
                     ("b", JSON.obj [("value", JSON.str "y")])])
          (FuzzyClause.zero refFuzzyOps)
        = FuzzyClause.UnmarshalJSON refFuzzyOps pick2
          (JSON.obj [("b", JSON.obj [("value", JSON.str "y")]),
                     ("a", JSON.obj [("value", JSON.str "x")])])
          (FuzzyClause.zero refFuzzyOps) :=
  (FuzzyClause_UnmarshalJSON_reorder refFuzzyOps
    [("a", JSON.obj [("value", JSON.str "x")]), ("b", JSON.obj [("value", JSON.str "y")])]
    [("b", JSON.obj [("value", JSON.str "y")]), ("a", JSON.obj [("value", JSON.str "x")])]
    (FuzzyClause.zero refFuzzyOps) (by decide) (List.Perm.swap _ _ _)).1 0

/-- C18 fails as stated: after `SetStore(false)` on the never-set unit the
pointer is set (to false) where the never-set unit has nil, and the encoding
holds the key `store` with false. -/
theorem StoreParam_explicit_false_encoded :
    (StoreParam.zero.SetStore false).StoreValue = some false
    ∧ StoreParam.zero.StoreValue = none
    ∧ (StoreParam.zero.SetStore false).MarshalJSON
        = JSON.obj [("store", JSON.bool false)] :=
  ⟨rfl, rfl, rfl⟩

/-- C18 as amended: for every boolean `v`, false included, after `SetStore(v)`
the unit holds `v` explicitly and its encoding holds the key `store` with
`v`; only the never-set unit omits the key. After `SetStore(false)` the getter
`Store()` returns false as it does for the never-set unit. -/
theorem StoreParam_SetStore_encoded (sa : StoreParam) (v : Bool) :
    (sa.SetStore v).StoreValue = some v
    ∧ (sa.SetStore v).MarshalJSON = JSON.obj [("store", JSON.bool v)]
    ∧ StoreParam.zero.MarshalJSON = JSON.obj []
    ∧ (sa.SetStore false).Store = StoreParam.zero.Store :=
  ⟨rfl, rfl, rfl, rfl⟩

/-- C19 fails as stated: `unmarshalPrefixLengthParam` applied to the number -3, or
to the string `-3`, returns no error and stores -3, and `PrefixLength()`
then returns -3. -/
theorem unmarshalPrefixLengthParam_negative_stored :
    unmarshalPrefixLengthParam (JSON.num "-3") (some { prefixLengthValue := none })
      = (some { prefixLengthValue := some (-3) }, none)
    ∧ unmarshalPrefixLengthParam (JSON.str "-3") (some { prefixLengthValue := none })
      = (some { prefixLengthValue := some (-3) }, none)
    ∧ prefixLengthParam.PrefixLength { prefixLengthValue := some (-3) } = -3 :=
  ⟨by decide, by decide, by decide⟩

/-- C19 as amended: a negative prefix_length is accepted. For every negative
integer `n` of `int64`, `unmarshalPrefixLengthParam` applied to the JSON number
`n`, or to the string of `n`, returns no error and stores `n` in the target,
so `PrefixLength()` returns `n` after decoding. -/
theorem unmarshalPrefixLengthParam_negative {n : Int} (pl : prefixLengthParam)
    (hneg : n < 0) (hmin : minInt64 ≤ n) :
    unmarshalPrefixLengthParam (JSON.num (intLit n)) (some pl)
      = (some { prefixLengthValue := some n }, none)
    ∧ unmarshalPrefixLengthParam (JSON.str (intLit n)) (some pl)
      = (some { prefixLengthValue := some n }, none)
    ∧ prefixLengthParam.PrefixLength { prefixLengthValue := some n } = n := by
  have hmax : n ≤ maxInt64 := by
    have : (0 : Int) ≤ maxInt64 := by decide
    omega
  have hnum : NewNumber (intLit n) = .ok (Number.int n) := by
    unfold NewNumber
    rw [if_neg (intLit_neg_ne_empty n hneg), parseGoInt_intLit_neg n hneg hmin]
  refine ⟨?_, ?_, rfl⟩
  · simp [unmarshalPrefixLengthParam, JSON.UnquotedString, JSON.rawString, hnum, Number.asInt,
      prefixLengthParam.SetPrefixLength]
  · simp [unmarshalPrefixLengthParam, UnquotedString_str_intLit_neg n hneg, hnum, Number.asInt,
      prefixLengthParam.SetPrefixLength]

/-- Witness for the amended C19: the integer -3. -/
theorem unmarshalPrefixLengthParam_negative_witness :
    unmarshalPrefixLengthParam (JSON.num (intLit (-3))) (some { prefixLengthValue := some 7 })
      = (some { prefixLengthValue := some (-3) }, none)
    ∧ unmarshalPrefixLengthParam (JSON.str (intLit (-3))) (some { prefixLengthValue := some 7 })
      = (some { prefixLengthValue := some (-3) }, none)
    ∧ prefixLengthParam.PrefixLength { prefixLengthValue := some (-3) } = -3 :=
  unmarshalPrefixLengthParam_negative { prefixLengthValue := some 7 } (by decide) (by decide)

/-- C20 fails as stated: after `SetPrefixLength(0)` the unit has a value, and
`marshalPrefixLengthParam` writes nothing into the output map. -/
theorem marshalPrefixLengthParam_zero_omitted :
    (prefixLengthParam.SetPrefixLength { prefixLengthValue := none } 0).prefixLengthValue
      = some 0
    ∧ marshalPrefixLengthParam GoMap.empty
        (some (prefixLengthParam.SetPrefixLength { prefixLengthValue := none } 0))
      = (GoMap.empty, none) :=
  ⟨rfl, rfl⟩

/-- C20 as amended: a prefix_length unit that has a value encodes unless the
value equals the default. For every `v` other than 0, after
`SetPrefixLength(v)` `marshalPrefixLengthParam` writes the key `prefix_length` with
value `v` into the output map; for `v` equal to 0 it leaves the map as it
was. -/
theorem marshalPrefixLengthParam_after_set (data : GoMap) (pl : prefixLengthParam) (v : Int) :
    (v ≠ 0 →
      marshalPrefixLengthParam data (some (pl.SetPrefixLength v))
        = (data.set "prefix_length" (JSON.num (intLit v)), none))
    ∧ (v = 0 →
      marshalPrefixLengthParam data (some (pl.SetPrefixLength v)) = (data, none)) := by
  constructor
  · intro hv
    simp [marshalPrefixLengthParam, prefixLengthParam.SetPrefixLength,
      prefixLengthParam.PrefixLength, DefaultPrefixLength, hv, paramPrefixLength]
  · intro hv
    simp [marshalPrefixLengthParam, prefixLengthParam.SetPrefixLength,
      prefixLengthParam.PrefixLength, DefaultPrefixLength, hv]

/-- Witness for the amended C20: the values 1 and 0 on the empty map. -/
theorem marshalPrefixLengthParam_after_set_witness :
    marshalPrefixLengthParam GoMap.empty
        (some (prefixLengthParam.SetPrefixLength { prefixLengthValue := none } 1))
      = (GoMap.empty.set "prefix_length" (JSON.num (intLit 1)), none)
    ∧ marshalPrefixLengthParam GoMap.empty
        (some (prefixLengthParam.SetPrefixLength { prefixLengthValue := none } 0))
      = (GoMap.empty, none) :=
  ⟨(marshalPrefixLengthParam_after_set GoMap.empty { prefixLengthValue := none } 1).1
      (by decide),
   (marshalPrefixLengthParam_after_set GoMap.empty { prefixLengthValue := none } 0).2 rfl⟩

/-! ## Facts about map lookup -/

theorem find_setEntry_self (k : String) (v : JSON) (l : List (String × JSON)) :
    (setEntry k v l).find? (fun e => e.1 = k) = some (k, v) := by
  induction l with
  | nil => simp [setEntry]
  | cons x xs ih =>
    unfold setEntry
    by_cases hx : x.1 = k
    · simp [hx]
    · simp [hx, ih]

theorem find_setEntry_other (k k2 : String) (v : JSON) (l : List (String × JSON))
    (h : k2 ≠ k) :
    (setEntry k v l).find? (fun e => e.1 = k2) = l.find? (fun e => e.1 = k2) := by
  have hk : ¬ k = k2 := fun e => h e.symm
  induction l with
  | nil => simp [setEntry, hk]
  | cons x xs ih =>
    unfold setEntry
    by_cases hx : x.1 = k
    · have hx2 : ¬ x.1 = k2 := fun e => h (e.symm.trans hx)
      simp [hx, hx2, hk]
    · by_cases hx2 : x.1 = k2
      · simp [hx, hx2, h]
      · simp [hx, hx2, ih]

theorem get_set_self (m : GoMap) (k : String) (v : JSON) : (m.set k v).get k = some v := by
  simp [GoMap.get, GoMap.set, find_setEntry_self]

theorem get_set_other (m : GoMap) (k k2 : String) (v : JSON) (h : k2 ≠ k) :
    (m.set k v).get k2 = m.get k2 := by
  simp [GoMap.get, GoMap.set, find_setEntry_other k k2 v m.entries h]

/-! ## Claims about the parameter units and the range fields -/

/-- C21 fails as stated: `unmarshalPrefixLengthParam` applied to the number 1.5,
and to the empty string, returns no error and leaves the unit unset, so
`PrefixLength()` is the default 0. -/
theorem unmarshalPrefixLengthParam_fraction_ignored :
    unmarshalPrefixLengthParam (JSON.num "1.5") (some { prefixLengthValue := none })
      = (some { prefixLengthValue := none }, none)
    ∧ unmarshalPrefixLengthParam (JSON.str "") (some { prefixLengthValue := none })
      = (some { prefixLengthValue := none }, none)
    ∧ prefixLengthParam.PrefixLength { prefixLengthValue := none } = 0 :=
  ⟨by decide, by decide, by decide⟩

/-- C21 as amended: `unmarshalPrefixLengthParam` returns a type error, and leaves
the unit as it was, on every boolean, every array and every object, and on
every string whose first character is a letter (`abc` among them; the
letters that start the words `inf`, `infinity` and `nan`, which
`strconv.ParseFloat` reads, are left out). On the empty string, and on the
number and the string `k.5` for every natural `k` below `2 ^ 52` (1.5 among
them), it returns no error and leaves the unit as it was. -/
theorem unmarshalPrefixLengthParam_non_integer (pl : prefixLengthParam) (b : Bool)
    (items : List JSON) (members : List (String × JSON)) (c : Char) (t : List Char) (k : Nat)
    (ha : c.isAlpha = true) (_hc : c ∉ ['i', 'I', 'n', 'N']) (hk : k < 2 ^ 52) :
    unmarshalPrefixLengthParam (JSON.bool b) (some pl)
      = (some pl, some (Err.unmarshalType (JSON.bool b).rawString "float64"))
    ∧ unmarshalPrefixLengthParam (JSON.arr items) (some pl)
      = (some pl, some (Err.unmarshalType (JSON.arr items).rawString "float64"))
    ∧ unmarshalPrefixLengthParam (JSON.obj members) (some pl)
      = (some pl, some (Err.unmarshalType (JSON.obj members).rawString "float64"))
    ∧ unmarshalPrefixLengthParam (JSON.str (String.mk (c :: t))) (some pl)
      = (some pl, some (Err.unmarshalType (JSON.str (String.mk (c :: t))).rawString "float64"))
    ∧ unmarshalPrefixLengthParam (JSON.str "") (some pl) = (some pl, none)
    ∧ unmarshalPrefixLengthParam (JSON.num (toString k ++ ".5")) (some pl) = (some pl, none)
    ∧ unmarshalPrefixLengthParam (JSON.str (toString k ++ ".5")) (some pl)
      = (some pl, none) := by
  have hhalf := NewNumber_half k hk
  have hnot : (Number.float ((k * 10 + 5 : Nat) : Int) 1).asInt = none := by
    have hmod : ¬ (10 : Int) ∣ ((k : Int) * 10 + 5) := by omega
    simp [Number.asInt, hmod]
  have hstr := NewNumber_str_error c t (isAlpha_not_digit c ha) (isAlpha_ne ha (by decide))
    (isAlpha_ne ha (by decide)) (isAlpha_ne ha (by decide))
  refine ⟨?_, ?_, ?_, ?_, ?_, ?_, ?_⟩
  · cases b <;> rfl
  · simp [unmarshalPrefixLengthParam, JSON.UnquotedString, NewNumber_arr items]
  · simp [unmarshalPrefixLengthParam, JSON.UnquotedString, NewNumber_obj members]
  · simp only [unmarshalPrefixLengthParam, hstr]
  · rfl
  · simp only [unmarshalPrefixLengthParam, JSON.UnquotedString, JSON.rawString, hhalf, hnot]
  · simp only [unmarshalPrefixLengthParam, UnquotedString_str_half k, hhalf, hnot]

/-- Witness for the amended C21: the boolean true, the array `[1]`, the empty
object, the string `abc` and the literal 1.5. -/
theorem unmarshalPrefixLengthParam_non_integer_witness :
    unmarshalPrefixLengthParam (JSON.bool true) (some { prefixLengthValue := some 4 })
      = (some { prefixLengthValue := some 4 }, some (Err.unmarshalType "true" "float64"))
    ∧ unmarshalPrefixLengthParam (JSON.arr [JSON.num "1"]) (some { prefixLengthValue := some 4 })
      = (some { prefixLengthValue := some 4 }, some (Err.unmarshalType "[1]" "float64"))
    ∧ unmarshalPrefixLengthParam (JSON.obj []) (some { prefixLengthValue := some 4 })
      = (some { prefixLengthValue := some 4 }, some (Err.unmarshalType "\x7b\x7d" "float64"))
    ∧ unmarshalPrefixLengthParam (JSON.str "abc") (some { prefixLengthValue := some 4 })
      = (some { prefixLengthValue := some 4 }, some (Err.unmarshalType "\"abc\"" "float64"))
    ∧ unmarshalPrefixLengthParam (JSON.str "") (some { prefixLengthValue := some 4 })
      = (some { prefixLengthValue := some 4 }, none)
    ∧ unmarshalPrefixLengthParam (JSON.num "1.5") (some { prefixLengthValue := some 4 })
      = (some { prefixLengthValue := some 4 }, none)
    ∧ unmarshalPrefixLengthParam (JSON.str "1.5") (some { prefixLengthValue := some 4 })
      = (some { prefixLengthValue := some 4 }, none) :=
  unmarshalPrefixLengthParam_non_integer { prefixLengthValue := some 4 } true [JSON.num "1"] []
    'a' ['b', 'c'] 1 (by decide) (by decide) (by decide)

/-- C22 fails as stated: decoding the JSON string `0.5` and re-encoding writes
the JSON number 0.5 under `cutoff_frequency`, the same entry as for the JSON
number 0.5. -/
theorem cutoffFrequency_string_becomes_number :
    marshalCutoffFrequencyParam GoMap.empty
        (unmarshalCutoffFrequencyParam (JSON.str "0.5")
          (some { cutoffFrequency := Number.unset })).1
      = (⟨[("cutoff_frequency", JSON.num "0.5")]⟩, none)
    ∧ marshalCutoffFrequencyParam GoMap.empty
        (unmarshalCutoffFrequencyParam (JSON.num "0.5")
          (some { cutoffFrequency := Number.unset })).1
      = (⟨[("cutoff_frequency", JSON.num "0.5")]⟩, none) :=
  ⟨by rfl, by rfl⟩

/-- C22 as amended: cutoff_frequency does not keep the JSON scalar kind. For
every text, decoding it as a JSON string and decoding it as a JSON number
end in the same target and the same error, so re-encoding writes the same
entry for both. -/
theorem cutoffFrequency_kind_not_kept (lit : String) (target : Option cutoffFrequencyParam)
    (data : GoMap) :
    unmarshalCutoffFrequencyParam (JSON.str lit) target
      = unmarshalCutoffFrequencyParam (JSON.num lit) target
    ∧ marshalCutoffFrequencyParam data (unmarshalCutoffFrequencyParam (JSON.str lit) target).1
      = marshalCutoffFrequencyParam data
          (unmarshalCutoffFrequencyParam (JSON.num lit) target).1 := by
  have h : unmarshalCutoffFrequencyParam (JSON.str lit) target
      = unmarshalCutoffFrequencyParam (JSON.num lit) target := by
    cases target with
    | none => rfl
    | some a =>
      simp [unmarshalCutoffFrequencyParam, JSON.IsNull, JSON.IsString, JSON.IsNumber,
        jsonUnmarshalString, JSON.UnquotedString, JSON.rawString]
  exact ⟨h, by rw [h]⟩

/-- C23 fails as stated: `1e999` is a numeric literal, and `unmarshalCutoffFrequencyParam`
applied to the JSON number 1e999 and to the JSON string `1e999` returns an
error both times and leaves the target as it was: the value is out of the
range of `float64`. -/
theorem cutoffFrequency_out_of_range :
    NumberLiteral.wellFormed
        { negative := false, whole := ['1'], frac := [],
          expo := some { upper := false, sign := none, digits := ['9', '9', '9'] } } = true
    ∧ NumberLiteral.text
        { negative := false, whole := ['1'], frac := [],
          expo := some { upper := false, sign := none, digits := ['9', '9', '9'] } } = "1e999"
    ∧ unmarshalCutoffFrequencyParam (JSON.num "1e999") (some { cutoffFrequency := Number.unset })
      = (some { cutoffFrequency := Number.unset }, some (Err.invalidNumber "1e999"))
    ∧ unmarshalCutoffFrequencyParam (JSON.str "1e999") (some { cutoffFrequency := Number.unset })
      = (some { cutoffFrequency := Number.unset }, some (Err.invalidNumber "1e999")) :=
  ⟨by decide, by decide,
    by simp [unmarshalCutoffFrequencyParam, JSON.IsNull, JSON.IsString, JSON.IsNumber,
      JSON.UnquotedString, JSON.rawString, NewNumber_1e999],
    by simp [unmarshalCutoffFrequencyParam, JSON.IsNull, JSON.IsString, jsonUnmarshalString,
      NewNumber_1e999]⟩

/-- C23 as amended: for every JSON number literal whose value is within the
range of `float64`, `unmarshalCutoffFrequencyParam` applied to the JSON number
with that literal and to the JSON string with that text both return no error
and store the same number, the one `dynamic.NewNumber` reads from the text. -/
theorem cutoffFrequency_number_or_string (l : NumberLiteral) (cf : cutoffFrequencyParam)
    (hwf : l.wellFormed = true) (hrange : l.inFloat64Range = true) :
    ∃ n, NewNumber l.text = .ok n
      ∧ unmarshalCutoffFrequencyParam (JSON.num l.text) (some cf)
        = (some { cutoffFrequency := n }, none)
      ∧ unmarshalCutoffFrequencyParam (JSON.str l.text) (some cf)
        = (some { cutoffFrequency := n }, none) := by
  obtain ⟨n, h⟩ := NewNumber_literal l hwf hrange
  refine ⟨n, h, ?_, ?_⟩
  · simp [unmarshalCutoffFrequencyParam, JSON.IsNull, JSON.IsString, JSON.IsNumber,
      JSON.UnquotedString, JSON.rawString, h, cutoffFrequencyParam.SetCutoffFreuency]
  · simp [unmarshalCutoffFrequencyParam, JSON.IsNull, JSON.IsString, jsonUnmarshalString, h,
      cutoffFrequencyParam.SetCutoffFreuency]

/-- Witness for the amended C23: the literal `1e3`. -/
theorem cutoffFrequency_number_or_string_witness :
    ∃ n, NewNumber "1e3" = .ok n
      ∧ unmarshalCutoffFrequencyParam (JSON.num "1e3") (some { cutoffFrequency := Number.int 3 })
        = (some { cutoffFrequency := n }, none)
      ∧ unmarshalCutoffFrequencyParam (JSON.str "1e3") (some { cutoffFrequency := Number.int 3 })
        = (some { cutoffFrequency := n }, none) :=
  cutoffFrequency_number_or_string
    { negative := false, whole := ['1'], frac := [],
      expo := some { upper := false, sign := none, digits := ['3'] } }
    { cutoffFrequency := Number.int 3 } (by decide) (by decide)

/-- C24: `SetMaxBoost` does not change the param of its caller. For every param
`p` and every `v`, after `p.SetMaxBoost(v)` the caller's `p` is what it was
and `p.MaxBoost()` returns what it returned before; on an unset param that
is `math.MaxFloat32`, whatever `v` was. The copy the body worked on does
hold `v` when `v` differs from the old value. -/
theorem MaxBoostParam_SetMaxBoost_no_effect {F : Type} (X : Float64 F) (p : MaxBoostParam F)
    (v : F) :
    MaxBoostParam.SetMaxBoost X p v = p
    ∧ (MaxBoostParam.SetMaxBoost X p v).MaxBoost X = p.MaxBoost X
    ∧ (MaxBoostParam.SetMaxBoost X { MaxBoostValue := none } v).MaxBoost X = X.MaxFloat32
    ∧ MaxBoostParam.MaxBoost X { MaxBoostValue := none } = X.MaxFloat32
    ∧ (MaxBoostParam.SetMaxBoostBody X p v
        = if X.ne (p.MaxBoost X) v then { MaxBoostValue := some v } else p) :=
  ⟨rfl, rfl, rfl, rfl, rfl⟩

/-- C25: the builders hand `SetCoerce` the params struct, not `p.Coerce`. For each
of the six range-field builders, when `SetCoerce` rejects the params struct
itself the builder returns that error, whatever `p.Coerce`, `p.Index` and
`p.Store` hold; the coerce unit is not set from `p.Coerce`. -/
theorem RangeField_SetCoerce_gets_params {P : Type} (E : RangeFieldOps P)
    (p : rangeFieldParams) (goType : String) (s : P) (err : Err)
    (h : E.SetCoerce (p.boxed goType) E.zero = (s, some err)) :
    rangeFieldSetters E (p.boxed goType) p = (s, some err)
    ∧ (goType = "IntegerRangeFieldParams" →
        IntegerRangeFieldParams.IntegerRange E p = ({ mixins := s }, some err))
    ∧ (goType = "FloatRangeFieldParams" →
        FloatRangeFieldParams.FloatRange E p = ({ mixins := s }, some err))
    ∧ (goType = "LongRangeFieldParams" →
        LongRangeFieldParams.LongRange E p = ({ mixins := s }, some err))
    ∧ (goType = "DoubleRangeFieldParams" →
        DoubleRangeFieldParams.DoubleRange E p = ({ mixins := s }, some err))
    ∧ (goType = "DateRangeFieldParams" →
        DateRangeFieldParams.DateRange E p = ({ mixins := s }, some err))
    ∧ (goType = "IPRangeFieldParams" →
        IPRangeFieldParams.IPRange E p = ({ mixins := s }, some err)) := by
  have h1 : rangeFieldSetters E (p.boxed goType) p = (s, some err) := by
    simp [rangeFieldSetters, h]
  refine ⟨h1, ?_, ?_, ?_, ?_, ?_, ?_⟩
  · intro hg; subst hg
    simp [IntegerRangeFieldParams.IntegerRange, h1]
  · intro hg; subst hg
    simp [FloatRangeFieldParams.FloatRange, h1]
  · intro hg; subst hg
    simp [LongRangeFieldParams.LongRange, h1]
  · intro hg; subst hg
    simp [DoubleRangeFieldParams.DoubleRange, h1]
  · intro hg; subst hg
    simp [DateRangeFieldParams.DateRange, h1]
  · intro hg; subst hg
    simp [IPRangeFieldParams.IPRange, h1]

/-- Witness for C25: with the reference units, the params with `Coerce` true
and nothing else make `IntegerRange()` fail on the coerce unit, where the
setters applied to `p.Coerce`, `p.Index` and `p.Store` succeed and set coerce
to true. -/
theorem RangeField_SetCoerce_gets_params_witness :
    IntegerRangeFieldParams.IntegerRange refRangeOps
        { Coerce := Any.bool true, Index := Any.nil, Store := Any.nil }
      = ({ mixins := { coerce := none, index := none, store := none } },
          some (Err.param "coerce" "not a boolean"))
    ∧ rangeFieldSetters refRangeOps (Any.bool true)
        { Coerce := Any.bool true, Index := Any.nil, Store := Any.nil }
      = ({ coerce := some true, index := none, store := none }, none) :=
  ⟨(RangeField_SetCoerce_gets_params refRangeOps
      { Coerce := Any.bool true, Index := Any.nil, Store := Any.nil }
      "IntegerRangeFieldParams" { coerce := none, index := none, store := none }
      (Err.param "coerce" "not a boolean") (by rfl)).2.1 rfl,
   by rfl⟩

/-- C26: `SetMatch` with the empty field tags its error with the kind term. For
every clause and every non-nil `Match`, `SetMatch("", match)` leaves the
receiver as it was and returns the field-required error wrapped as a query
error of kind `TypeTerm`, while the kind of a `MatchQuery` is `TypeMatch`. -/
theorem MatchQuery_SetMatch_empty_field_kind {P : Type} (E : MatchParamOps P)
    (m : MatchQuery P) (mt : Match) :
    m.SetMatch E "" (some mt)
      = (m, some (NewQueryError Err.ErrFieldRequired Kind.TypeTerm []))
    ∧ m.Type = Kind.TypeMatch :=
  ⟨rfl, rfl⟩

/-- C27 fails as stated: with the reference units, a query with a value, a
negative `MaxExpansions` and an unknown `Rewrite` fails with the error of
`max_expansions` alone, wrapped as a query error of kind fuzzy. -/
theorem Fuzzy_first_error_only :
    (FuzzyQuery.Fuzzy refFuzzyOps badParamsQuery).2
      = some (NewQueryError (Err.param "max_expansions" "negative") Kind.KindFuzzy
          ["user.name"]) :=
  by decide

/-- C27 as amended: parameter errors end `Fuzzy()` at the first one. For every
`FuzzyQuery` with a non-empty `Value` whose `MaxExpansions` is rejected with
`err`, `Fuzzy()` returns `err` wrapped as a query error of kind fuzzy naming
`Field`, whatever `Rewrite` holds: `SetRewrite` is not reached and its error
is not reported. -/
theorem Fuzzy_short_circuit {P : Type} (E : FuzzyParamOps P) (f : FuzzyQuery) (p : P)
    (err : Err) (hv : f.Value ≠ "")
    (hme : E.SetMaxExpansions f.MaxExpansions E.zero = (p, some err)) (r : Rewrite) :
    (FuzzyQuery.Fuzzy E { f with Rewrite := r }).2
      = some (NewQueryError err Kind.KindFuzzy [f.Field]) := by
  have hlen : f.Value.length ≠ 0 := fun h => hv ((length_eq_zero_iff _).mp h)
  simp [FuzzyQuery.Fuzzy, FuzzyClause.setValue, hlen, hme]

/-- Witness for the amended C27: the negative `MaxExpansions` of `badParamsQuery`
with a valid `Rewrite` in place of the unknown one gives the same error. -/
theorem Fuzzy_short_circuit_witness :
    (FuzzyQuery.Fuzzy refFuzzyOps { badParamsQuery with Rewrite := "constant_score" }).2
      = some (NewQueryError (Err.param "max_expansions" "negative") Kind.KindFuzzy
          ["user.name"]) :=
  Fuzzy_short_circuit refFuzzyOps badParamsQuery FuzzyUnits.zero
    (Err.param "max_expansions" "negative") (by decide) (by rfl) "constant_score"

/-- C28: for every boolean, every array and every object, and every target,
`unmarshalCutoffFrequencyParam` returns the type error for `dynamic.Number` and
leaves the target as it was: the setter is not called. -/
theorem unmarshalCutoffFrequencyParam_type_error (cf : cutoffFrequencyParam) (b : Bool)
    (items : List JSON) (members : List (String × JSON)) :
    unmarshalCutoffFrequencyParam (JSON.bool b) (some cf)
      = (some cf, some (Err.unmarshalType (JSON.bool b).rawString "dynamic.Number"))
    ∧ unmarshalCutoffFrequencyParam (JSON.arr items) (some cf)
      = (some cf, some (Err.unmarshalType (JSON.arr items).rawString "dynamic.Number"))
    ∧ unmarshalCutoffFrequencyParam (JSON.obj members) (some cf)
      = (some cf, some (Err.unmarshalType (JSON.obj members).rawString "dynamic.Number")) :=
  ⟨rfl, rfl, rfl⟩

/-- C29: `marshalPrefixLengthParam` never returns an error; when `PrefixLength()`
differs from 0 it sets the key `prefix_length` to `PrefixLength()`, and when
`PrefixLength()` is 0, as for the unset unit, it returns the map as it was;
every other key keeps its entry. -/
theorem marshalPrefixLengthParam_default_omission (data : GoMap) (pl : prefixLengthParam) :
    (marshalPrefixLengthParam data (some pl)).2 = none
    ∧ (pl.PrefixLength ≠ 0 →
        (marshalPrefixLengthParam data (some pl)).1
          = data.set "prefix_length" (JSON.num (intLit pl.PrefixLength))
        ∧ (marshalPrefixLengthParam data (some pl)).1.get "prefix_length"
          = some (JSON.num (intLit pl.PrefixLength)))
    ∧ (pl.PrefixLength = 0 → (marshalPrefixLengthParam data (some pl)).1 = data)
    ∧ (∀ k, k ≠ "prefix_length" →
        (marshalPrefixLengthParam data (some pl)).1.get k = data.get k)
    ∧ marshalPrefixLengthParam data (some { prefixLengthValue := none }) = (data, none) := by
  by_cases h0 : pl.PrefixLength = 0
  · have hr : marshalPrefixLengthParam data (some pl) = (data, none) := by
      simp [marshalPrefixLengthParam, DefaultPrefixLength, h0]
    refine ⟨by rw [hr], fun h => absurd h0 h, fun _ => by rw [hr], fun k _ => by rw [hr], rfl⟩
  · have hr : marshalPrefixLengthParam data (some pl)
        = (data.set "prefix_length" (JSON.num (intLit pl.PrefixLength)), none) := by
      simp [marshalPrefixLengthParam, DefaultPrefixLength, h0, paramPrefixLength]
    refine ⟨by rw [hr], fun _ => ⟨by rw [hr], by rw [hr]; exact get_set_self _ _ _⟩,
      fun h => absurd h h0, fun k hk => by rw [hr]; exact get_set_other _ _ _ _ hk, rfl⟩

/-- Witness for C29: the unit holding 3 on a map that holds `boost`. -/
theorem marshalPrefixLengthParam_default_omission_witness :
    (marshalPrefixLengthParam boostOnlyMap (some { prefixLengthValue := some 3 })).1
      = boostOnlyMap.set "prefix_length" (JSON.num (intLit 3))
    ∧ (marshalPrefixLengthParam boostOnlyMap (some { prefixLengthValue := some 3 })).1.get
        "prefix_length" = some (JSON.num (intLit 3))
    ∧ (marshalPrefixLengthParam boostOnlyMap (some { prefixLengthValue := some 3 })).1.get
        "boost" = boostOnlyMap.get "boost"
    ∧ (marshalPrefixLengthParam boostOnlyMap (some { prefixLengthValue := some 0 })).1
      = boostOnlyMap :=
  ⟨((marshalPrefixLengthParam_default_omission boostOnlyMap
      { prefixLengthValue := some 3 }).2.1 (by decide)).1,
   ((marshalPrefixLengthParam_default_omission boostOnlyMap
      { prefixLengthValue := some 3 }).2.1 (by decide)).2,
   (marshalPrefixLengthParam_default_omission boostOnlyMap
      { prefixLengthValue := some 3 }).2.2.2.1 "boost" (by decide),
   (marshalPrefixLengthParam_default_omission boostOnlyMap
      { prefixLengthValue := some 0 }).2.2.1 rfl⟩

/-- C30: `Store()` returns false when no value has been set, and for every
boolean `v` and every prior state, `Store()` returns `v` after
`SetStore(v)`. -/
theorem StoreParam_Store_after_SetStore (sa : StoreParam) (v : Bool) :
    StoreParam.zero.Store = false ∧ (sa.SetStore v).Store = v :=
  ⟨rfl, rfl⟩

/-! ## Claims about the mutators, the composed clause and the field encodings -/

/-- C31: for every clause, field name, `checkField` and `Fuzzier`, if `Set(field,
fuzzier)` returns no error then afterwards `Field()` is the field argument,
whatever field the clause of the `Fuzzier` carried; and `Set` does return
whenever the `Fuzzier` hands back a clause. -/
theorem FuzzyClause_Set_field {P : Type} (checkField : String → Kind → Option Err)
    (f : FuzzyClause P) (field : String) (fuzzier : Fuzzier P) :
    (∀ g, f.Set checkField field fuzzier = some (g, none) → g.Field = field)
    ∧ (∀ q e, fuzzier = (some q, e) → ∃ r, f.Set checkField field fuzzier = some r) := by
  constructor
  · intro g h
    unfold FuzzyClause.Set at h
    split at h
    · simp at h
    · split at h
      · simp at h
      · split at h
        · simp at h
        · simp only [Option.some.injEq, Prod.mk.injEq, and_true] at h
          rw [← h]
          rfl
  · intro q e hq
    subst hq
    unfold FuzzyClause.Set
    cases e with
    | some err => exact ⟨_, rfl⟩
    | none =>
      simp only []
      cases checkField field Kind.KindFuzzy with
      | some err => exact ⟨_, rfl⟩
      | none => exact ⟨_, rfl⟩

/-- Witness for C31: the scenario query carries the field `user.name`; set
under `title` on the zero clause, the clause has the field `title`. -/
theorem FuzzyClause_Set_field_witness :
    FuzzyClause.Set refCheckField (FuzzyClause.zero refFuzzyOps) "title"
        (kimchQuery.asFuzzier refFuzzyOps)
      = some ({ (FuzzyQuery.Fuzzy refFuzzyOps kimchQuery).1 with field := "title" }, none)
    ∧ FuzzyClause.Field
        ({ (FuzzyQuery.Fuzzy refFuzzyOps kimchQuery).1 with field := "title" } :
          FuzzyClause FuzzyUnits) = "title" :=
  ⟨by rfl,
   (FuzzyClause_Set_field refCheckField (FuzzyClause.zero refFuzzyOps) "title"
      (kimchQuery.asFuzzier refFuzzyOps)).1 _ (by rfl)⟩

theorem setOptional_core {P : Type} (E : MultiMatchParamOps P) (p : MultiMatchQueryParams)
    (q : MultiMatchQuery P) :
    (MultiMatchQueryParams.setOptional E p q).1.query = q.query
    ∧ (MultiMatchQueryParams.setOptional E p q).1.fields = q.fields := by
  unfold MultiMatchQueryParams.setOptional
  simp only []
  repeat' split
  all_goals exact ⟨rfl, rfl⟩

/-- C32: a successfully composed multi_match clause is complete. For every
`MultiMatchQueryParams` `p`, if `MultiMatch()` returns no error then `p.Query`
and `p.Fields` are non-empty, the clause has `Query()` equal to `p.Query` and
`Fields()` equal to `p.Fields`, and `IsEmpty()` is false. -/
theorem MultiMatch_success_complete {P : Type} (E : MultiMatchParamOps P)
    (p : MultiMatchQueryParams) (h : (p.MultiMatch E).2 = none) :
    p.Query ≠ "" ∧ p.Fields ≠ []
    ∧ (p.MultiMatch E).1.Query = p.Query
    ∧ (p.MultiMatch E).1.Fields = p.Fields
    ∧ (p.MultiMatch E).1.IsEmpty = false := by
  by_cases hq : p.Query.length = 0
  · simp [MultiMatchQueryParams.MultiMatch, MultiMatchQuery.SetQuery, hq] at h
  · by_cases hf : p.Fields.length = 0
    · simp [MultiMatchQueryParams.MultiMatch, MultiMatchQuery.SetQuery,
        MultiMatchQuery.SetFields, hq, hf] at h
    · have hres : p.MultiMatch E
          = MultiMatchQueryParams.setOptional E p
              { query := p.Query, fields := p.Fields, params := E.zero } := by
        simp [MultiMatchQueryParams.MultiMatch, MultiMatchQuery.SetQuery,
          MultiMatchQuery.SetFields, MultiMatchQuery.zero, hq, hf]
      have hcore := setOptional_core E p
        { query := p.Query, fields := p.Fields, params := E.zero }
      have hqe : p.Query ≠ "" := fun e => hq ((length_eq_zero_iff _).mpr e)
      have hfe : p.Fields ≠ [] := fun e => hf (by simp [e])
      refine ⟨hqe, hfe, ?_, ?_, ?_⟩
      · rw [hres]; exact hcore.1
      · rw [hres]; exact hcore.2
      · rw [hres]
        simp [MultiMatchQuery.IsEmpty, hcore.1, hcore.2, hq, hf]

/-- Witness for C32: the query `quick fox` on the fields `title` and `body`. -/
theorem MultiMatch_success_complete_witness :
    quickFoxParams.Query ≠ "" ∧ quickFoxParams.Fields ≠ []
    ∧ (quickFoxParams.MultiMatch refMultiMatchOps).1.Query = quickFoxParams.Query
    ∧ (quickFoxParams.MultiMatch refMultiMatchOps).1.Fields = quickFoxParams.Fields
    ∧ (quickFoxParams.MultiMatch refMultiMatchOps).1.IsEmpty = false :=
  MultiMatch_success_complete refMultiMatchOps quickFoxParams (by decide)

/-- C33: `MatchQuery.UnmarshalJSON` returns only on `null`. For every JSON value,
either it is `null` and the call returns the zero clause with no error, or
it is not `null` and no bound on the depth of calls lets the call return:
the method calls itself through `json.Unmarshal` with the same bytes. -/
theorem MatchQuery_UnmarshalJSON_returns_only_on_null {P : Type} (E : MatchParamOps P)
    (pick fuel : Nat) (data : JSON) (prior : MatchQuery P) :
    (data = JSON.null
      ∧ MatchQuery.UnmarshalJSON E pick (fuel + 1) data prior
          = some (MatchQuery.zero E, none))
    ∨ (data.IsNull = false
      ∧ ∀ n q, MatchQuery.UnmarshalJSON E pick n data q = none) := by
  cases data with
  | null =>
    left
    exact ⟨rfl, by simp [MatchQuery.UnmarshalJSON, GoMap.rangeFirst, GoMap.empty]⟩
  | bool b =>
    right
    refine ⟨rfl, ?_⟩
    intro n
    induction n with
    | zero => intro q; rfl
    | succ k ih => intro q; simp only [MatchQuery.UnmarshalJSON]; rw [ih]
  | num lit =>
    right
    refine ⟨rfl, ?_⟩
    intro n
    induction n with
    | zero => intro q; rfl
    | succ k ih => intro q; simp only [MatchQuery.UnmarshalJSON]; rw [ih]
  | str s =>
    right
    refine ⟨rfl, ?_⟩
    intro n
    induction n with
    | zero => intro q; rfl
    | succ k ih => intro q; simp only [MatchQuery.UnmarshalJSON]; rw [ih]
  | arr items =>
    right
    refine ⟨rfl, ?_⟩
    intro n
    induction n with
    | zero => intro q; rfl
    | succ k ih => intro q; simp only [MatchQuery.UnmarshalJSON]; rw [ih]
  | obj members =>
    right
    refine ⟨rfl, ?_⟩
    intro n
    induction n with
    | zero => intro q; rfl
    | succ k ih => intro q; simp only [MatchQuery.UnmarshalJSON]; rw [ih]

/-- C34: `Set` is atomic on failure. For every clause `f`, field name,
`checkField` and `Fuzzier`, if `Set` returns an error, from the `Fuzzier` or
from the field check, then the receiver after the call is `f`. -/
theorem FuzzyClause_Set_atomic {P : Type} (checkField : String → Kind → Option Err)
    (f g : FuzzyClause P) (field : String) (fuzzier : Fuzzier P) (err : Err)
    (h : f.Set checkField field fuzzier = some (g, some err)) : g = f := by
  unfold FuzzyClause.Set at h
  split at h
  · simp only [Option.some.injEq, Prod.mk.injEq] at h
    exact h.1.symm
  · split at h
    · simp only [Option.some.injEq, Prod.mk.injEq] at h
      exact h.1.symm
    · split at h
      · simp at h
      · simp at h

/-- Witness for C34: on the scenario clause, a `Fuzzier` without a value fails
and a valid `Fuzzier` under the empty field name fails; both leave the
scenario clause. -/
theorem FuzzyClause_Set_atomic_witness :
    (FuzzyClause.Set refCheckField kimchClause "title"
        (noValueQuery.asFuzzier refFuzzyOps)
      = some (kimchClause, some (NewQueryError
          (NewQueryError Err.ErrValueRequired Kind.KindFuzzy ["user.name"])
          Kind.KindFuzzy ["title"])))
    ∧ (FuzzyClause.Set refCheckField kimchClause "" (kimchQuery.asFuzzier refFuzzyOps)
      = some (kimchClause, some (NewQueryError Err.ErrFieldRequired Kind.KindFuzzy [])))
    ∧ kimchClause = kimchClause :=
  ⟨by rfl, by rfl,
   FuzzyClause_Set_atomic refCheckField kimchClause kimchClause ""
    (kimchQuery.asFuzzier refFuzzyOps)
    (NewQueryError Err.ErrFieldRequired Kind.KindFuzzy []) (by rfl)⟩

/-- C35: `SetField` does not change the clause of its caller. For every
`MatchQuery` `m` and every string `f`, after `m.SetField(f)` the getter
`m.Field()` returns what it returned before, so on the zero clause it
returns the empty string; the copy the body worked on does hold `f`. -/
theorem MatchQuery_SetField_no_effect {P : Type} (E : MatchParamOps P) (m : MatchQuery P)
    (f : String) :
    (m.SetField f).Field = m.Field
    ∧ ((MatchQuery.zero E).SetField f).Field = ""
    ∧ (m.SetFieldBody f).Field = f :=
  ⟨rfl, rfl, rfl⟩

theorem omitemptyMember_key (key : String) (v : Any) (k : String)
    (h : k ∈ (omitemptyMember key v).map Prod.fst) : k = key := by
  unfold omitemptyMember at h
  split at h
  · simp at h
  · simpa using h

theorem rangeFieldParams_keys (p : rangeFieldParams) :
    ∃ members, jsonMarshalRangeFieldParams p = JSON.obj members
      ∧ ∀ k, k ∈ members.map Prod.fst → k = "coerce" ∨ k = "index" ∨ k = "store" := by
  refine ⟨_, rfl, ?_⟩
  intro k hk
  rw [List.map_append, List.map_append, List.mem_append, List.mem_append] at hk
  rcases hk with (h | h) | h
  · exact Or.inl (omitemptyMember_key _ _ _ h)
  · exact Or.inr (Or.inl (omitemptyMember_key _ _ _ h))
  · exact Or.inr (Or.inr (omitemptyMember_key _ _ _ h))

/-- C36: the encoding of a range field does not carry its type. For every
state of the units, `MarshalJSON` of an `IntegerRangeField` returns an object
whose keys are among `coerce`, `index` and `store`; the five other variants
with the same units return the same JSON; and `MarshalJSON` of a
`BinaryField` returns an object that holds the key `type`. -/
theorem RangeField_MarshalJSON_untyped {P Q : Type} (E : RangeFieldOps P)
    (B : BinaryFieldOps Q) (s : P) (b : BinaryField Q) :
    (∃ members, IntegerRangeField.MarshalJSON E { mixins := s } = .ok (JSON.obj members)
      ∧ ∀ k, k ∈ members.map Prod.fst → k = "coerce" ∨ k = "index" ∨ k = "store")
    ∧ FloatRangeField.MarshalJSON E { mixins := s }
        = IntegerRangeField.MarshalJSON E { mixins := s }
    ∧ LongRangeField.MarshalJSON E { mixins := s }
        = IntegerRangeField.MarshalJSON E { mixins := s }
    ∧ DoubleRangeField.MarshalJSON E { mixins := s }
        = IntegerRangeField.MarshalJSON E { mixins := s }
    ∧ DateRangeField.MarshalJSON E { mixins := s }
        = IntegerRangeField.MarshalJSON E { mixins := s }
    ∧ IPRangeField.MarshalJSON E { mixins := s }
        = IntegerRangeField.MarshalJSON E { mixins := s }
    ∧ (∃ members, b.MarshalJSON B = .ok (JSON.obj members)
      ∧ ("type", JSON.str FieldTypeBinary) ∈ members)
    ∧ IntegerRangeField.MarshalJSON refRangeOps
        { mixins := { coerce := some true, index := none, store := some false } }
      = .ok (JSON.obj [("coerce", JSON.bool true), ("store", JSON.bool false)]) := by
  refine ⟨?_, rfl, rfl, rfl, rfl, rfl, ?_, by rfl⟩
  · rcases rangeFieldParams_keys
      { Coerce := E.coerceValue s, Index := E.indexValue s, Store := E.storeValue s }
      with ⟨members, hm, hk⟩
    exact ⟨members, by simp [IntegerRangeField.MarshalJSON, hm], hk⟩
  · refine ⟨_, rfl, ?_⟩
    simp [BinaryField.Type]

end Picker
